import Mathlib

/-!
# Stage progression and calendar synchronisation of the placement backend

A shallow embedding of the handlers in `backend/routes/drives.js` and
`backend/routes/admin.js` that make up the application stage workflow:

* `POST /api/drives/:id/apply`                      (`applyToDrive`)
* `PUT  /api/admin/applications/:id/next-stage`     (`advanceStage`)
* `PUT  /api/admin/applications/:id/reject`         (`rejectApplication`)
* `PUT  /api/admin/applications/:id/stage`          (`updateStage`)

together with the counselling handlers of `backend/routes/counseling.js`
(`applyForSession`, `cancelApplication`, `submitFeedback`), the event
registration of `backend/routes/events.js` (`registerForEvent`) and two
pure functions of the frontend (`mockAnalyzeFromName`, `handleSubmitCode`).

The document database is an explicit `Store` (a `CounsellingStore` for the
counselling collections); every handler is a function from a store to a
response and a new store.  Everything the handlers get from outside (the
clock, date parsing, storage calls that throw) is a field of `Env`.
-/

namespace Fsd

/-! ## JavaScript helpers -/

/-- JavaScript `a || b` on an optional string: `undefined` and the empty
string are both falsy. -/
def strOr (a : Option String) (b : String) : String :=
  match a with
  | some s => if s = "" then b else s
  | none => b

/-- JavaScript truthiness of an optional string. -/
def truthy (a : Option String) : Bool :=
  match a with
  | some s => !(s = "")
  | none => false

/-- Whether the characters `p` start the characters `l`. -/
def startsWithChars : List Char → List Char → Bool
  | [], _ => true
  | _ :: _, [] => false
  | a :: p, b :: l => a == b && startsWithChars p l

/-- Whether the characters `p` occur somewhere inside `l`. -/
def includesChars (p : List Char) : List Char → Bool
  | [] => startsWithChars p []
  | b :: l => startsWithChars p (b :: l) || includesChars p l

/-- JavaScript `s.startsWith(p)`. -/
def startsWith (s p : String) : Bool := startsWithChars p.data s.data

/-- JavaScript `s.includes(p)`. -/
def includes (s p : String) : Bool := includesChars p.data s.data

/-! ## Data model -/

/-- Modelled from the spec: the `status` enum of the Application schema
(`models/Application.js` is not among the sources); the spec lists
`applied | stage-progress | selected | rejected`. -/
inductive AppStatus where
  | applied
  | stageProgress
  | selected
  | rejected
deriving DecidableEq, Repr

/-- Modelled from the spec: the `status` enum of the Event schema
(`models/Event.js` is not among the sources); the spec lists
`scheduled | ongoing | completed | cancelled`. -/
inductive EventStatus where
  | scheduled
  | ongoing
  | completed
  | cancelled
deriving DecidableEq, Repr

/-- One entry of an application's `updates` history. -/
structure Update where
  stage : Option String
  status : AppStatus
  date : Nat
  notes : String
deriving DecidableEq, Repr

/-- Modelled from the spec: the Application document
(`models/Application.js` is not among the sources).  `driveId` is absent
for applications that are not drive applications, `currentStage` and
`processStageIndex` may be absent (the handlers read them through `||`). -/
structure Application where
  id : Nat
  userId : Nat
  driveId : Option Nat
  status : AppStatus
  currentStage : Option String
  processStageIndex : Option Nat
  nextStep : String
  updates : List Update
deriving DecidableEq, Repr

/-- One item of a drive's `processSchedule`; every field is optional. -/
structure ScheduleItem where
  stage : Option String
  date : Option String
  time : Option String
  venue : Option String
  description : Option String
deriving DecidableEq, Repr

/-- Modelled from the spec: the CompanyDrive document
(`models/CompanyDrive.js` is not among the sources), restricted to the
fields the handlers read or write. -/
structure Drive where
  id : Nat
  company : String
  role : String
  process : List String
  processSchedule : List ScheduleItem
  applicants : Nat
deriving DecidableEq, Repr

/-- The value of `eventDate` after `eventDate.setHours(hours, minutes, 0, 0)`:
the parsed schedule date together with the two arguments of `setHours`. -/
structure EventDate where
  base : Nat
  hours : Nat
  minutes : Nat
deriving DecidableEq, Repr

structure Attendee where
  userId : Nat
  status : String
deriving DecidableEq, Repr

/-- The `metadata` blob of an event. -/
structure Metadata where
  applicationId : Option Nat
  driveId : Option Nat
  stageIndex : Option Nat
deriving DecidableEq, Repr

/-- Modelled from the spec: the Event document (`models/Event.js` is not
among the sources), with the fields written by `Event.create` in
`drives.js` and the `maxAttendees` limit read by the registration handler
of `events.js` (absent on the events that `drives.js` creates). -/
structure Event where
  id : Nat
  title : String
  type : String
  date : EventDate
  time : String
  location : String
  description : Option String
  organizer : String
  attendees : List Attendee
  status : EventStatus
  isActive : Bool
  metadata : Option Metadata
  maxAttendees : Option Int := none
deriving DecidableEq, Repr

/-- The three collections the handlers touch and the supply of fresh
document ids. -/
structure Store where
  drives : List Drive
  applications : List Application
  events : List Event
  nextId : Nat
deriving DecidableEq, Repr

/-- What a handler gets from outside the code.

* `now` is the value of `new Date()`;
* `parseDate d` is `new Date(d).getTime()`, `none` for an invalid date;
* `primaryFails n` says that the `n`-th awaited call of the running handler
  on the collection it serves (drives and applications, counselling
  sessions and applications, or events for the registration) throws;
* `eventFindFails` says that `Event.find` throws;
* `eventCreateFails i` says that `Event.create` throws for schedule item `i`;
* `eventSaveFails id` says that `event.save()` throws for the event `id`;
* `updateMany` is the effect of the `Event.updateMany` call of the reject
  handler on one matching event, `none` when the call throws. -/
structure Env where
  now : Nat
  parseDate : String → Option Nat
  primaryFails : Nat → Bool
  eventFindFails : Bool
  eventCreateFails : Nat → Bool
  eventSaveFails : Nat → Bool
  updateMany : Option (Event → Event)

/-- The JSON body of a response. -/
inductive Body where
  | application (a : Application)
  | message (m : String)
deriving DecidableEq, Repr

/-- An HTTP response: status code and JSON body. -/
structure Response where
  status : Nat
  body : Body
deriving DecidableEq, Repr

/-! ## Storage primitives -/

/-- The first drive with the given id (`CompanyDrive.findById`). -/
def findDrive (s : Store) (id : Nat) : Option Drive :=
  s.drives.find? (fun d => d.id == id)

/-- The first application with the given id (`Application.findById`). -/
def findApplication (s : Store) (id : Nat) : Option Application :=
  s.applications.find? (fun a => a.id == id)

/-- The first application of the user for the drive
(`Application.findOne(\x7buserId, driveId\x7d)`). -/
def findUserApplication (s : Store) (userId driveId : Nat) : Option Application :=
  s.applications.find? (fun a => a.userId == userId && a.driveId == some driveId)

/-- Replace the first application with the given id by its image under `f`
(`Application.findByIdAndUpdate`). -/
def updateApplication (id : Nat) (f : Application → Application) :
    List Application → List Application
  | [] => []
  | a :: rest =>
    if a.id = id then f a :: rest else a :: updateApplication id f rest

/-- Replace the first drive with the id of `d` by `d` (`drive.save()`). -/
def saveDrive (d : Drive) : List Drive → List Drive
  | [] => []
  | x :: rest => if x.id = d.id then d :: rest else x :: saveDrive d rest

/-- Whether the event matches the filter
`\x7b'metadata.applicationId': applicationId\x7d`. -/
def isLinked (applicationId : Nat) (e : Event) : Bool :=
  e.metadata.bind (fun m => m.applicationId) == some applicationId

/-- The events of the store linked to the application (`Event.find`). -/
def relatedEvents (s : Store) (applicationId : Nat) : List Event :=
  s.events.filter (isLinked applicationId)

/-! ## Schedule time parsing (`drives.js`, lines 121-144) -/

/-- JavaScript `\d`. -/
def isDigit (c : Char) : Bool := decide ('0' ≤ c) && decide (c ≤ '9')

/-- JavaScript `\s`. -/
def isSpace (c : Char) : Bool :=
  let n := c.toNat
  n == 9 || n == 10 || n == 11 || n == 12 || n == 13 || n == 32 || n == 160 ||
  n == 5760 || (decide (8192 ≤ n) && decide (n ≤ 8202)) || n == 8232 || n == 8233 ||
  n == 8239 || n == 8287 || n == 12288 || n == 65279

/-- The value of a decimal digit. -/
def digitVal (c : Char) : Nat := c.toNat - 48

/-- The `(AM|PM)$` tail of the pattern under the `i` flag; the result is
`period.toUpperCase() === 'PM'`. -/
def matchPeriod : List Char → Option Bool
  | [a, m] =>
    if (m == 'M' || m == 'm') then
      if (a == 'A' || a == 'a') then some false
      else if (a == 'P' || a == 'p') then some true
      else none
    else none
  | _ => none

/-- The `\s*(AM|PM)$` tail of the pattern. -/
def matchSpacesPeriod : List Char → Option Bool
  | [] => none
  | c :: rest => if isSpace c then matchSpacesPeriod rest else matchPeriod (c :: rest)

/-- The `:(\d\x7b2\x7d)\s*(AM|PM)$` tail of the pattern: the minutes and whether
the period is PM. -/
def matchMinutes : List Char → Option (Nat × Bool)
  | ':' :: m1 :: m2 :: rest =>
    if isDigit m1 && isDigit m2 then
      (matchSpacesPeriod rest).map (fun pm => (10 * digitVal m1 + digitVal m2, pm))
    else none
  | _ => none

/-- The match of `/^(\d\x7b1,2\x7d):(\d\x7b2\x7d)\s*(AM|PM)$/i`: `parseInt(hours)`,
`parseInt(minutes)` and whether the period is PM. -/
def timeMatch (cs : List Char) : Option (Nat × Nat × Bool) :=
  match cs with
  | h1 :: h2 :: rest =>
    if isDigit h1 then
      if isDigit h2 then
        (matchMinutes rest).map (fun r => (10 * digitVal h1 + digitVal h2, r.1, r.2))
      else
        (matchMinutes (h2 :: rest)).map (fun r => (digitVal h1, r.1, r.2))
    else none
  | _ => none

/-- The arguments `(hour24, minutes)` that the handler passes to
`eventDate.setHours` for the time string `eventTime`. -/
def clockTime (eventTime : String) : Nat × Nat :=
  match timeMatch eventTime.data with
  | some (hours, minutes, pm) =>
    let hour24 :=
      if pm && hours != 12 then hours + 12
      else if !pm && hours == 12 then 0
      else hours
    (hour24, minutes)
  | none => (10, 0)

/-! ## `POST /api/drives/:id/apply` (`drives.js`, lines 66-189) -/

/-- The document passed to `Event.create` for schedule item `i`, or `none`
when the item is skipped (missing date or stage, or invalid date). -/
def scheduleEvent (env : Env) (drive : Drive) (userId applicationId eventId i : Nat)
    (scheduleItem : ScheduleItem) : Option Event :=
  if !truthy scheduleItem.date || !truthy scheduleItem.stage then none
  else
    match env.parseDate (scheduleItem.date.getD "") with
    | none => none
    | some base =>
      let stage := scheduleItem.stage.getD ""
      let eventTime := strOr scheduleItem.time "10:00 AM"
      some
        { id := eventId
          title := drive.company ++ " - " ++ stage
          type := "Placement Drive"
          date := { base := base, hours := (clockTime eventTime).1,
                    minutes := (clockTime eventTime).2 }
          time := eventTime
          location := strOr scheduleItem.venue "TBD"
          description :=
            some (stage ++ " for " ++ drive.role ++ " position at " ++ drive.company ++ ". " ++
              strOr scheduleItem.description
                "Please check with placement cell for more details.")
          organizer := "Placement Cell"
          attendees := [{ userId := userId, status := "registered" }]
          status := EventStatus.scheduled
          isActive := true
          metadata := some { applicationId := some applicationId,
                             driveId := some drive.id, stageIndex := some i } }

/-- The loop over `drive.processSchedule` from index `i` on: a skipped item
and an item whose `Event.create` throws leave the store as it is, every
other item appends its event. -/
def createEvents (env : Env) (drive : Drive) (userId applicationId : Nat) :
    Nat → List ScheduleItem → Store → Store
  | _, [], s => s
  | i, scheduleItem :: rest, s =>
    match scheduleEvent env drive userId applicationId s.nextId i scheduleItem with
    | none => createEvents env drive userId applicationId (i + 1) rest s
    | some calendarEvent =>
      if env.eventCreateFails i then
        createEvents env drive userId applicationId (i + 1) rest s
      else
        createEvents env drive userId applicationId (i + 1) rest
          { s with events := s.events ++ [calendarEvent], nextId := s.nextId + 1 }

/-- The application document built by the apply handler. -/
def newApplication (drive : Drive) (userId applicationId : Nat) : Application :=
  let processStageIndex := 0
  let nextStepIndex := processStageIndex + 1
  let nextStep :=
    if nextStepIndex < drive.process.length then (drive.process[nextStepIndex]?).getD "undefined"
    else "Completed"
  { id := applicationId
    userId := userId
    driveId := some drive.id
    status := AppStatus.applied
    currentStage := some (strOr drive.process[processStageIndex]? "Applied")
    processStageIndex := some processStageIndex
    nextStep := nextStep
    updates := [] }

/-- The response of the outer `catch` of the apply handler. -/
def serverError : Response := ⟨500, Body.message "Server error"⟩

/-- The handler of `POST /api/drives/:id/apply` for the authenticated user
`userId`. -/
def applyToDrive (env : Env) (s : Store) (userId driveId : Nat) : Response × Store :=
  if env.primaryFails 0 then (serverError, s) else
  match findDrive s driveId with
  | none => (⟨404, Body.message "Company drive not found"⟩, s)
  | some drive =>
    if env.primaryFails 1 then (serverError, s) else
    match findUserApplication s userId drive.id with
    | some _ => (⟨400, Body.message "Already applied for this drive"⟩, s)
    | none =>
      if env.primaryFails 2 then (serverError, s) else
      let application := newApplication drive userId s.nextId
      let s1 : Store :=
        { s with applications := s.applications ++ [application], nextId := s.nextId + 1 }
      let s2 :=
        if drive.processSchedule.length > 0 then
          createEvents env drive userId application.id 0 drive.processSchedule s1
        else s1
      if env.primaryFails 3 then (serverError, s2) else
      let s3 : Store :=
        { s2 with drives := saveDrive { drive with applicants := drive.applicants + 1 } s2.drives }
      (⟨201, Body.application application⟩, s3)

/-! ## `PUT /api/admin/applications/:id/next-stage` (`admin.js`, lines 221-310) -/

/-- The body of the relabel loop for one related event: the event to save,
or `none` when the event is left alone. -/
def relabelEvent (nextIndex : Nat) (event : Event) : Option Event :=
  let eventStageIndex := (event.metadata.bind (fun m => m.stageIndex)).getD 0
  if eventStageIndex < nextIndex then
    some { event with
      status := EventStatus.completed
      title := if !includes event.title "[COMPLETED]" then "[COMPLETED] " ++ event.title
               else event.title }
  else if eventStageIndex = nextIndex then
    some { event with
      status := EventStatus.ongoing
      title := if !includes event.title "[CURRENT]" then "[CURRENT] " ++ event.title
               else event.title }
  else none

/-- The relabel loop over the event collection in storage order: a save that
throws ends the loop and leaves that event and all later ones as stored. -/
def relabelLoop (env : Env) (applicationId nextIndex : Nat) : List Event → List Event
  | [] => []
  | event :: rest =>
    if isLinked applicationId event then
      match relabelEvent nextIndex event with
      | some saved =>
        if env.eventSaveFails event.id then event :: rest
        else saved :: relabelLoop env applicationId nextIndex rest
      | none => event :: relabelLoop env applicationId nextIndex rest
    else event :: relabelLoop env applicationId nextIndex rest

/-- The `nextStep` text computed by the next-stage handler. -/
def advanceNextStep (driveProcess : List String) (nextIndex : Nat) : String :=
  if nextIndex < driveProcess.length - 1 then
    "Prepare for " ++ (driveProcess[nextIndex + 1]?).getD "undefined"
  else "Congratulations! You have completed all stages."

/-- The update that the next-stage handler passes to `findByIdAndUpdate`,
computed from the application read first. -/
def advanceUpdate (env : Env) (driveProcess : List String) (application : Application) :
    Application → Application :=
  let currentIndex := application.processStageIndex.getD 0
  let nextIndex := min (currentIndex + 1) (driveProcess.length - 1)
  let nextStage := driveProcess[nextIndex]?
  let nextStep := advanceNextStep driveProcess nextIndex
  let status :=
    if nextIndex = driveProcess.length - 1 then AppStatus.selected else application.status
  fun stored =>
    { stored with
      processStageIndex := some nextIndex
      currentStage := nextStage
      nextStep := nextStep
      status := status
      updates := stored.updates ++
        [{ stage := nextStage, status := status, date := env.now,
           notes := "Moved to next stage by admin" }] }

/-- The handler of `PUT /api/admin/applications/:id/next-stage`. -/
def advanceStage (env : Env) (s : Store) (id : Nat) : Response × Store :=
  if env.primaryFails 0 then (⟨400, Body.message "Failed to move to next stage"⟩, s) else
  match findApplication s id with
  | none => (⟨404, Body.message "Application not found"⟩, s)
  | some application =>
    match application.driveId.bind (findDrive s) with
    | none => (⟨400, Body.message "Drive not found for this application"⟩, s)
    | some drive =>
      let driveProcess := drive.process
      if driveProcess.length = 0 then
        (⟨400, Body.message "No process stages defined for this drive"⟩, s)
      else
        if env.primaryFails 1 then (⟨400, Body.message "Failed to move to next stage"⟩, s) else
        let currentIndex := application.processStageIndex.getD 0
        let nextIndex := min (currentIndex + 1) (driveProcess.length - 1)
        let updatedApplication := advanceUpdate env driveProcess application application
        let events :=
          if env.eventFindFails then s.events
          else relabelLoop env application.id nextIndex s.events
        (⟨200, Body.application updatedApplication⟩,
          { s with
            applications :=
              updateApplication id (advanceUpdate env driveProcess application) s.applications
            events := events })

/-! ## `PUT /api/admin/applications/:id/reject` (`admin.js`, lines 315-374) -/

/-- The update that the reject handler passes to `findByIdAndUpdate`. -/
def rejectUpdate (env : Env) (application : Application) : Application → Application :=
  fun stored =>
    { stored with
      status := AppStatus.rejected
      nextStep := "Application has been rejected"
      updates := stored.updates ++
        [{ stage := some (strOr application.currentStage "Application Review")
           status := AppStatus.rejected, date := env.now
           notes := "Application rejected by admin" }] }

/-- The per-event loop of the reject handler in storage order: a save that
throws ends the loop. -/
def cancelLoop (env : Env) (applicationId : Nat) : List Event → List Event
  | [] => []
  | event :: rest =>
    if isLinked applicationId event then
      if !startsWith event.title "[CANCELLED]" then
        if env.eventSaveFails event.id then event :: rest
        else
          { event with
            title := "[CANCELLED] " ++ event.title
            status := EventStatus.cancelled
            description := some ("[CANCELLED] " ++ strOr event.description "") } ::
            cancelLoop env applicationId rest
      else event :: cancelLoop env applicationId rest
    else event :: cancelLoop env applicationId rest

/-- The event collection after the `try` block of the reject handler: the
`Event.updateMany` call, then `Event.find` and the per-event loop; a call
that throws leaves the rest of the block undone. -/
def cancelEvents (env : Env) (applicationId : Nat) (events : List Event) : List Event :=
  match env.updateMany with
  | none => events
  | some f =>
    let updated := events.map (fun e => if isLinked applicationId e then f e else e)
    if env.eventFindFails then updated else cancelLoop env applicationId updated

/-- The handler of `PUT /api/admin/applications/:id/reject`. -/
def rejectApplication (env : Env) (s : Store) (id : Nat) : Response × Store :=
  if env.primaryFails 0 then (⟨400, Body.message "Failed to reject application"⟩, s) else
  match findApplication s id with
  | none => (⟨404, Body.message "Application not found"⟩, s)
  | some application =>
    if env.primaryFails 1 then (⟨400, Body.message "Failed to reject application"⟩, s) else
    let updatedApplication := rejectUpdate env application application
    (⟨200, Body.application updatedApplication⟩,
      { s with
        applications := updateApplication id (rejectUpdate env application) s.applications
        events := cancelEvents env application.id s.events })

/-! ## `PUT /api/admin/applications/:id/stage` (`admin.js`, lines 379-411) -/

/-- The request body of the manual stage update, with all four fields
present. -/
structure StageBody where
  processStageIndex : Nat
  currentStage : String
  nextStep : String
  status : AppStatus
deriving DecidableEq, Repr

/-- The update that the manual stage handler passes to `findByIdAndUpdate`. -/
def stageUpdate (env : Env) (body : StageBody) : Application → Application :=
  fun stored =>
    { stored with
      processStageIndex := some body.processStageIndex
      currentStage := some body.currentStage
      nextStep := body.nextStep
      status := body.status
      updates := stored.updates ++
        [{ stage := some body.currentStage, status := body.status, date := env.now
           notes := "Updated by admin to stage " ++ toString body.processStageIndex }] }

/-- The handler of `PUT /api/admin/applications/:id/stage`. -/
def updateStage (env : Env) (s : Store) (id : Nat) (body : StageBody) : Response × Store :=
  if env.primaryFails 0 then (⟨400, Body.message "Invalid application data"⟩, s) else
  match findApplication s id with
  | none => (⟨404, Body.message "Application not found"⟩, s)
  | some application =>
    (⟨200, Body.application (stageUpdate env body application)⟩,
      { s with applications := updateApplication id (stageUpdate env body) s.applications })

/-! ## Request sequences -/

/-- Sequential next-stage requests for one application, one per
environment. -/
def advanceAll (id : Nat) : List Env → Store → Store
  | [], s => s
  | env :: envs, s => advanceAll id envs (advanceStage env s id).2

/-- A request to one of the four handlers that write applications. -/
inductive Request where
  | apply (userId driveId : Nat)
  | advance (id : Nat)
  | reject (id : Nat)
  | stage (id : Nat) (body : StageBody)

/-- Dispatch of a request to its handler. -/
def handle (env : Env) (s : Store) : Request → Response × Store
  | Request.apply userId driveId => applyToDrive env s userId driveId
  | Request.advance id => advanceStage env s id
  | Request.reject id => rejectApplication env s id
  | Request.stage id body => updateStage env s id body

/-- The store after a sequence of requests, each with its own environment. -/
def runAll : List (Env × Request) → Store → Store
  | [], s => s
  | (env, r) :: rest, s => runAll rest (handle env s r).2

/-- Whether the request goes to the manual stage endpoint. -/
def Request.isStage : Request → Bool
  | Request.stage _ _ => true
  | _ => false

/-- The store after the event loop of the apply handler. -/
def afterEvents (env : Env) (s : Store) (drive : Drive) (userId : Nat) : Store :=
  createEvents env drive userId s.nextId 0 drive.processSchedule
    { s with applications := s.applications ++ [newApplication drive userId s.nextId]
             nextId := s.nextId + 1 }


/-- The stage invariant of the data model for one application against the
process of its drive: the stored index is a valid index and `currentStage`
is the stage name at that index. -/
def stageValid (process : List String) (a : Application) : Prop :=
  ∃ i, a.processStageIndex = some i ∧ i < process.length ∧ a.currentStage = process[i]?

/-- The stage invariant for every application of the store whose drive
exists. -/
def StageInvariant (s : Store) : Prop :=
  ∀ a ∈ s.applications, ∀ d, a.driveId.bind (findDrive s) = some d → stageValid d.process a

/-- Every drive of the store has at least one stage and its first stage has
a non-empty name. -/
def DrivesOk (s : Store) : Prop :=
  ∀ d ∈ s.drives, d.process ≠ [] ∧ d.process[0]? ≠ some ""

/-- The event's status mirrors the application's stage index `idx`:
completed before it, ongoing at it, scheduled after it. -/
def Tracked (idx : Nat) (ev : Event) : Prop :=
  ∃ j, ev.metadata.bind (fun m => m.stageIndex) = some j ∧
    (j < idx → ev.status = EventStatus.completed) ∧
    (j = idx → ev.status = EventStatus.ongoing) ∧
    (idx < j → ev.status = EventStatus.scheduled)

/-- The event carries a stage index and is still scheduled when that index
lies after `idx`. -/
def Waiting (idx : Nat) (ev : Event) : Prop :=
  ∃ j, ev.metadata.bind (fun m => m.stageIndex) = some j ∧
    (idx < j → ev.status = EventStatus.scheduled)

/-- In this environment the calendar synchronisation of a handler does not
throw. -/
def SyncOk (env : Env) : Prop :=
  env.eventFindFails = false ∧ ∀ id, env.eventSaveFails id = false

/-! ## Sample data -/

/-- An environment in which no storage call throws. -/
def sampleEnv : Env :=
  { now := 1700000000
    parseDate := fun d => if d = "not a date" then none else some 1700000000
    primaryFails := fun _ => false
    eventFindFails := false
    eventCreateFails := fun _ => false
    eventSaveFails := fun _ => false
    updateMany := none }

/-- An environment in which `Event.find` throws. -/
def failingSyncEnv : Env := { sampleEnv with eventFindFails := true }

/-- The drive of the worked example, with one schedule item per stage. -/
def sampleDrive : Drive :=
  { id := 1
    company := "Acme"
    role := "Engineer"
    process := ["OA", "Interview", "HR"]
    processSchedule :=
      [ { stage := some "OA", date := some "2025-01-10", time := some "9:30 AM",
          venue := none, description := none },
        { stage := some "Interview", date := some "2025-01-17", time := none,
          venue := some "Room 4", description := none },
        { stage := some "HR", date := some "2025-01-24", time := some "2:00 pm",
          venue := none, description := none } ]
    applicants := 0 }

/-- A store holding the sample drive and nothing else. -/
def sampleStore : Store :=
  { drives := [sampleDrive], applications := [], events := [], nextId := 10 }

/-- The sample store after user 5 applied to the sample drive; the new
application has id 10. -/
def appliedStore : Store := (applyToDrive sampleEnv sampleStore 5 1).2

/-- An application for the sample drive. -/
def orphanApplication : Application :=
  { id := 10, userId := 5, driveId := some 1, status := AppStatus.applied,
    currentStage := some "OA", processStageIndex := some 0,
    nextStep := "Interview", updates := [] }

/-- A store whose only application refers to a drive that no longer
exists. -/
def orphanStore : Store :=
  { drives := [], applications := [orphanApplication], events := [], nextId := 11 }

/-- The sample application after an admin used the manual stage endpoint to
store index 2 together with the stage name "OA". -/
def driftedStore : Store :=
  (updateStage sampleEnv appliedStore 10
    { processStageIndex := 2, currentStage := "OA", nextStep := "Interview",
      status := AppStatus.applied }).2


/-- The sample store after the application went through both next-stage
requests and sits at the last stage. -/
def finalStore : Store := advanceAll 10 [sampleEnv, sampleEnv] appliedStore

/-- The application of `finalStore`. -/
def finalApplication : Application :=
  { id := 10, userId := 5, driveId := some 1, status := AppStatus.selected,
    currentStage := some "HR", processStageIndex := some 2,
    nextStep := "Congratulations! You have completed all stages.",
    updates :=
      [ { stage := some "Interview", status := AppStatus.applied, date := 1700000000,
          notes := "Moved to next stage by admin" },
        { stage := some "HR", status := AppStatus.selected, date := 1700000000,
          notes := "Moved to next stage by admin" } ] }

/-- The sample application taken through both next-stage requests and then
put back to stage 0 through the manual stage endpoint. -/
def regressedStore : Store :=
  (updateStage sampleEnv finalStore 10
    { processStageIndex := 0, currentStage := "OA", nextStep := "Interview",
      status := AppStatus.applied }).2

/-- An environment in which the bulk update of the reject handler does what
it is written for: it sets the status to cancelled and puts "[CANCELLED] "
in front of the description. -/
def intendedBulkEnv : Env :=
  { sampleEnv with
    updateMany := some (fun ev =>
      { ev with status := EventStatus.cancelled
                description := some ("[CANCELLED] " ++ strOr ev.description "") }) }

/-- The condition under which the spec has an event created for a schedule
item: a non-empty date, a non-empty stage and a date that parses to a valid
date. -/
def validItem (env : Env) (item : ScheduleItem) : Bool :=
  truthy item.date && truthy item.stage && (env.parseDate (item.date.getD "")).isSome

/-- A drive whose schedule has two usable items (positions 0 and 4), an item
without date, an item whose date does not parse and an item without
stage. -/
def mixedDrive : Drive :=
  { id := 2
    company := "Globex"
    role := "Analyst"
    process := ["Test", "Interview"]
    processSchedule :=
      [ { stage := some "Test", date := some "2025-03-01", time := some "11:15 am",
          venue := none, description := none },
        { stage := some "Interview", date := none, time := none, venue := none,
          description := none },
        { stage := some "Interview", date := some "not a date", time := none, venue := none,
          description := none },
        { stage := none, date := some "2025-03-08", time := none, venue := none,
          description := none },
        { stage := some "Interview", date := some "2025-03-09", time := some "noon",
          venue := none, description := none } ]
    applicants := 3 }

/-- A store holding the mixed drive and nothing else. -/
def mixedStore : Store :=
  { drives := [mixedDrive], applications := [], events := [], nextId := 20 }

/-- The number written by a list of decimal digits. -/
def decimal (cs : List Char) : Nat := cs.foldl (fun n c => 10 * n + digitVal c) 0

/-- The time strings of the form `H:MM AM|PM` of the spec, read as the
pattern of the handler: one or two digits, a colon, two digits, any amount
of white space, and AM or PM in any letter case. `hours` and `minutes` are
the numbers written and `pm` says whether the period is PM. -/
def TimeForm (cs : List Char) (hours minutes : Nat) (pm : Bool) : Prop :=
  ∃ (hs ws : List Char) (m1 m2 a m : Char),
    cs = hs ++ ':' :: m1 :: m2 :: (ws ++ [a, m]) ∧
    (hs.length = 1 ∨ hs.length = 2) ∧ (∀ c ∈ hs, isDigit c = true) ∧
    isDigit m1 = true ∧ isDigit m2 = true ∧ (∀ c ∈ ws, isSpace c = true) ∧
    (m = 'M' ∨ m = 'm') ∧
    ((pm = false ∧ (a = 'A' ∨ a = 'a')) ∨ (pm = true ∧ (a = 'P' ∨ a = 'p'))) ∧
    hours = decimal hs ∧ minutes = 10 * digitVal m1 + digitVal m2

/-- The 24-hour conversion of the spec: 12 AM is hour 0, 12 PM is hour 12,
h PM is h + 12 and h AM is h for h other than 12. -/
def hour24 (hours : Nat) (pm : Bool) : Nat :=
  if pm then (if hours = 12 then 12 else hours + 12) else (if hours = 12 then 0 else hours)

/-! ## Counselling booking (`counseling.js`, `models/CounsellingSession.js`,
`models/CounsellingApplication.js`) -/

/-- The `status` enum of the CounsellingSession schema. -/
inductive SessionStatus where
  | scheduled
  | ongoing
  | completed
  | cancelled
deriving DecidableEq, Repr

/-- The `status` enum of the CounsellingApplication schema. -/
inductive CounsellingStatus where
  | applied
  | confirmed
  | completed
  | cancelled
  | noShow
deriving DecidableEq, Repr

/-- One entry of a counselling application's `updates`. -/
structure CounsellingUpdate where
  status : String
  date : Nat
  notes : String
  updatedBy : String
deriving DecidableEq, Repr

/-- The `feedback` sub-document of a counselling application. -/
structure Feedback where
  rating : Option Int
  comments : Option String
  submittedAt : Nat
deriving DecidableEq, Repr

/-- The CounsellingSession document, restricted to the fields the handlers
read. -/
structure CounsellingSession where
  id : Nat
  counsellorName : String
  topic : String
  date : Nat
  time : String
  maxParticipants : Int
  status : SessionStatus
  isActive : Bool
deriving DecidableEq, Repr

/-- The CounsellingApplication document. -/
structure CounsellingApplication where
  id : Nat
  userId : Nat
  sessionId : Nat
  status : CounsellingStatus
  appliedDate : Nat
  reason : String
  urgency : String
  previousCounselling : Bool
  notes : Option String
  counsellorNotes : Option String
  feedback : Option Feedback
  updates : List CounsellingUpdate
deriving DecidableEq, Repr

/-- The two collections of the counselling handlers and the supply of fresh
document ids. -/
structure CounsellingStore where
  sessions : List CounsellingSession
  applications : List CounsellingApplication
  nextId : Nat
deriving DecidableEq, Repr

/-- The fields the apply handler reads from `req.body`. -/
structure ApplyBody where
  reason : Option String
  urgency : Option String
  previousCounselling : Option Bool
  notes : Option String
deriving DecidableEq, Repr

/-- The JSON body of a counselling response. -/
inductive CounsellingBody where
  | application (a : CounsellingApplication)
  | message (m : String)
  | result (m : String) (a : CounsellingApplication)
deriving DecidableEq, Repr

/-- An HTTP response of a counselling handler. -/
structure CounsellingResponse where
  status : Nat
  body : CounsellingBody
deriving DecidableEq, Repr

/-- The first session with the given id (`CounsellingSession.findById`). -/
def findSession (s : CounsellingStore) (id : Nat) : Option CounsellingSession :=
  s.sessions.find? (fun x => x.id == id)

/-- The first application of the user for the session
(`CounsellingApplication.findOne(\x7buserId, sessionId\x7d)`). -/
def findSessionApplication (s : CounsellingStore) (userId sessionId : Nat) :
    Option CounsellingApplication :=
  s.applications.find? (fun a => a.userId == userId && a.sessionId == sessionId)

/-- The count of the session's applications whose status is `applied` or
`confirmed` (`CounsellingApplication.countDocuments`). -/
def currentApplications (s : CounsellingStore) (sessionId : Nat) : Nat :=
  (s.applications.filter (fun a =>
    a.sessionId == sessionId &&
      (a.status == CounsellingStatus.applied || a.status == CounsellingStatus.confirmed))).length

/-- The validators of the CounsellingApplication schema on the document the
apply handler creates: `reason` is required (non-empty) and `urgency` is one
of `low`, `medium`, `high`. -/
def validApplyBody (body : ApplyBody) : Bool :=
  truthy body.reason &&
    (strOr body.urgency "medium" == "low" || strOr body.urgency "medium" == "medium" ||
      strOr body.urgency "medium" == "high")

/-- The document built by `CounsellingApplication.create` in the apply
handler, with the schema defaults filled in. -/
def newCounsellingApplication (env : Env) (userId sessionId applicationId : Nat)
    (body : ApplyBody) : CounsellingApplication :=
  { id := applicationId
    userId := userId
    sessionId := sessionId
    status := CounsellingStatus.applied
    appliedDate := env.now
    reason := body.reason.getD ""
    urgency := strOr body.urgency "medium"
    previousCounselling := body.previousCounselling.getD false
    notes := body.notes
    counsellorNotes := none
    feedback := none
    updates := [] }

/-- The response of the outer `catch` of the counselling handlers. -/
def counsellingServerError : CounsellingResponse :=
  ⟨500, CounsellingBody.message "Server error"⟩

/-- The handler of `POST /api/counseling/sessions/:id/apply` for the
authenticated user `userId`. The awaited calls are numbered 0 (`findById`),
1 (`findOne`), 2 (`countDocuments`), 3 (`create`) and 4 (`populate`). -/
def applyForSession (env : Env) (s : CounsellingStore) (userId sessionId : Nat)
    (body : ApplyBody) : CounsellingResponse × CounsellingStore :=
  if env.primaryFails 0 then (counsellingServerError, s) else
  match findSession s sessionId with
  | none => (⟨404, CounsellingBody.message "Counselling session not found"⟩, s)
  | some session =>
    if !session.isActive || session.status != SessionStatus.scheduled then
      (⟨400, CounsellingBody.message "Session is not available for applications"⟩, s)
    else
      if env.primaryFails 1 then (counsellingServerError, s) else
      match findSessionApplication s userId session.id with
      | some _ =>
        (⟨400, CounsellingBody.message "Already applied for this counselling session"⟩, s)
      | none =>
        if env.primaryFails 2 then (counsellingServerError, s) else
        if (currentApplications s session.id : Int) ≥ session.maxParticipants then
          (⟨400, CounsellingBody.message "Session is full"⟩, s)
        else
          if env.primaryFails 3 || !validApplyBody body then (counsellingServerError, s) else
          let application := newCounsellingApplication env userId session.id s.nextId body
          let s1 : CounsellingStore :=
            { s with applications := s.applications ++ [application], nextId := s.nextId + 1 }
          if env.primaryFails 4 then (counsellingServerError, s1) else
          (⟨201, CounsellingBody.application application⟩, s1)

/-- A scheduled, active session for two participants. -/
def sampleSession : CounsellingSession :=
  { id := 1, counsellorName := "Dr. Rao", topic := "Career planning", date := 1700500000,
    time := "3:00 PM", maxParticipants := 2, status := SessionStatus.scheduled,
    isActive := true }

/-- A store with the sample session and no application. -/
def sampleCounsellingStore : CounsellingStore :=
  { sessions := [sampleSession], applications := [], nextId := 30 }

/-- A request body with a reason. -/
def sampleApplyBody : ApplyBody :=
  { reason := some "Choosing between two offers", urgency := none,
    previousCounselling := none, notes := none }

/-- The application with the given `_id` if it belongs to the user
(`CounsellingApplication.findOne(\x7b_id, userId\x7d)`; `_id` is the
collection's key, so the document is looked up by id and then checked
against the user). -/
def findOwnedApplication (s : CounsellingStore) (userId id : Nat) :
    Option CounsellingApplication :=
  (s.applications.find? (fun a => a.id == id)).filter (fun a => a.userId == userId)

/-- Replace the first application with the id of `a` by `a`
(`application.save()`). -/
def saveCounsellingApplication (a : CounsellingApplication) :
    List CounsellingApplication → List CounsellingApplication
  | [] => []
  | x :: rest => if x.id = a.id then a :: rest else x :: saveCounsellingApplication a rest

/-- The application as the cancel handler changes it before saving. -/
def cancelledApplication (env : Env) (application : CounsellingApplication) :
    CounsellingApplication :=
  { application with
    status := CounsellingStatus.cancelled
    updates := application.updates ++
      [{ status := "cancelled", date := env.now, notes := "Cancelled by student",
         updatedBy := "student" }] }

/-- The handler of `PUT /api/counseling/applications/:id/cancel` for the
authenticated user `userId`. The awaited calls are numbered 0 (`findOne`)
and 1 (`save`). -/
def cancelApplication (env : Env) (s : CounsellingStore) (userId id : Nat) :
    CounsellingResponse × CounsellingStore :=
  if env.primaryFails 0 then (counsellingServerError, s) else
  match findOwnedApplication s userId id with
  | none => (⟨404, CounsellingBody.message "Application not found"⟩, s)
  | some application =>
    if application.status == CounsellingStatus.completed ||
        application.status == CounsellingStatus.cancelled then
      (⟨400, CounsellingBody.message "Cannot cancel this application"⟩, s)
    else
      if env.primaryFails 1 then (counsellingServerError, s) else
      (⟨200, CounsellingBody.result "Application cancelled successfully"
          (cancelledApplication env application)⟩,
        { s with
          applications :=
            saveCounsellingApplication (cancelledApplication env application) s.applications })

/-- The fields the feedback handler reads from `req.body`. -/
structure FeedbackBody where
  rating : Option Int
  comments : Option String
deriving DecidableEq, Repr

/-- The validators of the schema on `feedback.rating`: when present it lies
between 1 and 5. -/
def validFeedback (body : FeedbackBody) : Bool :=
  match body.rating with
  | none => true
  | some r => decide (1 ≤ r) && decide (r ≤ 5)

/-- The application as the feedback handler changes it before saving. -/
def withFeedback (env : Env) (body : FeedbackBody) (application : CounsellingApplication) :
    CounsellingApplication :=
  { application with
    feedback := some { rating := body.rating, comments := body.comments,
                       submittedAt := env.now } }

/-- The handler of `PUT /api/counseling/applications/:id/feedback` for the
authenticated user `userId`. The awaited calls are numbered 0 (`findOne`)
and 1 (`save`, which throws when the schema validation fails). -/
def submitFeedback (env : Env) (s : CounsellingStore) (userId id : Nat) (body : FeedbackBody) :
    CounsellingResponse × CounsellingStore :=
  if env.primaryFails 0 then (counsellingServerError, s) else
  match (findOwnedApplication s userId id).filter
      (fun a => a.status == CounsellingStatus.completed) with
  | none => (⟨404, CounsellingBody.message "Completed application not found"⟩, s)
  | some application =>
    if env.primaryFails 1 || !validFeedback body then (counsellingServerError, s) else
    (⟨200, CounsellingBody.result "Feedback submitted successfully"
        (withFeedback env body application)⟩,
      { s with
        applications :=
          saveCounsellingApplication (withFeedback env body application) s.applications })

/-- A request to one of the three counselling handlers of a student. -/
inductive CounsellingRequest where
  | apply (userId sessionId : Nat) (body : ApplyBody)
  | cancel (userId id : Nat)
  | feedback (userId id : Nat) (body : FeedbackBody)

/-- Dispatch of a counselling request to its handler. -/
def handleCounselling (env : Env) (s : CounsellingStore) :
    CounsellingRequest → CounsellingResponse × CounsellingStore
  | CounsellingRequest.apply userId sessionId body => applyForSession env s userId sessionId body
  | CounsellingRequest.cancel userId id => cancelApplication env s userId id
  | CounsellingRequest.feedback userId id body => submitFeedback env s userId id body

/-- The store after a sequence of counselling requests, each with its own
environment. -/
def runCounselling : List (Env × CounsellingRequest) → CounsellingStore → CounsellingStore
  | [], s => s
  | (env, r) :: rest, s => runCounselling rest (handleCounselling env s r).2

/-- A completed counselling application of user 7 that already carries
feedback. -/
def completedApplication : CounsellingApplication :=
  { id := 30, userId := 7, sessionId := 1, status := CounsellingStatus.completed,
    appliedDate := 1700000000, reason := "Choosing between two offers",
    urgency := "medium", previousCounselling := false, notes := none,
    counsellorNotes := none,
    feedback := some { rating := some 4, comments := some "Helpful",
                       submittedAt := 1700600000 },
    updates := [] }

/-- An applied counselling application of user 8. -/
def appliedApplication : CounsellingApplication :=
  { id := 31, userId := 8, sessionId := 1, status := CounsellingStatus.applied,
    appliedDate := 1700000001, reason := "Interview nerves",
    urgency := "high", previousCounselling := true, notes := none,
    counsellorNotes := none, feedback := none, updates := [] }

/-- A store with the two sample counselling applications. -/
def feedbackStore : CounsellingStore :=
  { sessions := [sampleSession]
    applications := [completedApplication, appliedApplication]
    nextId := 32 }

/-- The responses to a sequence of counselling requests, in order. -/
def counsellingResponses :
    List (Env × CounsellingRequest) → CounsellingStore → List CounsellingResponse
  | [], _ => []
  | (env, r) :: rest, s =>
    (handleCounselling env s r).1 :: counsellingResponses rest (handleCounselling env s r).2

/-- Apply requests for one session by a list of applicants, each with an
environment, a user id and a request body. -/
def applyRequests (sessionId : Nat) (applicants : List (Env × Nat × ApplyBody)) :
    List (Env × CounsellingRequest) :=
  applicants.map (fun r => (r.1, CounsellingRequest.apply r.2.1 sessionId r.2.2))

/-- Users 7 and 8 applying with the sample request body. -/
def twoApplicants : List (Env × Nat × ApplyBody) :=
  [(sampleEnv, 7, sampleApplyBody), (sampleEnv, 8, sampleApplyBody)]

/-- The number of stored applications of the user for the session. -/
def pairCount (s : CounsellingStore) (userId sessionId : Nat) : Nat :=
  (s.applications.filter (fun a => a.userId == userId && a.sessionId == sessionId)).length

/-- A store whose session is taken by a cancelled application of user 7. -/
def cancelledStore : CounsellingStore :=
  { sessions := [sampleSession]
    applications := [{ completedApplication with status := CounsellingStatus.cancelled }]
    nextId := 31 }

/-- The sample store after the application of user 5 was rejected. -/
def rejectedStore : Store := (rejectApplication sampleEnv appliedStore 10).2

/-- An environment in which every call on the drive and application
collections throws. -/
def downEnv : Env := { sampleEnv with primaryFails := fun _ => true }

/-- The environment with the same clock and event behaviour in which no
call on the drive and application collections throws. -/
def Env.withoutFailures (env : Env) : Env := { env with primaryFails := fun _ => false }

/-! ## `POST /api/events/:id/register` (`events.js`, lines 233-267) -/

/-- The JSON body of a response of the registration handler. -/
inductive EventBody where
  | message (m : String)
  | registered (m : String) (event : Event)
deriving DecidableEq, Repr

/-- An HTTP response of the registration handler. -/
structure EventResponse where
  status : Nat
  body : EventBody
deriving DecidableEq, Repr

/-- The first event with the given id (`Event.findById`). -/
def findEvent (s : Store) (id : Nat) : Option Event :=
  s.events.find? (fun e => e.id == id)

/-- Replace the first event with the id of `e` by `e` (`event.save()`). -/
def saveEvent (e : Event) : List Event → List Event
  | [] => []
  | x :: rest => if x.id = e.id then e :: rest else x :: saveEvent e rest

/-- The test `event.maxAttendees && event.attendees.length >= event.maxAttendees`:
an absent or zero limit is falsy. -/
def eventIsFull (event : Event) : Bool :=
  match event.maxAttendees with
  | some m => !(m == 0) && decide ((event.attendees.length : Int) ≥ m)
  | none => false

/-- The handler of `POST /api/events/:id/register` for the authenticated
user `userId`. The awaited calls on the event collection are numbered 0
(`findById`) and 1 (`save`) in `primaryFails`. -/
def registerForEvent (env : Env) (s : Store) (userId eventId : Nat) : EventResponse × Store :=
  if env.primaryFails 0 then (⟨500, EventBody.message "Server error"⟩, s) else
  match findEvent s eventId with
  | none => (⟨404, EventBody.message "Event not found"⟩, s)
  | some event =>
    let alreadyRegistered := event.attendees.any (fun attendee => attendee.userId == userId)
    if alreadyRegistered then
      (⟨400, EventBody.message "Already registered for this event"⟩, s)
    else
      if eventIsFull event then (⟨400, EventBody.message "Event is full"⟩, s)
      else
        let registered : Event :=
          { event with
            attendees := event.attendees ++ [{ userId := userId, status := "registered" }] }
        if env.primaryFails 1 then (⟨500, EventBody.message "Server error"⟩, s) else
        (⟨200, EventBody.registered "Successfully registered for event" registered⟩,
          { s with events := saveEvent registered s.events })

/-- The two invariants of an event's attendee list: no user id twice, and
at most `maxAttendees` attendees when that limit is set and not zero. -/
def AttendeesOk (event : Event) : Prop :=
  (event.attendees.map (fun a => a.userId)).Nodup ∧
    ∀ m, event.maxAttendees = some m → m ≠ 0 → (event.attendees.length : Int) ≤ m

/-- A workshop with room for two attendees, one of them taken by user 5. -/
def workshop : Event :=
  { id := 50, title := "Resume workshop", type := "Workshop",
    date := { base := 1700700000, hours := 10, minutes := 0 }, time := "10:00 AM",
    location := "Hall B", description := none, organizer := "Placement Cell",
    attendees := [{ userId := 5, status := "registered" }],
    status := EventStatus.scheduled, isActive := true, metadata := none,
    maxAttendees := some 2 }

/-- A store holding the workshop and nothing else. -/
def workshopStore : Store :=
  { drives := [], applications := [], events := [workshop], nextId := 51 }

/-! ## `mockAnalyzeFromName` (`ProfileAIProvider.jsx`, lines 10-54) -/

/-- The object returned by the mock resume analyzer. -/
structure Analysis where
  skillLevel : String
  interests : List String
  readinessScore : Nat
  topSkills : List String
  suggestions : List String
  detectedFrom : Option String
deriving DecidableEq, Repr

/-- JavaScript `set.add(x)` on a set kept as a list in insertion order. -/
def setAdd (set : List String) (x : String) : List String :=
  if x ∈ set then set else set ++ [x]

/-- The mock resume analyzer. `toLowerCase` is JavaScript's
`String.prototype.toLowerCase`; the pair threaded through the keyword tests
is `(interests, skills)`. -/
def mockAnalyzeFromName (toLowerCase : String → String) (fileName : Option String) : Analysis :=
  let name := toLowerCase (strOr fileName "")
  let st₀ : List String × List String := ([], [])
  let st₁ :=
    if includes name "react" || includes name "frontend" then
      (st₀.1 ++ ["Full-Stack Development"], setAdd st₀.2 "React.js")
    else st₀
  let st₂ :=
    if includes name "node" || includes name "express" || includes name "backend" then
      (st₁.1 ++ ["Full-Stack Development"], setAdd st₁.2 "Node.js")
    else st₁
  let st₃ :=
    if includes name "data" || includes name "ml" || includes name "python" then
      (st₂.1 ++ ["Data Science"], setAdd st₂.2 "Python")
    else st₂
  let st₄ :=
    if includes name "ux" || includes name "design" || includes name "ui" then
      (st₃.1 ++ ["UI/UX Design"], setAdd st₃.2 "Figma")
    else st₃
  let st₅ := if includes name "java" then (st₄.1, setAdd st₄.2 "Java") else st₄
  let st₆ :=
    if includes name "aws" || includes name "cloud" then (st₅.1, setAdd st₅.2 "AWS") else st₅
  let interests :=
    if st₆.1.length = 0 then st₆.1 ++ ["General Software Engineering"] else st₆.1
  let skills := if st₆.2.length = 0 then setAdd st₆.2 "Problem Solving" else st₆.2
  let readiness := min 95 (50 + skills.length * 12 + min 20 (interests.length * 5))
  { skillLevel :=
      if readiness > 75 then "Ready"
      else if readiness > 55 then "Developing" else "Needs Improvement"
    interests := interests
    readinessScore := readiness
    topSkills := skills
    suggestions :=
      ["Highlight key projects and technologies in the top section.",
        "Add measurable outcomes for each project (metrics, impact)."]
    detectedFrom := fileName }

/-- Lower-casing of the ASCII letters, every other character kept. -/
def asciiLowerChar (c : Char) : Char :=
  if 'A' ≤ c ∧ c ≤ 'Z' then Char.ofNat (c.toNat + 32) else c

/-- Lower-casing of the ASCII letters of a string. -/
def asciiLower (s : String) : String := String.mk (s.data.map asciiLowerChar)

/-! ## `handleSubmitCode` (`MethodInvader.jsx`, lines 4-40 and 384-418) -/

/-- One entry of `bossChallenges`. -/
structure Challenge where
  display : String
  solution : String
  hint : String
deriving DecidableEq, Repr

/-- The table `bossChallenges`. -/
def bossChallenges : List Challenge :=
  [ { display := "calculateSum(5, 10)"
      solution := "public int calculateSum(int a, int b) \x7b return a + b; \x7d"
      hint := "Return the sum of two integers" },
    { display := "calculateArea(5, 10)"
      solution := "public int calculateArea(int width, int height) \x7b return width * height; \x7d"
      hint := "Return width times height" },
    { display := "isEven(7)"
      solution := "public boolean isEven(int num) \x7b return num % 2 == 0; \x7d"
      hint := "Return true if the number is even" },
    { display := "getMax(15, 23)"
      solution := "public int getMax(int a, int b) \x7b return a > b ? a : b; \x7d"
      hint := "Return the larger number (ternary or if/else)" },
    { display := "reverseString(\"Code\")"
      solution :=
        "public String reverseString(String str) \x7b return new StringBuilder(str).reverse().toString(); \x7d"
      hint := "Reverse the input string" },
    { display := "getMagnitude(-5)"
      solution := "public int getMagnitude(int num) \x7b return Math.abs(num); \x7d"
      hint := "Return the absolute value of the number" },
    { display := "isPositive(1)"
      solution := "public boolean isPositive(int num) \x7b return num > 0; \x7d"
      hint := "Return true if the number is greater than zero" } ]

/-- JavaScript `s.replace(/\s+/g, ' ')` on characters; the flag says that
the previous character was white space. -/
def collapseSpaces : Bool → List Char → List Char
  | _, [] => []
  | inSpace, c :: rest =>
    if isSpace c then
      if inSpace then collapseSpaces true rest else ' ' :: collapseSpaces true rest
    else c :: collapseSpaces false rest

/-- JavaScript `s.trim()` on characters. -/
def trimChars (cs : List Char) : List Char :=
  ((cs.dropWhile isSpace).reverse.dropWhile isSpace).reverse

/-- The value of `code.replace(/\s+/g, ' ').trim().toLowerCase()`. -/
def simplifyCode (toLowerCase : String → String) (code : String) : String :=
  toLowerCase (String.mk (trimChars (collapseSpaces false code.data)))

/-- The value of `display.split('(')[0].toLowerCase()`. -/
def methodNameOf (toLowerCase : String → String) (display : String) : String :=
  toLowerCase (String.mk (display.data.takeWhile (fun c => c != '(')))

/-- The loose keyword test `isCorrect` of the handler on the simplified
code. -/
def looseTest (simplified methodName : String) : Bool :=
  includes simplified methodName &&
    (includes simplified "public" || includes simplified "private") &&
    (includes simplified "return" || includes simplified "void")

/-- The value of `isCorrect`. -/
def isCorrect (toLowerCase : String → String) (challenge : Challenge) (userCode : String) :
    Bool :=
  looseTest (simplifyCode toLowerCase userCode) (methodNameOf toLowerCase challenge.display)

/-- The value of `isPerfectMatch`. -/
def isPerfectMatch (toLowerCase : String → String) (challenge : Challenge)
    (userCode : String) : Bool :=
  simplifyCode toLowerCase userCode == simplifyCode toLowerCase challenge.solution

/-- The React state that `handleSubmitCode` reads and writes. -/
structure Game where
  currentChallenge : Option Challenge
  challengeIndex : Nat
  isSupercharged : Bool
  userCode : String
  score : Nat
  feedback : String
  isTyping : Bool
deriving DecidableEq, Repr

/-- The state after `handleSubmitCode` (the timers that clear the feedback
later are left out). -/
def handleSubmitCode (toLowerCase : String → String) (g : Game) : Game :=
  match g.currentChallenge with
  | none => g
  | some currentChallenge =>
    if g.isSupercharged then g
    else
      if isPerfectMatch toLowerCase currentChallenge g.userCode ||
          isCorrect toLowerCase currentChallenge g.userCode then
        { g with
          feedback := "✓ SUPERCHARGE ACTIVE! Fire with SPACE!"
          isSupercharged := true
          score := g.score + 100
          userCode := ""
          challengeIndex := (g.challengeIndex + 1) % bossChallenges.length
          currentChallenge := bossChallenges[(g.challengeIndex + 1) % bossChallenges.length]?
          isTyping := false }
      else
        { g with feedback := "✗ Incorrect method. Normal attack only.", isTyping := false }

/-- Whether every character of the string is ASCII. -/
def isAscii (s : String) : Bool := s.data.all (fun c => decide (c.toNat < 128))

/-- A game waiting for the first challenge, with the reference solution
typed in another layout and letter case. -/
def sampleGame : Game :=
  { currentChallenge := bossChallenges[0]?
    challengeIndex := 0
    isSupercharged := false
    userCode := "  PUBLIC int\n calculateSum(int a,\tint b) \x7b RETURN a + b; \x7d  "
    score := 0
    feedback := ""
    isTyping := true }

/-- An environment in which exactly the call with number `n` on the drive,
application and counselling collections throws. -/
def failAt (n : Nat) : Env := { sampleEnv with primaryFails := fun k => k == n }

/-! ## Storage lemmas -/

theorem find_updateApplication (id : Nat) (f : Application → Application)
    (hf : ∀ a, (f a).id = a.id) (l : List Application) :
    (updateApplication id f l).find? (fun a => a.id == id) =
      (l.find? (fun a => a.id == id)).map f := by
  induction l with
  | nil => rfl
  | cons a rest ih =>
    by_cases h : a.id = id
    · simp [updateApplication, h, List.find?_cons, hf]
    · simp [updateApplication, h, List.find?_cons, ih]

theorem length_pos_of_process {p : List String} (h : p ≠ []) : p.length ≠ 0 := by
  intro h0
  exact h (List.length_eq_zero.mp h0)

/-- The successful path of the next-stage handler, written out. -/
theorem advanceStage_success (env : Env) (s : Store) (id : Nat) (application : Application)
    (drive : Drive) (h0 : env.primaryFails 0 = false) (h1 : env.primaryFails 1 = false)
    (happ : findApplication s id = some application)
    (hdrive : application.driveId.bind (findDrive s) = some drive)
    (hproc : drive.process ≠ []) :
    advanceStage env s id =
      (⟨200, Body.application (advanceUpdate env drive.process application application)⟩,
        { s with
          applications :=
            updateApplication id (advanceUpdate env drive.process application) s.applications
          events :=
            if env.eventFindFails then s.events
            else relabelLoop env application.id
              (min (application.processStageIndex.getD 0 + 1) (drive.process.length - 1))
              s.events }) := by
  have hlen := length_pos_of_process hproc
  simp [advanceStage, h0, h1, happ, hdrive, hlen]

/-- After a successful next-stage request the stored application is the
update applied to the application read. -/
theorem advanceStage_stored (env : Env) (s : Store) (id : Nat) (application : Application)
    (drive : Drive) (h0 : env.primaryFails 0 = false) (h1 : env.primaryFails 1 = false)
    (happ : findApplication s id = some application)
    (hdrive : application.driveId.bind (findDrive s) = some drive)
    (hproc : drive.process ≠ []) :
    findApplication (advanceStage env s id).2 id =
      some (advanceUpdate env drive.process application application) := by
  rw [advanceStage_success env s id application drive h0 h1 happ hdrive hproc]
  unfold findApplication at happ ⊢
  simp only []
  rw [find_updateApplication id (advanceUpdate env drive.process application) (fun _ => rfl),
    happ]
  rfl

/-- The next-stage handler never touches the drive collection. -/
theorem advanceStage_drives (env : Env) (s : Store) (id : Nat) :
    (advanceStage env s id).2.drives = s.drives := by
  unfold advanceStage
  by_cases h0 : env.primaryFails 0 = true
  · simp [h0]
  · cases happ : findApplication s id with
    | none => simp [h0]
    | some a =>
      cases hd : a.driveId.bind (findDrive s) with
      | none => simp [h0, hd]
      | some d =>
        by_cases hl : d.process.length = 0 <;> by_cases h1 : env.primaryFails 1 = true <;>
          simp [h0, hd, hl, h1]

theorem createEvents_applications (env : Env) (drive : Drive) (userId applicationId : Nat)
    (items : List ScheduleItem) :
    ∀ (i : Nat) (s : Store),
      (createEvents env drive userId applicationId i items s).applications = s.applications ∧
      (createEvents env drive userId applicationId i items s).drives = s.drives := by
  induction items with
  | nil => intro i s; exact ⟨rfl, rfl⟩
  | cons item rest ih =>
    intro i s
    unfold createEvents
    cases scheduleEvent env drive userId applicationId s.nextId i item with
    | none => exact ih (i + 1) s
    | some e =>
      by_cases hf : env.eventCreateFails i = true
      · simpa [hf] using ih (i + 1) s
      · simpa [hf] using ih (i + 1) _

theorem afterEvents_frame (env : Env) (s : Store) (drive : Drive) (userId : Nat) :
    (afterEvents env s drive userId).applications =
        s.applications ++ [newApplication drive userId s.nextId] ∧
      (afterEvents env s drive userId).drives = s.drives :=
  createEvents_applications env drive userId s.nextId drive.processSchedule 0 _

theorem createEvents_guard (env : Env) (drive : Drive) (userId applicationId : Nat)
    (items : List ScheduleItem) (s : Store) :
    (if items.length > 0 then createEvents env drive userId applicationId 0 items s else s) =
      createEvents env drive userId applicationId 0 items s := by
  cases items with
  | nil => simp [createEvents]
  | cons item rest => simp

theorem applyToDrive_success (env : Env) (s : Store) (userId driveId : Nat) (drive : Drive)
    (hprim : ∀ n, env.primaryFails n = false)
    (hdrive : findDrive s driveId = some drive)
    (hnew : findUserApplication s userId drive.id = none) :
    applyToDrive env s userId driveId =
      (⟨201, Body.application (newApplication drive userId s.nextId)⟩,
        { afterEvents env s drive userId with
          drives := saveDrive { drive with applicants := drive.applicants + 1 } s.drives }) := by
  have hd := (afterEvents_frame env s drive userId).2
  unfold applyToDrive
  simp only [hprim, hdrive, hnew, Bool.false_eq_true, if_false]
  have hid : (newApplication drive userId s.nextId).id = s.nextId := rfl
  rw [hid, createEvents_guard]
  unfold afterEvents at hd ⊢
  rw [hd]


theorem find_saveDrive (d : Drive) (x : Nat) (l : List Drive) :
    (saveDrive d l).find? (fun y => y.id == x) =
      if x = d.id then (l.find? (fun y => y.id == x)).map (fun _ => d)
      else l.find? (fun y => y.id == x) := by
  induction l with
  | nil => simp [saveDrive]
  | cons y rest ih =>
    by_cases hy : y.id = d.id
    · by_cases hx : x = d.id
      · simp [saveDrive, hy, hx, List.find?_cons]
      · have hx2 : ¬ d.id = x := fun h => hx h.symm
        simp [saveDrive, hy, hx, hx2, List.find?_cons]
    · by_cases hyx : y.id = x
      · have hx : ¬ x = d.id := fun h => hy (hyx.trans h)
        simp [saveDrive, hy, hx, hyx, List.find?_cons]
      · simp [saveDrive, hy, hyx, List.find?_cons, ih]

theorem findDrive_id {s : Store} {driveId : Nat} {drive : Drive}
    (h : findDrive s driveId = some drive) : drive.id = driveId := by
  have := List.find?_some h
  simpa using this

theorem applyToDrive_stored (env : Env) (s : Store) (userId driveId : Nat) (drive : Drive)
    (hprim : ∀ n, env.primaryFails n = false)
    (hdrive : findDrive s driveId = some drive)
    (hnew : findUserApplication s userId drive.id = none)
    (hfresh : findApplication s s.nextId = none) :
    findApplication (applyToDrive env s userId driveId).2 s.nextId =
      some (newApplication drive userId s.nextId) := by
  rw [applyToDrive_success env s userId driveId drive hprim hdrive hnew]
  unfold findApplication at hfresh ⊢
  simp only [(afterEvents_frame env s drive userId).1, List.find?_append, hfresh]
  simp [newApplication]

theorem applyToDrive_findDrive (env : Env) (s : Store) (userId driveId : Nat) (drive : Drive)
    (hprim : ∀ n, env.primaryFails n = false)
    (hdrive : findDrive s driveId = some drive)
    (hnew : findUserApplication s userId drive.id = none) :
    findDrive (applyToDrive env s userId driveId).2 drive.id =
      some { drive with applicants := drive.applicants + 1 } := by
  rw [applyToDrive_success env s userId driveId drive hprim hdrive hnew]
  have hid := findDrive_id hdrive
  unfold findDrive at hdrive ⊢
  simp only [find_saveDrive, hid, if_true, hdrive]
  rfl

/-- The application record after a run of next-stage updates. -/
theorem advanceAll_stored (id : Nat) (d : Drive) (hproc : d.process ≠ []) :
    ∀ (envs : List Env) (s : Store) (a : Application),
      (∀ e ∈ envs, ∀ n, e.primaryFails n = false) →
      findApplication s id = some a → a.driveId.bind (findDrive s) = some d →
      findApplication (advanceAll id envs s) id =
          some (envs.foldl (fun acc e => advanceUpdate e d.process acc acc) a) ∧
        (advanceAll id envs s).drives = s.drives := by
  intro envs
  induction envs with
  | nil => intro s a _ happ _; exact ⟨happ, rfl⟩
  | cons e rest ih =>
    intro s a hprim happ hdrive
    have he := hprim e (List.mem_cons_self _ _)
    have hst := advanceStage_stored e s id a d (he 0) (he 1) happ hdrive hproc
    have hdr := advanceStage_drives e s id
    have hdrive' : (advanceUpdate e d.process a a).driveId.bind
        (findDrive (advanceStage e s id).2) = some d := by
      have : findDrive (advanceStage e s id).2 = findDrive s := by
        funext x; simp [findDrive, hdr]
      rw [this]; exact hdrive
    have := ih (advanceStage e s id).2 _ (fun e' he' => hprim e' (List.mem_cons_of_mem _ he'))
      hst hdrive'
    exact ⟨this.1, this.2.trans hdr⟩

/-- What a non-empty run of next-stage updates does to the record. -/
theorem advanceFold_spec (proc : List String) :
    ∀ (envs : List Env) (e : Env) (a : Application),
      ((e :: envs).foldl (fun acc e => advanceUpdate e proc acc acc) a).processStageIndex =
          some (min (a.processStageIndex.getD 0 + (envs.length + 1)) (proc.length - 1)) ∧
        ((e :: envs).foldl (fun acc e => advanceUpdate e proc acc acc) a).currentStage =
          proc[min (a.processStageIndex.getD 0 + (envs.length + 1)) (proc.length - 1)]? ∧
        (min (a.processStageIndex.getD 0 + (envs.length + 1)) (proc.length - 1) = proc.length - 1 →
          ((e :: envs).foldl (fun acc e => advanceUpdate e proc acc acc) a).status =
            AppStatus.selected) := by
  intro envs
  induction envs with
  | nil =>
    intro e a
    refine ⟨rfl, rfl, ?_⟩
    intro h
    simp only [List.length_nil, Nat.zero_add] at h
    show (if min (a.processStageIndex.getD 0 + 1) (proc.length - 1) = proc.length - 1
      then AppStatus.selected else a.status) = AppStatus.selected
    rw [if_pos h]
  | cons e' rest ih =>
    intro e a
    have := ih e' (advanceUpdate e proc a a)
    have hidx : (advanceUpdate e proc a a).processStageIndex.getD 0 =
        min (a.processStageIndex.getD 0 + 1) (proc.length - 1) := rfl
    rw [hidx] at this
    have hmin : min (min (a.processStageIndex.getD 0 + 1) (proc.length - 1) + (rest.length + 1))
        (proc.length - 1) =
        min (a.processStageIndex.getD 0 + ((e' :: rest).length + 1)) (proc.length - 1) := by
      simp only [List.length_cons]; omega
    rw [hmin] at this
    exact this

/-! ## Theorems -/

/-- C1: when the application exists, its drive has a non-empty process and
storage works, the next-stage handler stores
`processStageIndex = min (currentIndex + 1) (process.length - 1)` with
`currentIndex` the stored index (0 if absent); the stored index is never
greater than `process.length - 1`. -/
theorem advanceStage_index_clamped (env : Env) (s : Store) (id : Nat)
    (application : Application) (drive : Drive)
    (hprim : ∀ n, env.primaryFails n = false)
    (happ : findApplication s id = some application)
    (hdrive : application.driveId.bind (findDrive s) = some drive)
    (hproc : drive.process ≠ []) :
    ∃ stored, findApplication (advanceStage env s id).2 id = some stored ∧
      stored.processStageIndex =
        some (min (application.processStageIndex.getD 0 + 1) (drive.process.length - 1)) ∧
      ∀ i, stored.processStageIndex = some i → i ≤ drive.process.length - 1 := by
  refine ⟨_, advanceStage_stored env s id application drive (hprim 0) (hprim 1) happ hdrive hproc,
    rfl, ?_⟩
  intro i hi
  simp only [advanceUpdate, Option.some.injEq] at hi
  omega

theorem advanceStage_index_clamped_witness :
    ∃ stored, findApplication (advanceStage sampleEnv appliedStore 10).2 10 = some stored ∧
      stored.processStageIndex = some 1 ∧
      ∀ i, stored.processStageIndex = some i → i ≤ 2 :=
  advanceStage_index_clamped sampleEnv appliedStore 10 (newApplication sampleDrive 5 10)
    { sampleDrive with applicants := 1 } (fun _ => rfl) (by decide) (by decide) (by decide)

/-- C6: a successful next-stage request stores status `selected` when the
clamped next index is `process.length - 1`, and for every other next index
it stores the status the application had before the call. -/
theorem advanceStage_status (env : Env) (s : Store) (id : Nat)
    (application : Application) (drive : Drive)
    (hprim : ∀ n, env.primaryFails n = false)
    (happ : findApplication s id = some application)
    (hdrive : application.driveId.bind (findDrive s) = some drive)
    (hproc : drive.process ≠ []) :
    ∃ stored, findApplication (advanceStage env s id).2 id = some stored ∧
      (min (application.processStageIndex.getD 0 + 1) (drive.process.length - 1) =
          drive.process.length - 1 → stored.status = AppStatus.selected) ∧
      (min (application.processStageIndex.getD 0 + 1) (drive.process.length - 1) ≠
          drive.process.length - 1 → stored.status = application.status) := by
  refine ⟨_, advanceStage_stored env s id application drive (hprim 0) (hprim 1) happ hdrive hproc,
    ?_, ?_⟩
  · intro h
    simp [advanceUpdate, h]
  · intro h
    simp [advanceUpdate, h]

theorem advanceStage_status_witness :
    ∃ stored, findApplication (advanceStage sampleEnv appliedStore 10).2 10 = some stored ∧
      (min (0 + 1) (3 - 1) = 3 - 1 → stored.status = AppStatus.selected) ∧
      (min (0 + 1) (3 - 1) ≠ 3 - 1 → stored.status = AppStatus.applied) :=
  advanceStage_status sampleEnv appliedStore 10 (newApplication sampleDrive 5 10)
    { sampleDrive with applicants := 1 } (fun _ => rfl) (by decide) (by decide) (by decide)

/-- C7: after a successful next-stage request `currentStage` is
`process[nextIndex]`; `nextStep` is "Prepare for " followed by
`process[nextIndex + 1]` when `nextIndex` is not the last index, and the
fixed completion message when it is the last index. -/
theorem advanceStage_stage_and_next_step (env : Env) (s : Store) (id : Nat)
    (application : Application) (drive : Drive)
    (hprim : ∀ n, env.primaryFails n = false)
    (happ : findApplication s id = some application)
    (hdrive : application.driveId.bind (findDrive s) = some drive)
    (hproc : drive.process ≠ []) :
    ∃ stored stage, findApplication (advanceStage env s id).2 id = some stored ∧
      drive.process[min (application.processStageIndex.getD 0 + 1)
        (drive.process.length - 1)]? = some stage ∧
      stored.currentStage = some stage ∧
      (min (application.processStageIndex.getD 0 + 1) (drive.process.length - 1) <
          drive.process.length - 1 →
        ∃ following,
          drive.process[min (application.processStageIndex.getD 0 + 1)
            (drive.process.length - 1) + 1]? = some following ∧
          stored.nextStep = "Prepare for " ++ following) ∧
      (min (application.processStageIndex.getD 0 + 1) (drive.process.length - 1) =
          drive.process.length - 1 →
        stored.nextStep = "Congratulations! You have completed all stages.") := by
  have hlen := length_pos_of_process hproc
  have hlt : min (application.processStageIndex.getD 0 + 1) (drive.process.length - 1) <
      drive.process.length := by omega
  refine ⟨_, drive.process[min (application.processStageIndex.getD 0 + 1)
      (drive.process.length - 1)],
    advanceStage_stored env s id application drive (hprim 0) (hprim 1) happ hdrive hproc,
    List.getElem?_eq_getElem hlt, ?_, ?_, ?_⟩
  · simp [advanceUpdate, List.getElem?_eq_getElem hlt]
  · intro h
    have hlt2 : min (application.processStageIndex.getD 0 + 1) (drive.process.length - 1) + 1 <
        drive.process.length := by omega
    refine ⟨drive.process[min (application.processStageIndex.getD 0 + 1)
      (drive.process.length - 1) + 1], List.getElem?_eq_getElem hlt2, ?_⟩
    simp [advanceUpdate, advanceNextStep, h, List.getElem?_eq_getElem hlt2]
  · intro h
    simp [advanceUpdate, advanceNextStep, h]

theorem advanceStage_stage_and_next_step_witness :
    ∃ stored stage, findApplication (advanceStage sampleEnv appliedStore 10).2 10 = some stored ∧
      ["OA", "Interview", "HR"][min (0 + 1) (3 - 1)]? = some stage ∧
      stored.currentStage = some stage ∧
      (min (0 + 1) (3 - 1) < 3 - 1 →
        ∃ following, ["OA", "Interview", "HR"][min (0 + 1) (3 - 1) + 1]? = some following ∧
          stored.nextStep = "Prepare for " ++ following) ∧
      (min (0 + 1) (3 - 1) = 3 - 1 →
        stored.nextStep = "Congratulations! You have completed all stages.") :=
  advanceStage_stage_and_next_step sampleEnv appliedStore 10 (newApplication sampleDrive 5 10)
    { sampleDrive with applicants := 1 } (fun _ => rfl) (by decide) (by decide) (by decide)

/-- C8, as the code behaves: for the stored application whose drive no
longer exists the next-stage handler answers 400, not 404. -/
theorem advanceStage_missing_drive_is_400 :
    (advanceStage sampleEnv orphanStore 10).1 =
        ⟨400, Body.message "Drive not found for this application"⟩ ∧
      (advanceStage sampleEnv orphanStore 10).1.status ≠ 404 := by
  decide

/-- C8, amended: when the first storage read works, the next-stage handler
answers 404 if the application does not exist, 400 if the application's
drive is missing and 400 if the drive's process is empty, and in all three
cases the store (applications and events included) is returned unchanged. -/
theorem advanceStage_failures_leave_store (env : Env) (s : Store) (id : Nat)
    (h0 : env.primaryFails 0 = false) :
    (findApplication s id = none →
      advanceStage env s id = (⟨404, Body.message "Application not found"⟩, s)) ∧
    (∀ application, findApplication s id = some application →
      application.driveId.bind (findDrive s) = none →
      advanceStage env s id = (⟨400, Body.message "Drive not found for this application"⟩, s)) ∧
    (∀ application drive, findApplication s id = some application →
      application.driveId.bind (findDrive s) = some drive → drive.process = [] →
      advanceStage env s id =
        (⟨400, Body.message "No process stages defined for this drive"⟩, s)) := by
  refine ⟨?_, ?_, ?_⟩
  · intro happ
    simp [advanceStage, h0, happ]
  · intro application happ hdrive
    simp [advanceStage, h0, happ, hdrive]
  · intro application drive happ hdrive hproc
    simp [advanceStage, h0, happ, hdrive, hproc]

theorem advanceStage_failures_leave_store_witness :
    advanceStage sampleEnv sampleStore 77 =
        (⟨404, Body.message "Application not found"⟩, sampleStore) ∧
      advanceStage sampleEnv orphanStore 10 =
        (⟨400, Body.message "Drive not found for this application"⟩, orphanStore) :=
  ⟨(advanceStage_failures_leave_store sampleEnv sampleStore 77 rfl).1 (by decide),
    (advanceStage_failures_leave_store sampleEnv orphanStore 10 rfl).2.1 orphanApplication
      (by decide) (by decide)⟩

/-- The successful path of the reject handler, written out. -/
theorem rejectApplication_success (env : Env) (s : Store) (id : Nat)
    (application : Application) (h0 : env.primaryFails 0 = false)
    (h1 : env.primaryFails 1 = false) (happ : findApplication s id = some application) :
    rejectApplication env s id =
      (⟨200, Body.application (rejectUpdate env application application)⟩,
        { s with
          applications := updateApplication id (rejectUpdate env application) s.applications
          events := cancelEvents env application.id s.events }) := by
  simp [rejectApplication, h0, h1, happ]

/-- After a successful reject request the stored application is the update
applied to the application read. -/
theorem rejectApplication_stored (env : Env) (s : Store) (id : Nat)
    (application : Application) (h0 : env.primaryFails 0 = false)
    (h1 : env.primaryFails 1 = false) (happ : findApplication s id = some application) :
    findApplication (rejectApplication env s id).2 id =
      some (rejectUpdate env application application) := by
  rw [rejectApplication_success env s id application h0 h1 happ]
  unfold findApplication at happ ⊢
  simp only []
  rw [find_updateApplication id (rejectUpdate env application) (fun _ => rfl), happ]
  rfl

/-- C10: when storage works, rejecting an existing application answers 200
with the stored application, which is the old one with status `rejected`,
the fixed rejection text as `nextStep` and one more `updates` entry (so
`processStageIndex` and `currentStage` are as before); a second rejection
also answers 200 and changes nothing but the history, which gets one more
entry. -/
theorem rejectApplication_twice (env₁ env₂ : Env) (s : Store) (id : Nat)
    (application : Application)
    (h₁ : ∀ n, env₁.primaryFails n = false) (h₂ : ∀ n, env₂.primaryFails n = false)
    (happ : findApplication s id = some application) :
    ∃ once twice,
      findApplication (rejectApplication env₁ s id).2 id = some once ∧
      (rejectApplication env₁ s id).1 = ⟨200, Body.application once⟩ ∧
      once = { application with
                status := AppStatus.rejected
                nextStep := "Application has been rejected"
                updates := application.updates ++
                  [{ stage := some (strOr application.currentStage "Application Review")
                     status := AppStatus.rejected, date := env₁.now
                     notes := "Application rejected by admin" }] } ∧
      once.processStageIndex = application.processStageIndex ∧
      once.currentStage = application.currentStage ∧
      findApplication (rejectApplication env₂ (rejectApplication env₁ s id).2 id).2 id =
        some twice ∧
      (rejectApplication env₂ (rejectApplication env₁ s id).2 id).1 =
        ⟨200, Body.application twice⟩ ∧
      twice = { once with
                updates := once.updates ++
                  [{ stage := some (strOr application.currentStage "Application Review")
                     status := AppStatus.rejected, date := env₂.now
                     notes := "Application rejected by admin" }] } := by
  have hs := rejectApplication_stored env₁ s id application (h₁ 0) (h₁ 1) happ
  refine ⟨rejectUpdate env₁ application application,
    rejectUpdate env₂ (rejectUpdate env₁ application application)
      (rejectUpdate env₁ application application), hs, ?_, rfl, rfl, rfl, ?_, ?_, rfl⟩
  · rw [rejectApplication_success env₁ s id application (h₁ 0) (h₁ 1) happ]
  · exact rejectApplication_stored env₂ _ id _ (h₂ 0) (h₂ 1) hs
  · rw [rejectApplication_success env₂ _ id _ (h₂ 0) (h₂ 1) hs]

theorem rejectApplication_twice_witness :
    ∃ once twice,
      findApplication (rejectApplication sampleEnv appliedStore 10).2 10 = some once ∧
      (rejectApplication sampleEnv appliedStore 10).1 = ⟨200, Body.application once⟩ ∧
      once = { newApplication sampleDrive 5 10 with
                status := AppStatus.rejected
                nextStep := "Application has been rejected"
                updates := [{ stage := some "OA", status := AppStatus.rejected
                              date := 1700000000
                              notes := "Application rejected by admin" }] } ∧
      once.processStageIndex = some 0 ∧
      once.currentStage = some "OA" ∧
      findApplication
          (rejectApplication sampleEnv (rejectApplication sampleEnv appliedStore 10).2 10).2 10 =
        some twice ∧
      (rejectApplication sampleEnv (rejectApplication sampleEnv appliedStore 10).2 10).1 =
        ⟨200, Body.application twice⟩ ∧
      twice = { once with
                updates := once.updates ++
                  [{ stage := some "OA", status := AppStatus.rejected, date := 1700000000
                     notes := "Application rejected by admin" }] } :=
  rejectApplication_twice sampleEnv sampleEnv appliedStore 10 (newApplication sampleDrive 5 10)
    (fun _ => rfl) (fun _ => rfl) (by decide)

/-- C2: for a drive whose process has N >= 1 stages and a user who has not
applied yet, the apply handler answers 201 with a new application, and
after N sequential next-stage requests (storage working) that application
has status `selected` and `processStageIndex = N - 1`. -/
theorem apply_then_advance_selected (env : Env) (envs : List Env) (s : Store)
    (userId driveId : Nat) (drive : Drive)
    (hprim : ∀ n, env.primaryFails n = false)
    (hprims : ∀ e ∈ envs, ∀ n, e.primaryFails n = false)
    (hdrive : findDrive s driveId = some drive)
    (hnew : findUserApplication s userId drive.id = none)
    (hfresh : findApplication s s.nextId = none)
    (hN : 1 ≤ drive.process.length)
    (hlen : envs.length = drive.process.length) :
    (applyToDrive env s userId driveId).1 =
        ⟨201, Body.application (newApplication drive userId s.nextId)⟩ ∧
      ∃ final,
        findApplication (advanceAll s.nextId envs (applyToDrive env s userId driveId).2)
          s.nextId = some final ∧
        final.status = AppStatus.selected ∧
        final.processStageIndex = some (drive.process.length - 1) := by
  have hproc : ({ drive with applicants := drive.applicants + 1 } : Drive).process ≠ [] := by
    intro h
    have h' : drive.process = [] := h
    simp [h'] at hN
  have hst := applyToDrive_stored env s userId driveId drive hprim hdrive hnew hfresh
  have hdr := applyToDrive_findDrive env s userId driveId drive hprim hdrive hnew
  have hall := (advanceAll_stored s.nextId _ hproc envs _ _ hprims hst hdr).1
  refine ⟨?_, ?_⟩
  · rw [applyToDrive_success env s userId driveId drive hprim hdrive hnew]
  · cases envs with
    | nil => simp at hlen; omega
    | cons e rest =>
      have hspec := advanceFold_spec drive.process rest e (newApplication drive userId s.nextId)
      have h0 : (newApplication drive userId s.nextId).processStageIndex.getD 0 = 0 := rfl
      have hmin : min ((newApplication drive userId s.nextId).processStageIndex.getD 0 +
          (rest.length + 1)) (drive.process.length - 1) = drive.process.length - 1 := by
        rw [h0]
        simp only [List.length_cons] at hlen
        omega
      rw [hmin] at hspec
      exact ⟨_, hall, hspec.2.2 rfl, hspec.1⟩

theorem apply_then_advance_selected_witness :
    (applyToDrive sampleEnv sampleStore 5 1).1 =
        ⟨201, Body.application (newApplication sampleDrive 5 10)⟩ ∧
      ∃ final,
        findApplication
          (advanceAll 10 [sampleEnv, sampleEnv, sampleEnv]
            (applyToDrive sampleEnv sampleStore 5 1).2) 10 = some final ∧
        final.status = AppStatus.selected ∧
        final.processStageIndex = some 2 :=
  apply_then_advance_selected sampleEnv [sampleEnv, sampleEnv, sampleEnv] sampleStore 5 1
    sampleDrive (fun _ => rfl) (fun e he n => by simp at he; subst he; rfl) (by decide) (by decide) (by decide)
    (by decide) (by decide)

/-- C3, as the code behaves: for the process `["OA", "Interview", "HR"]`
the apply handler stores the bare name of the next stage, "Interview", as
`nextStep`, not "Prepare for Interview". -/
theorem apply_next_step_is_stage_name :
    sampleDrive.process = ["OA", "Interview", "HR"] ∧
      (applyToDrive sampleEnv sampleStore 5 1).1 =
        ⟨201, Body.application (newApplication sampleDrive 5 10)⟩ ∧
      findApplication (applyToDrive sampleEnv sampleStore 5 1).2 10 =
        some (newApplication sampleDrive 5 10) ∧
      (newApplication sampleDrive 5 10).nextStep = "Interview" ∧
      (newApplication sampleDrive 5 10).nextStep ≠ "Prepare for Interview" := by
  decide

/-- C3, amended: for a drive with process `["OA", "Interview", "HR"]`, the
apply handler yields index 0, stage "OA" and `nextStep` "Interview"; the
first next-stage request yields index 1, stage "Interview" and `nextStep`
"Prepare for HR"; the second yields index 2, stage "HR", status `selected`
and the completion message. -/
theorem worked_example (env env₁ env₂ : Env) (s : Store) (userId driveId : Nat) (drive : Drive)
    (hprim : ∀ n, env.primaryFails n = false)
    (hprim₁ : ∀ n, env₁.primaryFails n = false)
    (hprim₂ : ∀ n, env₂.primaryFails n = false)
    (hdrive : findDrive s driveId = some drive)
    (hnew : findUserApplication s userId drive.id = none)
    (hfresh : findApplication s s.nextId = none)
    (hproc : drive.process = ["OA", "Interview", "HR"]) :
    ∃ a₀ a₁ a₂,
      findApplication (applyToDrive env s userId driveId).2 s.nextId = some a₀ ∧
      a₀.processStageIndex = some 0 ∧ a₀.currentStage = some "OA" ∧
      a₀.nextStep = "Interview" ∧
      findApplication (advanceStage env₁ (applyToDrive env s userId driveId).2 s.nextId).2
        s.nextId = some a₁ ∧
      a₁.processStageIndex = some 1 ∧ a₁.currentStage = some "Interview" ∧
      a₁.nextStep = "Prepare for HR" ∧
      findApplication
        (advanceStage env₂
          (advanceStage env₁ (applyToDrive env s userId driveId).2 s.nextId).2 s.nextId).2
        s.nextId = some a₂ ∧
      a₂.processStageIndex = some 2 ∧ a₂.currentStage = some "HR" ∧
      a₂.status = AppStatus.selected ∧
      a₂.nextStep = "Congratulations! You have completed all stages." := by
  have hproc' : ({ drive with applicants := drive.applicants + 1 } : Drive).process ≠ [] := by
    show drive.process ≠ []
    simp [hproc]
  have hst := applyToDrive_stored env s userId driveId drive hprim hdrive hnew hfresh
  have hdr := applyToDrive_findDrive env s userId driveId drive hprim hdrive hnew
  have h₁ := (advanceAll_stored s.nextId _ hproc' [env₁] _ _
    (by intro e he; simp at he; subst he; exact hprim₁) hst hdr).1
  have h₂ := (advanceAll_stored s.nextId _ hproc' [env₁, env₂] _ _
    (by intro e he; simp at he; rcases he with rfl | rfl <;> assumption) hst hdr).1
  refine ⟨_, _, _, hst, ?_, ?_, ?_, h₁, ?_, ?_, ?_, h₂, ?_, ?_, ?_, ?_⟩ <;>
    simp [newApplication, advanceUpdate, advanceNextStep, hproc, strOr]

theorem worked_example_witness :
    ∃ a₀ a₁ a₂,
      findApplication (applyToDrive sampleEnv sampleStore 5 1).2 10 = some a₀ ∧
      a₀.processStageIndex = some 0 ∧ a₀.currentStage = some "OA" ∧
      a₀.nextStep = "Interview" ∧
      findApplication (advanceStage sampleEnv (applyToDrive sampleEnv sampleStore 5 1).2 10).2
        10 = some a₁ ∧
      a₁.processStageIndex = some 1 ∧ a₁.currentStage = some "Interview" ∧
      a₁.nextStep = "Prepare for HR" ∧
      findApplication
        (advanceStage sampleEnv
          (advanceStage sampleEnv (applyToDrive sampleEnv sampleStore 5 1).2 10).2 10).2
        10 = some a₂ ∧
      a₂.processStageIndex = some 2 ∧ a₂.currentStage = some "HR" ∧
      a₂.status = AppStatus.selected ∧
      a₂.nextStep = "Congratulations! You have completed all stages." :=
  worked_example sampleEnv sampleEnv sampleEnv sampleStore 5 1 sampleDrive (fun _ => rfl)
    (fun _ => rfl) (fun _ => rfl) (by decide) (by decide) (by decide) rfl

/-- A run of next-stage updates on a record that is at the last stage. -/
theorem advanceFold_final (proc : List String) :
    ∀ (envs : List Env) (a : Application),
      a.processStageIndex = some (proc.length - 1) →
      a.currentStage = proc[proc.length - 1]? →
      (envs.foldl (fun acc e => advanceUpdate e proc acc acc) a).processStageIndex =
          a.processStageIndex ∧
        (envs.foldl (fun acc e => advanceUpdate e proc acc acc) a).currentStage =
          a.currentStage ∧
        (envs.foldl (fun acc e => advanceUpdate e proc acc acc) a).updates =
          a.updates ++ envs.map (fun e =>
            { stage := a.currentStage, status := AppStatus.selected, date := e.now,
              notes := "Moved to next stage by admin" }) := by
  intro envs
  induction envs with
  | nil => intro a _ _; simp
  | cons e rest ih =>
    intro a hidx hstage
    have hmin : min (a.processStageIndex.getD 0 + 1) (proc.length - 1) = proc.length - 1 := by
      rw [hidx]; simp
    have hidx' : (advanceUpdate e proc a a).processStageIndex = some (proc.length - 1) := by
      simp [advanceUpdate, hmin]
    have hstage' : (advanceUpdate e proc a a).currentStage = proc[proc.length - 1]? := by
      simp [advanceUpdate, hmin]
    have hupd : (advanceUpdate e proc a a).updates = a.updates ++
        [{ stage := a.currentStage, status := AppStatus.selected, date := e.now,
           notes := "Moved to next stage by admin" }] := by
      simp [advanceUpdate, hmin, hstage]
    have := ih (advanceUpdate e proc a a) hidx' hstage'
    simp only [List.foldl_cons, List.map_cons]
    rw [this.1, this.2.1, this.2.2, hidx', hstage', hupd, hidx, hstage]
    simp

/-- C9, as the code behaves: an application whose stored index is the last
index but whose stored stage name is another one (written through the
manual stage endpoint) gets a new `currentStage` from the next-stage
handler. -/
theorem advance_at_final_index_rewrites_stage :
    (findApplication driftedStore 10).map (fun a => (a.processStageIndex, a.currentStage)) =
        some (some 2, some "OA") ∧
      (findApplication (advanceStage sampleEnv driftedStore 10).2 10).map
          (fun a => (a.processStageIndex, a.currentStage)) =
        some (some 2, some "HR") := by
  decide

/-- C9, amended: for an application at the final stage, that is with
`processStageIndex = process.length - 1` and `currentStage` the name of
that stage, any number of next-stage requests leaves `processStageIndex`
and `currentStage` unchanged, and every request appends exactly one entry
to `updates`, so k requests grow the history by k entries. -/
theorem advance_at_final_stage (envs : List Env) (s : Store) (id : Nat)
    (application : Application) (drive : Drive)
    (hprims : ∀ e ∈ envs, ∀ n, e.primaryFails n = false)
    (happ : findApplication s id = some application)
    (hdrive : application.driveId.bind (findDrive s) = some drive)
    (hproc : drive.process ≠ [])
    (hidx : application.processStageIndex = some (drive.process.length - 1))
    (hstage : application.currentStage = drive.process[drive.process.length - 1]?) :
    ∃ final, findApplication (advanceAll id envs s) id = some final ∧
      final.processStageIndex = application.processStageIndex ∧
      final.currentStage = application.currentStage ∧
      final.updates = application.updates ++ envs.map (fun e =>
        { stage := application.currentStage, status := AppStatus.selected, date := e.now,
          notes := "Moved to next stage by admin" }) ∧
      final.updates.length = application.updates.length + envs.length := by
  have hall := (advanceAll_stored id drive hproc envs s application hprims happ hdrive).1
  have hfold := advanceFold_final drive.process envs application hidx hstage
  refine ⟨_, hall, hfold.1, hfold.2.1, hfold.2.2, ?_⟩
  rw [hfold.2.2]
  simp

theorem advance_at_final_stage_witness :
    ∃ final, findApplication (advanceAll 10 [sampleEnv, sampleEnv] finalStore) 10 = some final ∧
      final.processStageIndex = some 2 ∧
      final.currentStage = some "HR" ∧
      final.updates = finalApplication.updates ++ [sampleEnv, sampleEnv].map (fun e =>
        { stage := some "HR", status := AppStatus.selected, date := e.now,
          notes := "Moved to next stage by admin" }) ∧
      final.updates.length = 2 + 2 :=
  advance_at_final_stage [sampleEnv, sampleEnv] finalStore 10 finalApplication
    { sampleDrive with applicants := 1 } (fun e he n => by simp at he; subst he; rfl)
    (by decide) (by decide) (by decide) rfl rfl

theorem mem_updateApplication (id : Nat) (f : Application → Application) (x : Application) :
    ∀ l : List Application, x ∈ updateApplication id f l →
      x ∈ l ∨ ∃ a, l.find? (fun a => a.id == id) = some a ∧ x = f a := by
  intro l
  induction l with
  | nil => intro h; simp [updateApplication] at h
  | cons a rest ih =>
    intro h
    by_cases ha : a.id = id
    · simp only [updateApplication, ha, if_true, List.mem_cons] at h
      rcases h with h | h
      · exact Or.inr ⟨a, by simp [List.find?_cons, ha], h⟩
      · exact Or.inl (List.mem_cons_of_mem _ h)
    · simp only [updateApplication, ha, if_false, List.mem_cons] at h
      rcases h with h | h
      · exact Or.inl (h ▸ List.mem_cons_self _ _)
      · rcases ih h with h' | ⟨b, hb, hx⟩
        · exact Or.inl (List.mem_cons_of_mem _ h')
        · exact Or.inr ⟨b, by simp [List.find?_cons, ha, hb], hx⟩

theorem mem_saveDrive (d x : Drive) :
    ∀ l : List Drive, x ∈ saveDrive d l → x ∈ l ∨ x = d := by
  intro l
  induction l with
  | nil => intro h; simp [saveDrive] at h
  | cons y rest ih =>
    intro h
    by_cases hy : y.id = d.id
    · simp only [saveDrive, hy, if_true, List.mem_cons] at h
      rcases h with h | h
      · exact Or.inr h
      · exact Or.inl (List.mem_cons_of_mem _ h)
    · simp only [saveDrive, hy, if_false, List.mem_cons] at h
      rcases h with h | h
      · exact Or.inl (h ▸ List.mem_cons_self _ _)
      · rcases ih h with h' | h'
        · exact Or.inl (List.mem_cons_of_mem _ h')
        · exact Or.inr h'

theorem findDrive_congr {s s' : Store} (h : s'.drives = s.drives) : findDrive s' = findDrive s := by
  funext x
  simp [findDrive, h]

/-- What the next-stage handler can do to the store. -/
theorem advanceStage_cases (env : Env) (s : Store) (id : Nat) :
    (advanceStage env s id).2 = s ∨
      ∃ a d, findApplication s id = some a ∧ a.driveId.bind (findDrive s) = some d ∧
        d.process ≠ [] ∧
        (advanceStage env s id).2.applications =
          updateApplication id (advanceUpdate env d.process a) s.applications ∧
        (advanceStage env s id).2.drives = s.drives := by
  by_cases h0 : env.primaryFails 0 = true
  · left; simp [advanceStage, h0]
  · cases happ : findApplication s id with
    | none => left; simp [advanceStage, h0, happ]
    | some a =>
      cases hd : a.driveId.bind (findDrive s) with
      | none => left; simp [advanceStage, h0, happ, hd]
      | some d =>
        by_cases hl : d.process.length = 0
        · left; simp [advanceStage, h0, happ, hd, hl]
        · by_cases h1 : env.primaryFails 1 = true
          · left; simp [advanceStage, h0, happ, hd, hl, h1]
          · right
            refine ⟨a, d, rfl, hd, ?_, ?_, ?_⟩
            · intro h; simp [h] at hl
            · simp [advanceStage, h0, happ, hd, hl, h1]
            · simp [advanceStage, h0, happ, hd, hl, h1]

/-- What the reject handler can do to the store. -/
theorem rejectApplication_cases (env : Env) (s : Store) (id : Nat) :
    (rejectApplication env s id).2 = s ∨
      ∃ a, findApplication s id = some a ∧
        (rejectApplication env s id).2.applications =
          updateApplication id (rejectUpdate env a) s.applications ∧
        (rejectApplication env s id).2.drives = s.drives := by
  by_cases h0 : env.primaryFails 0 = true
  · left; simp [rejectApplication, h0]
  · cases happ : findApplication s id with
    | none => left; simp [rejectApplication, h0, happ]
    | some a =>
      by_cases h1 : env.primaryFails 1 = true
      · left; simp [rejectApplication, h0, happ, h1]
      · right
        exact ⟨a, rfl, by simp [rejectApplication, h0, happ, h1],
          by simp [rejectApplication, h0, happ, h1]⟩

/-- What the apply handler can do to the store. -/
theorem applyToDrive_cases (env : Env) (s : Store) (userId driveId : Nat) :
    (applyToDrive env s userId driveId).2 = s ∨
      ∃ drive, findDrive s driveId = some drive ∧
        (applyToDrive env s userId driveId).2.applications =
          s.applications ++ [newApplication drive userId s.nextId] ∧
        ((applyToDrive env s userId driveId).2.drives = s.drives ∨
          (applyToDrive env s userId driveId).2.drives =
            saveDrive { drive with applicants := drive.applicants + 1 } s.drives) := by
  by_cases h0 : env.primaryFails 0 = true
  · left; simp [applyToDrive, h0]
  · cases hdrive : findDrive s driveId with
    | none => left; simp [applyToDrive, h0, hdrive]
    | some drive =>
      by_cases h1 : env.primaryFails 1 = true
      · left; simp [applyToDrive, h0, hdrive, h1]
      · cases hnew : findUserApplication s userId drive.id with
        | some _ => left; simp [applyToDrive, h0, hdrive, h1, hnew]
        | none =>
          by_cases h2 : env.primaryFails 2 = true
          · left; simp [applyToDrive, h0, hdrive, h1, hnew, h2]
          · right
            have hfr := afterEvents_frame env s drive userId
            have hid : (newApplication drive userId s.nextId).id = s.nextId := rfl
            refine ⟨drive, rfl, ?_, ?_⟩
            · unfold applyToDrive
              simp only [h0, hdrive, h1, hnew, h2, if_false, hid, createEvents_guard]
              by_cases h3 : env.primaryFails 3 = true
              · simp only [h3, if_true]; exact hfr.1
              · simp only [h3, if_false]; exact hfr.1
            · unfold applyToDrive
              simp only [h0, hdrive, h1, hnew, h2, if_false, hid, createEvents_guard]
              by_cases h3 : env.primaryFails 3 = true
              · left; simp only [h3, if_true]; exact hfr.2
              · right; simp only [h3, if_false]
                exact congrArg _ hfr.2


theorem advanceStage_preserves (env : Env) (s : Store) (id : Nat)
    (hinv : DrivesOk s ∧ StageInvariant s) :
    DrivesOk (advanceStage env s id).2 ∧ StageInvariant (advanceStage env s id).2 := by
  rcases advanceStage_cases env s id with h | ⟨a, d, happ, hd, hproc, happs, hdrives⟩
  · rw [h]; exact hinv
  · refine ⟨?_, ?_⟩
    · intro x hx
      rw [hdrives] at hx
      exact hinv.1 x hx
    · intro x hx d' hd'
      rw [findDrive_congr hdrives] at hd'
      rw [happs] at hx
      rcases mem_updateApplication id _ x _ hx with hx | ⟨a0, ha0, rfl⟩
      · exact hinv.2 x hx d' hd'
      · have ha : a0 = a := by
          have := ha0.symm.trans happ
          exact Option.some.inj this
        subst ha
        have hdd : d' = d := Option.some.inj (hd'.symm.trans hd)
        subst hdd
        have hlen := length_pos_of_process hproc
        exact ⟨min (a0.processStageIndex.getD 0 + 1) (d'.process.length - 1), rfl,
          by omega, rfl⟩

theorem rejectApplication_preserves (env : Env) (s : Store) (id : Nat)
    (hinv : DrivesOk s ∧ StageInvariant s) :
    DrivesOk (rejectApplication env s id).2 ∧ StageInvariant (rejectApplication env s id).2 := by
  rcases rejectApplication_cases env s id with h | ⟨a, happ, happs, hdrives⟩
  · rw [h]; exact hinv
  · refine ⟨?_, ?_⟩
    · intro x hx
      rw [hdrives] at hx
      exact hinv.1 x hx
    · intro x hx d' hd'
      rw [findDrive_congr hdrives] at hd'
      rw [happs] at hx
      rcases mem_updateApplication id _ x _ hx with hx | ⟨a0, ha0, rfl⟩
      · exact hinv.2 x hx d' hd'
      · exact hinv.2 a0 (List.mem_of_find?_eq_some ha0) d' hd'

theorem newApplication_valid (drive : Drive) (userId applicationId : Nat)
    (hok : drive.process ≠ [] ∧ drive.process[0]? ≠ some "") :
    stageValid drive.process (newApplication drive userId applicationId) := by
  cases hp : drive.process with
  | nil => exact absurd hp hok.1
  | cons x xs =>
    have hx : x ≠ "" := by
      intro h
      apply hok.2
      simp [hp, h]
    refine ⟨0, rfl, by simp, ?_⟩
    simp [newApplication, hp, strOr, hx]

theorem applyToDrive_preserves (env : Env) (s : Store) (userId driveId : Nat)
    (hinv : DrivesOk s ∧ StageInvariant s) :
    DrivesOk (applyToDrive env s userId driveId).2 ∧
      StageInvariant (applyToDrive env s userId driveId).2 := by
  rcases applyToDrive_cases env s userId driveId with h | ⟨drive, hdrive, happs, hdrives⟩
  · rw [h]; exact hinv
  · have hmem : drive ∈ s.drives := List.mem_of_find?_eq_some hdrive
    have hid := findDrive_id hdrive
    have hsim : ∀ x d', findDrive (applyToDrive env s userId driveId).2 x = some d' →
        ∃ d, findDrive s x = some d ∧ d.process = d'.process := by
      intro x d' hd'
      rcases hdrives with hdr | hdr
      · rw [findDrive_congr hdr] at hd'
        exact ⟨d', hd', rfl⟩
      · unfold findDrive at hd' hdrive ⊢
        rw [hdr, find_saveDrive] at hd'
        by_cases hx : x = drive.id
        · have hx2 : x = ({ drive with applicants := drive.applicants + 1 } : Drive).id := hx
          rw [if_pos hx2, hx, hid, hdrive] at hd'
          simp only [Option.map_some', Option.some.injEq] at hd'
          refine ⟨drive, ?_, by rw [← hd']⟩
          rw [hx, hid]; exact hdrive
        · have hx2 : ¬ x = ({ drive with applicants := drive.applicants + 1 } : Drive).id := hx
          rw [if_neg hx2] at hd'
          exact ⟨d', hd', rfl⟩
    refine ⟨?_, ?_⟩
    · intro x hx
      rcases hdrives with hdr | hdr
      · rw [hdr] at hx; exact hinv.1 x hx
      · rw [hdr] at hx
        rcases mem_saveDrive _ x _ hx with hx | rfl
        · exact hinv.1 x hx
        · exact hinv.1 drive hmem
    · intro x hx d' hd'
      rw [happs, List.mem_append, List.mem_singleton] at hx
      rcases hx with hx | rfl
      · cases hxd : x.driveId with
        | none => simp [hxd] at hd'
        | some did =>
          rw [hxd] at hd'
          obtain ⟨d, hd, hp⟩ := hsim did d' hd'
          have := hinv.2 x hx d (by rw [hxd]; exact hd)
          rw [← hp]; exact this
      · have hd'' : findDrive (applyToDrive env s userId driveId).2 drive.id = some d' := hd'
        obtain ⟨d, hd, hp⟩ := hsim drive.id d' hd''
        rw [hid, hdrive] at hd
        have hdd : drive = d := Option.some.inj hd
        subst hdd
        rw [← hp]
        exact newApplication_valid drive userId s.nextId (hinv.1 drive hmem)

/-- C4, as the code behaves: the manual stage endpoint stores the index and
stage name of the request as they come, here index 5 for a three-stage
process; applying to a drive without stages stores index 0 with the
stage name "Applied"; and so does applying to a drive whose first stage
name is the empty string. -/
theorem stage_invariant_broken :
    ¬ StageInvariant
        (runAll [(sampleEnv, Request.apply 5 1),
          (sampleEnv, Request.stage 10
            { processStageIndex := 5, currentStage := "HR", nextStep := "Done",
              status := AppStatus.selected })] sampleStore) ∧
      ¬ StageInvariant
        (runAll [(sampleEnv, Request.apply 5 1)]
          { sampleStore with drives := [{ sampleDrive with process := [] }] }) ∧
      ¬ StageInvariant
        (runAll [(sampleEnv, Request.apply 5 1)]
          { sampleStore with drives := [{ sampleDrive with process := ["", "HR"] }] }) := by
  refine ⟨?_, ?_, ?_⟩
  · intro h
    obtain ⟨i, hi, hlt, _⟩ := h
      { newApplication sampleDrive 5 10 with
        processStageIndex := some 5, currentStage := some "HR", nextStep := "Done",
        status := AppStatus.selected,
        updates := [{ stage := some "HR", status := AppStatus.selected, date := 1700000000,
                      notes := "Updated by admin to stage 5" }] }
      (by decide) { sampleDrive with applicants := 1 } (by decide)
    simp only [Option.some.injEq] at hi
    subst hi
    revert hlt
    decide
  · intro h
    obtain ⟨i, _, hlt, _⟩ := h
      (newApplication { sampleDrive with process := [] } 5 10)
      (by decide) { sampleDrive with process := [], applicants := 1 } (by decide)
    simp at hlt
  · intro h
    obtain ⟨i, hi, _, hst⟩ := h
      (newApplication { sampleDrive with process := ["", "HR"] } 5 10)
      (by decide) { sampleDrive with process := ["", "HR"], applicants := 1 } (by decide)
    simp only [newApplication, Option.some.injEq] at hi
    subst hi
    revert hst
    decide

/-- C4, amended: in a store whose drives all have at least one stage and a
first stage with a non-empty name, every sequence of apply, next-stage and
reject requests (with any storage failures, but without the manual stage
endpoint) keeps the stage invariant: for every application whose drive
exists, `processStageIndex` is a valid index into the drive's process and
`currentStage` is the stage name at that index. -/
theorem stage_invariant_reachable (reqs : List (Env × Request)) (s : Store)
    (hreqs : ∀ r ∈ reqs, r.2.isStage = false)
    (hdrives : DrivesOk s) (hinv : StageInvariant s) :
    StageInvariant (runAll reqs s) := by
  suffices h : ∀ (reqs : List (Env × Request)) (s : Store),
      (∀ r ∈ reqs, r.2.isStage = false) → DrivesOk s ∧ StageInvariant s →
      DrivesOk (runAll reqs s) ∧ StageInvariant (runAll reqs s) from
    (h reqs s hreqs ⟨hdrives, hinv⟩).2
  intro reqs
  induction reqs with
  | nil => intro s _ h; exact h
  | cons r rest ih =>
    intro s hr h
    obtain ⟨env, req⟩ := r
    have hrest : ∀ r ∈ rest, r.2.isStage = false := fun r hmem =>
      hr r (List.mem_cons_of_mem _ hmem)
    have hreq : req.isStage = false := hr (env, req) (List.mem_cons_self _ _)
    cases req with
    | apply userId driveId => exact ih _ hrest (applyToDrive_preserves env s userId driveId h)
    | advance id => exact ih _ hrest (advanceStage_preserves env s id h)
    | reject id => exact ih _ hrest (rejectApplication_preserves env s id h)
    | stage id body => simp [Request.isStage] at hreq

theorem stage_invariant_reachable_witness :
    StageInvariant
      (runAll [(sampleEnv, Request.apply 5 1), (sampleEnv, Request.advance 10),
        (sampleEnv, Request.reject 10), (sampleEnv, Request.advance 10)] sampleStore) :=
  stage_invariant_reachable _ sampleStore
    (by intro r hr; simp at hr; rcases hr with rfl | rfl | rfl | rfl <;> rfl)
    (by intro d hd; simp [sampleStore] at hd; subst hd; decide)
    (by intro a ha; simp [sampleStore] at ha)

theorem findApplication_id {s : Store} {id : Nat} {a : Application}
    (h : findApplication s id = some a) : a.id = id := by
  have := List.find?_some h
  simpa using this

theorem scheduleEvent_some (env : Env) (drive : Drive) (userId applicationId eventId i : Nat)
    (item : ScheduleItem) (ev : Event)
    (h : scheduleEvent env drive userId applicationId eventId i item = some ev) :
    ev.status = EventStatus.scheduled ∧ ev.metadata.bind (fun m => m.stageIndex) = some i := by
  unfold scheduleEvent at h
  split at h
  · exact absurd h (by simp)
  · split at h
    · exact absurd h (by simp)
    · simp only [Option.some.injEq] at h
      subst h
      exact ⟨rfl, rfl⟩

theorem createEvents_events (env : Env) (drive : Drive) (userId applicationId : Nat)
    (items : List ScheduleItem) :
    ∀ (i : Nat) (s : Store), ∀ ev ∈ (createEvents env drive userId applicationId i items s).events,
      ev ∈ s.events ∨
        (ev.status = EventStatus.scheduled ∧
          ∃ j, ev.metadata.bind (fun m => m.stageIndex) = some j) := by
  induction items with
  | nil => intro i s ev hev; exact Or.inl hev
  | cons item rest ih =>
    intro i s ev hev
    unfold createEvents at hev
    cases hsch : scheduleEvent env drive userId applicationId s.nextId i item with
    | none =>
      rw [hsch] at hev
      exact ih (i + 1) s ev hev
    | some e =>
      rw [hsch] at hev
      by_cases hf : env.eventCreateFails i = true
      · simp only [hf, if_true] at hev
        exact ih (i + 1) s ev hev
      · simp only [hf, if_false] at hev
        rcases ih (i + 1) _ ev hev with h | h
        · simp only [List.mem_append, List.mem_singleton] at h
          rcases h with h | rfl
          · exact Or.inl h
          · have := scheduleEvent_some env drive userId applicationId s.nextId i item ev hsch
            exact Or.inr ⟨this.1, i, this.2⟩
        · exact Or.inr h

theorem relabelLoop_eq_map (env : Env) (hsave : ∀ id, env.eventSaveFails id = false)
    (applicationId nextIndex : Nat) (l : List Event) :
    relabelLoop env applicationId nextIndex l =
      l.map (fun ev =>
        if isLinked applicationId ev then (relabelEvent nextIndex ev).getD ev else ev) := by
  induction l with
  | nil => rfl
  | cons ev rest ih =>
    unfold relabelLoop
    by_cases hl : isLinked applicationId ev = true
    · cases hr : relabelEvent nextIndex ev with
      | none => simp [hl, hr, ih]
      | some saved => simp [hl, hr, ih, hsave]
    · simp [hl, ih]

theorem relabelEvent_metadata (nextIndex : Nat) (ev : Event) :
    ((relabelEvent nextIndex ev).getD ev).metadata = ev.metadata := by
  unfold relabelEvent
  simp only []
  split
  · rfl
  · split <;> rfl

theorem relabelEvent_tracked (c n : Nat) (hcn : c ≤ n) (ev : Event) (h : Waiting c ev) :
    Tracked n ((relabelEvent n ev).getD ev) := by
  obtain ⟨j, hj, hs⟩ := h
  refine ⟨j, by rw [relabelEvent_metadata]; exact hj, ?_⟩
  unfold relabelEvent
  simp only [hj, Option.getD_some]
  by_cases h1 : j < n
  · rw [if_pos h1]
    exact ⟨fun _ => rfl, fun h => absurd h (by omega), fun h => absurd h (by omega)⟩
  · rw [if_neg h1]
    by_cases h2 : j = n
    · rw [if_pos h2]
      exact ⟨fun h => absurd h h1, fun _ => rfl, fun h => absurd h (by omega)⟩
    · rw [if_neg h2]
      exact ⟨fun h => absurd h h1, fun h => absurd h h2, fun h => hs (by omega)⟩

theorem advanceStage_events_tracked (env : Env) (s : Store) (id : Nat) (a : Application)
    (d : Drive) (c : Nat)
    (hprim : ∀ n, env.primaryFails n = false) (hsync : SyncOk env)
    (happ : findApplication s id = some a)
    (hdrive : a.driveId.bind (findDrive s) = some d)
    (hproc : d.process ≠ [])
    (hidx : a.processStageIndex = some c) (hc : c ≤ d.process.length - 1)
    (hev : ∀ ev ∈ relatedEvents s id, Waiting c ev) :
    ∀ ev ∈ relatedEvents (advanceStage env s id).2 id,
      Tracked (min (c + 1) (d.process.length - 1)) ev := by
  intro ev' hev'
  rw [advanceStage_success env s id a d (hprim 0) (hprim 1) happ hdrive hproc] at hev'
  simp only [relatedEvents, hsync.1, Bool.false_eq_true, if_false, findApplication_id happ,
    hidx, Option.getD_some, relabelLoop_eq_map env hsync.2, List.mem_filter, List.mem_map] at hev'
  obtain ⟨⟨ev, hmem, rfl⟩, hlinked⟩ := hev'
  by_cases hl : isLinked id ev = true
  · simp only [hl, if_true]
    exact relabelEvent_tracked c _ (by omega) ev
      (hev ev (by simp [relatedEvents, hmem, hl]))
  · simp [hl] at hlinked

theorem advanceAll_events_tracked (id : Nat) (d : Drive) (hproc : d.process ≠ []) :
    ∀ (envs : List Env) (e₀ : Env) (s : Store) (a : Application) (c : Nat),
      (∀ e ∈ e₀ :: envs, (∀ n, e.primaryFails n = false) ∧ SyncOk e) →
      findApplication s id = some a → a.driveId.bind (findDrive s) = some d →
      a.processStageIndex = some c → c ≤ d.process.length - 1 →
      (∀ ev ∈ relatedEvents s id, Waiting c ev) →
      ∃ final idx, findApplication (advanceAll id (e₀ :: envs) s) id = some final ∧
        final.processStageIndex = some idx ∧
        ∀ ev ∈ relatedEvents (advanceAll id (e₀ :: envs) s) id, Tracked idx ev := by
  intro envs
  induction envs with
  | nil =>
    intro e₀ s a c hok happ hdrive hidx hc hev
    have h₀ := hok e₀ (List.mem_cons_self _ _)
    refine ⟨_, min (c + 1) (d.process.length - 1),
      advanceStage_stored e₀ s id a d (h₀.1 0) (h₀.1 1) happ hdrive hproc, ?_, ?_⟩
    · simp [advanceUpdate, hidx]
    · exact advanceStage_events_tracked e₀ s id a d c h₀.1 h₀.2 happ hdrive hproc hidx hc hev
  | cons e₁ rest ih =>
    intro e₀ s a c hok happ hdrive hidx hc hev
    have h₀ := hok e₀ (List.mem_cons_self _ _)
    have hst := advanceStage_stored e₀ s id a d (h₀.1 0) (h₀.1 1) happ hdrive hproc
    have hdr := advanceStage_drives e₀ s id
    have hdrive' : (advanceUpdate e₀ d.process a a).driveId.bind
        (findDrive (advanceStage e₀ s id).2) = some d := by
      rw [findDrive_congr hdr]; exact hdrive
    have hidx' : (advanceUpdate e₀ d.process a a).processStageIndex =
        some (min (c + 1) (d.process.length - 1)) := by
      simp [advanceUpdate, hidx]
    have htr := advanceStage_events_tracked e₀ s id a d c h₀.1 h₀.2 happ hdrive hproc hidx hc hev
    exact ih e₁ (advanceStage e₀ s id).2 _ _
      (fun e he => hok e (List.mem_cons_of_mem _ he)) hst hdrive' hidx' (by omega)
      (fun ev hmem => by
        obtain ⟨j, hj, _, _, h3⟩ := htr ev hmem
        exact ⟨j, hj, h3⟩)


theorem applyToDrive_events_scheduled (env : Env) (s : Store) (userId driveId : Nat)
    (drive : Drive) (hprim : ∀ n, env.primaryFails n = false)
    (hdrive : findDrive s driveId = some drive)
    (hnew : findUserApplication s userId drive.id = none)
    (hfreshEv : relatedEvents s s.nextId = []) :
    ∀ ev ∈ relatedEvents (applyToDrive env s userId driveId).2 s.nextId,
      ev.status = EventStatus.scheduled ∧
        ∃ j, ev.metadata.bind (fun m => m.stageIndex) = some j := by
  intro ev hev
  rw [applyToDrive_success env s userId driveId drive hprim hdrive hnew] at hev
  simp only [relatedEvents, List.mem_filter] at hev
  rcases createEvents_events env drive userId s.nextId drive.processSchedule 0 _ ev hev.1
    with h | h
  · have : ev ∈ relatedEvents s s.nextId := by
      simp only [relatedEvents, List.mem_filter]
      exact ⟨h, hev.2⟩
    rw [hfreshEv] at this
    simp at this
  · exact h

/-- C5, as the code behaves: right after applying, the event of stage 0 is
`scheduled` although the application's `processStageIndex` is 0; and when
the event lookup of a next-stage request throws, the events stay
`scheduled` although the index moved to 1. -/
theorem events_not_ongoing_after_apply :
    (findApplication appliedStore 10).map (fun a => a.processStageIndex) = some (some 0) ∧
      (relatedEvents appliedStore 10).map
          (fun ev => (ev.metadata.bind (fun m => m.stageIndex), ev.status)) =
        [(some 0, EventStatus.scheduled), (some 1, EventStatus.scheduled),
          (some 2, EventStatus.scheduled)] ∧
      (findApplication (advanceStage failingSyncEnv appliedStore 10).2 10).map
          (fun a => a.processStageIndex) = some (some 1) ∧
      (relatedEvents (advanceStage failingSyncEnv appliedStore 10).2 10).map
          (fun ev => (ev.metadata.bind (fun m => m.stageIndex), ev.status)) =
        [(some 0, EventStatus.scheduled), (some 1, EventStatus.scheduled),
          (some 2, EventStatus.scheduled)] := by
  decide

/-- C5, amended: the events created by the apply handler for the new
application are all `scheduled` (the stage-0 event included); after one or
more next-stage requests whose event synchronisation does not throw, every
event linked to the application is `completed` if its stage index is less
than the application's `processStageIndex`, `ongoing` if equal and
`scheduled` if greater. -/
theorem events_track_stage (env : Env) (envs : List Env) (s : Store) (userId driveId : Nat)
    (drive : Drive)
    (hprim : ∀ n, env.primaryFails n = false)
    (hprims : ∀ e ∈ envs, (∀ n, e.primaryFails n = false) ∧ SyncOk e)
    (hdrive : findDrive s driveId = some drive)
    (hnew : findUserApplication s userId drive.id = none)
    (hfresh : findApplication s s.nextId = none)
    (hfreshEv : relatedEvents s s.nextId = [])
    (hproc : drive.process ≠ []) :
    ∃ final idx,
      findApplication (advanceAll s.nextId envs (applyToDrive env s userId driveId).2)
        s.nextId = some final ∧
      final.processStageIndex = some idx ∧
      ∀ ev ∈ relatedEvents (advanceAll s.nextId envs (applyToDrive env s userId driveId).2)
          s.nextId,
        (envs = [] → ev.status = EventStatus.scheduled) ∧ (envs ≠ [] → Tracked idx ev) := by
  have hproc' : ({ drive with applicants := drive.applicants + 1 } : Drive).process ≠ [] := hproc
  have hst := applyToDrive_stored env s userId driveId drive hprim hdrive hnew hfresh
  have hdr := applyToDrive_findDrive env s userId driveId drive hprim hdrive hnew
  have hev := applyToDrive_events_scheduled env s userId driveId drive hprim hdrive hnew hfreshEv
  cases envs with
  | nil =>
    exact ⟨_, 0, hst, rfl, fun ev hmem => ⟨fun _ => (hev ev hmem).1, fun h => absurd rfl h⟩⟩
  | cons e₀ rest =>
    obtain ⟨final, idx, hfin, hidx, htr⟩ :=
      advanceAll_events_tracked s.nextId _ hproc' rest e₀ _ _ 0 hprims hst hdr rfl
        (Nat.zero_le _)
        (fun ev hmem => by
          obtain ⟨hs, j, hj⟩ := hev ev hmem
          exact ⟨j, hj, fun _ => hs⟩)
    exact ⟨final, idx, hfin, hidx, fun ev hmem =>
      ⟨fun h => absurd h (List.cons_ne_nil _ _), fun _ => htr ev hmem⟩⟩

theorem events_track_stage_witness :
    ∃ final idx,
      findApplication (advanceAll 10 [sampleEnv, sampleEnv]
        (applyToDrive sampleEnv sampleStore 5 1).2) 10 = some final ∧
      final.processStageIndex = some idx ∧
      ∀ ev ∈ relatedEvents (advanceAll 10 [sampleEnv, sampleEnv]
          (applyToDrive sampleEnv sampleStore 5 1).2) 10,
        ([sampleEnv, sampleEnv] = [] → ev.status = EventStatus.scheduled) ∧
          ([sampleEnv, sampleEnv] ≠ [] → Tracked idx ev) :=
  events_track_stage sampleEnv [sampleEnv, sampleEnv] sampleStore 5 1 sampleDrive
    (fun _ => rfl)
    (fun e he => by simp at he; subst he; exact ⟨fun _ => rfl, rfl, fun _ => rfl⟩)
    (by decide) (by decide) (by decide) (by decide) (by decide)

theorem includes_completed (t : String) : includes ("[COMPLETED] " ++ t) "[COMPLETED]" = true := by
  simp [includes, includesChars, startsWithChars, String.data_append]

theorem includes_current (t : String) : includes ("[CURRENT] " ++ t) "[CURRENT]" = true := by
  simp [includes, includesChars, startsWithChars, String.data_append]

theorem startsWith_cancelled (t : String) :
    startsWith ("[CANCELLED] " ++ t) "[CANCELLED]" = true := by
  simp [startsWith, startsWithChars, String.data_append]



/-- The title written by the relabel step for the marker `m`. -/
theorem marked_title_includes (title : String) :
    includes (if !includes title "[COMPLETED]" then "[COMPLETED] " ++ title else title)
        "[COMPLETED]" = true ∧
      includes (if !includes title "[CURRENT]" then "[CURRENT] " ++ title else title)
        "[CURRENT]" = true := by
  constructor
  · cases h : includes title "[COMPLETED]"
    · simp [includes_completed]
    · simp [h]
  · cases h : includes title "[CURRENT]"
    · simp [includes_current]
    · simp [h]

theorem relabelEvent_idem (n : Nat) (ev saved : Event) (h : relabelEvent n ev = some saved) :
    relabelEvent n saved = some saved ∧ saved.id = ev.id ∧ saved.metadata = ev.metadata := by
  unfold relabelEvent at h
  simp only [] at h
  by_cases h1 : (ev.metadata.bind (fun m => m.stageIndex)).getD 0 < n
  · rw [if_pos h1] at h
    simp only [Option.some.injEq] at h
    subst h
    refine ⟨?_, rfl, rfl⟩
    unfold relabelEvent
    simp only [if_pos h1, (marked_title_includes ev.title).1, Bool.not_true, Bool.false_eq_true,
      if_false]
  · rw [if_neg h1] at h
    by_cases h2 : (ev.metadata.bind (fun m => m.stageIndex)).getD 0 = n
    · rw [if_pos h2] at h
      simp only [Option.some.injEq] at h
      subst h
      refine ⟨?_, rfl, rfl⟩
      unfold relabelEvent
      simp only [if_neg h1, if_pos h2, (marked_title_includes ev.title).2, Bool.not_true,
        Bool.false_eq_true, if_false]
    · rw [if_neg h2] at h
      exact absurd h (by simp)

/-- C12: the relabel step is idempotent: running the relabel loop a second
time with the same index (and the same storage behaviour) on the events it
produced gives back exactly those events, so no title gets a prefix twice
and no status changes again. -/
theorem relabelLoop_idempotent (env : Env) (applicationId nextIndex : Nat) (events : List Event) :
    relabelLoop env applicationId nextIndex (relabelLoop env applicationId nextIndex events) =
      relabelLoop env applicationId nextIndex events := by
  induction events with
  | nil => rfl
  | cons ev rest ih =>
    by_cases hl : isLinked applicationId ev = true
    · cases hr : relabelEvent nextIndex ev with
      | none =>
        have h1 : relabelLoop env applicationId nextIndex (ev :: rest) =
            ev :: relabelLoop env applicationId nextIndex rest := by
          simp [relabelLoop, hl, hr]
        rw [h1]
        simp [relabelLoop, hl, hr, ih]
      | some saved =>
        by_cases hf : env.eventSaveFails ev.id = true
        · have h1 : relabelLoop env applicationId nextIndex (ev :: rest) = ev :: rest := by
            simp [relabelLoop, hl, hr, hf]
          rw [h1, h1]
        · obtain ⟨hs, hid, hm⟩ := relabelEvent_idem nextIndex ev saved hr
          have hl' : isLinked applicationId saved = true := by
            unfold isLinked at hl ⊢
            rw [hm]; exact hl
          have h1 : relabelLoop env applicationId nextIndex (ev :: rest) =
              saved :: relabelLoop env applicationId nextIndex rest := by
            simp [relabelLoop, hl, hr, hf]
          rw [h1]
          simp [relabelLoop, hl', hs, hid, hf, ih]
    · have h1 : relabelLoop env applicationId nextIndex (ev :: rest) =
          ev :: relabelLoop env applicationId nextIndex rest := by
        simp [relabelLoop, hl]
      rw [h1]
      simp [relabelLoop, hl, ih]

/-- C11, as the code behaves: the event of stage 1 was marked current and
then completed, so its title is "[COMPLETED] [CURRENT] Acme - Interview";
when the application is advanced to stage 1 again the event becomes
`ongoing` but its title, which already contains "[CURRENT]", is left as it
is and does not start with "[CURRENT]". -/
theorem relabel_keeps_marked_title :
    (findApplication (advanceStage sampleEnv regressedStore 10).2 10).map
        (fun a => a.processStageIndex) = some (some 1) ∧
      (relatedEvents (advanceStage sampleEnv regressedStore 10).2 10).map
          (fun ev => (ev.metadata.bind (fun m => m.stageIndex), ev.status, ev.title)) =
        [(some 0, EventStatus.completed, "[COMPLETED] Acme - OA"),
          (some 1, EventStatus.ongoing, "[COMPLETED] [CURRENT] Acme - Interview"),
          (some 2, EventStatus.ongoing, "[CURRENT] Acme - HR")] ∧
      startsWith "[COMPLETED] [CURRENT] Acme - Interview" "[CURRENT]" = false := by
  decide

/-- C11, amended: after a successful next-stage request whose event
synchronisation does not throw, the stored events are the old ones with
every event linked to the application relabelled: below the new index the
status is `completed` and the title contains "[COMPLETED]" (it is the old
title with "[COMPLETED] " in front unless the old title already contained
"[COMPLETED]", in which case it is the old title); at the new index the
same with `ongoing` and "[CURRENT]"; above the new index the event is
unchanged; events of other applications are unchanged. -/
theorem relabel_on_advance (env : Env) (s : Store) (id : Nat) (application : Application)
    (drive : Drive)
    (hprim : ∀ n, env.primaryFails n = false) (hsync : SyncOk env)
    (happ : findApplication s id = some application)
    (hdrive : application.driveId.bind (findDrive s) = some drive)
    (hproc : drive.process ≠ []) :
    ∃ g : Event → Event,
      (advanceStage env s id).2.events = s.events.map g ∧
      ∀ ev,
        (isLinked id ev = false → g ev = ev) ∧
        (isLinked id ev = true →
          ((ev.metadata.bind (fun m => m.stageIndex)).getD 0 <
              min (application.processStageIndex.getD 0 + 1) (drive.process.length - 1) →
            (g ev).status = EventStatus.completed ∧
            includes (g ev).title "[COMPLETED]" = true ∧
            (g ev).title =
              (if includes ev.title "[COMPLETED]" then ev.title
                else "[COMPLETED] " ++ ev.title)) ∧
          ((ev.metadata.bind (fun m => m.stageIndex)).getD 0 =
              min (application.processStageIndex.getD 0 + 1) (drive.process.length - 1) →
            (g ev).status = EventStatus.ongoing ∧
            includes (g ev).title "[CURRENT]" = true ∧
            (g ev).title =
              (if includes ev.title "[CURRENT]" then ev.title
                else "[CURRENT] " ++ ev.title)) ∧
          (min (application.processStageIndex.getD 0 + 1) (drive.process.length - 1) <
              (ev.metadata.bind (fun m => m.stageIndex)).getD 0 →
            g ev = ev)) := by
  refine ⟨fun ev => if isLinked id ev then
      (relabelEvent (min (application.processStageIndex.getD 0 + 1)
        (drive.process.length - 1)) ev).getD ev else ev, ?_, ?_⟩
  · rw [advanceStage_success env s id application drive (hprim 0) (hprim 1) happ hdrive hproc]
    simp only [hsync.1, Bool.false_eq_true, if_false, findApplication_id happ,
      relabelLoop_eq_map env hsync.2]
  · intro ev
    refine ⟨fun h => by simp [h], fun h => ?_⟩
    simp only [h, if_true]
    refine ⟨fun h1 => ?_, fun h2 => ?_, fun h3 => ?_⟩
    · unfold relabelEvent
      simp only [if_pos h1, Option.getD_some]
      refine ⟨trivial, (marked_title_includes ev.title).1, ?_⟩
      cases includes ev.title "[COMPLETED]" <;> simp
    · have h1 : ¬ (ev.metadata.bind (fun m => m.stageIndex)).getD 0 <
          min (application.processStageIndex.getD 0 + 1) (drive.process.length - 1) := by
        omega
      unfold relabelEvent
      simp only [if_neg h1, if_pos h2, Option.getD_some]
      refine ⟨trivial, (marked_title_includes ev.title).2, ?_⟩
      cases includes ev.title "[CURRENT]" <;> simp
    · have h1 : ¬ (ev.metadata.bind (fun m => m.stageIndex)).getD 0 <
          min (application.processStageIndex.getD 0 + 1) (drive.process.length - 1) := by
        omega
      have h2 : ¬ (ev.metadata.bind (fun m => m.stageIndex)).getD 0 =
          min (application.processStageIndex.getD 0 + 1) (drive.process.length - 1) := by
        omega
      unfold relabelEvent
      simp only [if_neg h1, if_neg h2, Option.getD_none]


theorem relabel_on_advance_witness :
    ∃ g : Event → Event,
      (advanceStage sampleEnv appliedStore 10).2.events = appliedStore.events.map g ∧
      ∀ ev,
        (isLinked 10 ev = false → g ev = ev) ∧
        (isLinked 10 ev = true →
          ((ev.metadata.bind (fun m => m.stageIndex)).getD 0 < 1 →
            (g ev).status = EventStatus.completed ∧
            includes (g ev).title "[COMPLETED]" = true ∧
            (g ev).title =
              (if includes ev.title "[COMPLETED]" then ev.title
                else "[COMPLETED] " ++ ev.title)) ∧
          ((ev.metadata.bind (fun m => m.stageIndex)).getD 0 = 1 →
            (g ev).status = EventStatus.ongoing ∧
            includes (g ev).title "[CURRENT]" = true ∧
            (g ev).title =
              (if includes ev.title "[CURRENT]" then ev.title
                else "[CURRENT] " ++ ev.title)) ∧
          (1 < (ev.metadata.bind (fun m => m.stageIndex)).getD 0 → g ev = ev)) :=
  relabel_on_advance sampleEnv appliedStore 10 (newApplication sampleDrive 5 10)
    { sampleDrive with applicants := 1 } (fun _ => rfl) ⟨rfl, fun _ => rfl⟩ (by decide)
    (by decide) (by decide)

/-- C13, the code at the failing input: when the `Event.updateMany` call of
the reject handler throws, the application is rejected with a 200 answer but
its three events keep status `scheduled` and their titles; and when that
call does what it is written for, the loop after it puts a second
"[CANCELLED] " in front of every description. -/
theorem reject_does_not_cancel_events :
    (rejectApplication sampleEnv appliedStore 10).1.status = 200 ∧
      (relatedEvents (rejectApplication sampleEnv appliedStore 10).2 10).map
          (fun ev => (ev.status, ev.title)) =
        [(EventStatus.scheduled, "Acme - OA"), (EventStatus.scheduled, "Acme - Interview"),
          (EventStatus.scheduled, "Acme - HR")] ∧
      (relatedEvents (rejectApplication intendedBulkEnv appliedStore 10).2 10).map
          (fun ev => (ev.status, ev.title, ev.description)) =
        [(EventStatus.cancelled, "[CANCELLED] Acme - OA",
            some ("[CANCELLED] [CANCELLED] OA for Engineer position at Acme. " ++
              "Please check with placement cell for more details.")),
          (EventStatus.cancelled, "[CANCELLED] Acme - Interview",
            some ("[CANCELLED] [CANCELLED] Interview for Engineer position at Acme. " ++
              "Please check with placement cell for more details.")),
          (EventStatus.cancelled, "[CANCELLED] Acme - HR",
            some ("[CANCELLED] [CANCELLED] HR for Engineer position at Acme. " ++
              "Please check with placement cell for more details."))] := by
  decide

theorem advanceUpdate_now (env env' : Env) (h : env'.now = env.now) (process : List String)
    (a : Application) : advanceUpdate env' process a = advanceUpdate env process a := by
  unfold advanceUpdate
  rw [h]

theorem rejectUpdate_now (env env' : Env) (h : env'.now = env.now) (a : Application) :
    rejectUpdate env' a = rejectUpdate env a := by
  unfold rejectUpdate
  rw [h]

/-- C14: the answer of the next-stage and reject handlers does not depend
on the calendar synchronisation. For an existing application (and, for
next-stage, an existing drive with stages) and working application
storage, under any behaviour `env'` of the event lookup, the event saves
and the bulk update, the answer is the 200 response carrying the updated
application, the same as under `env`, and the same application is
stored. -/
theorem sync_failures_keep_response (env env' : Env) (s : Store) (id : Nat)
    (application : Application)
    (hnow : env'.now = env.now) (hsame : env'.primaryFails = env.primaryFails)
    (hprim : ∀ n, env.primaryFails n = false)
    (happ : findApplication s id = some application) :
    (∀ drive, application.driveId.bind (findDrive s) = some drive → drive.process ≠ [] →
      (advanceStage env' s id).1 = (advanceStage env s id).1 ∧
      (advanceStage env' s id).1 =
        ⟨200, Body.application (advanceUpdate env drive.process application application)⟩ ∧
      findApplication (advanceStage env' s id).2 id =
        some (advanceUpdate env drive.process application application)) ∧
    ((rejectApplication env' s id).1 = (rejectApplication env s id).1 ∧
      (rejectApplication env' s id).1 =
        ⟨200, Body.application (rejectUpdate env application application)⟩ ∧
      findApplication (rejectApplication env' s id).2 id =
        some (rejectUpdate env application application)) := by
  have hprim' : ∀ n, env'.primaryFails n = false := by
    intro n; rw [hsame]; exact hprim n
  refine ⟨?_, ?_⟩
  · intro drive hdrive hproc
    have h := advanceStage_success env s id application drive (hprim 0) (hprim 1) happ hdrive hproc
    have h' := advanceStage_success env' s id application drive (hprim' 0) (hprim' 1) happ
      hdrive hproc
    have hst := advanceStage_stored env' s id application drive (hprim' 0) (hprim' 1) happ
      hdrive hproc
    rw [advanceUpdate_now env env' hnow] at h' hst
    exact ⟨by rw [h, h'], by rw [h'], hst⟩
  · have h := rejectApplication_success env s id application (hprim 0) (hprim 1) happ
    have h' := rejectApplication_success env' s id application (hprim' 0) (hprim' 1) happ
    have hst := rejectApplication_stored env' s id application (hprim' 0) (hprim' 1) happ
    rw [rejectUpdate_now env env' hnow] at h' hst
    exact ⟨by rw [h, h'], by rw [h'], hst⟩

theorem sync_failures_keep_response_witness :
    (advanceStage failingSyncEnv appliedStore 10).1 = (advanceStage sampleEnv appliedStore 10).1 ∧
      (rejectApplication failingSyncEnv appliedStore 10).1 =
        (rejectApplication sampleEnv appliedStore 10).1 :=
  ⟨((sync_failures_keep_response sampleEnv failingSyncEnv appliedStore 10
      (newApplication sampleDrive 5 10) rfl rfl (fun _ => rfl) (by decide)).1
      { sampleDrive with applicants := 1 } (by decide) (by decide)).1,
    (sync_failures_keep_response sampleEnv failingSyncEnv appliedStore 10
      (newApplication sampleDrive 5 10) rfl rfl (fun _ => rfl) (by decide)).2.1⟩

theorem applyToDrive_applications (env : Env) (s : Store) (userId driveId : Nat) (drive : Drive)
    (hprim : ∀ n, env.primaryFails n = false)
    (hdrive : findDrive s driveId = some drive)
    (hnew : findUserApplication s userId drive.id = none) :
    (applyToDrive env s userId driveId).2.applications =
      s.applications ++ [newApplication drive userId s.nextId] := by
  rw [applyToDrive_success env s userId driveId drive hprim hdrive hnew]
  exact (afterEvents_frame env s drive userId).1

/-- C15: for a user who has not applied to an existing drive, with working
storage, the first apply request is answered 201 and the second one for the
same user and drive is answered 400 "Already applied for this drive" and
returns the store as it was (no event created, `applicants` unchanged);
afterwards exactly one application of the user for the drive is stored. -/
theorem apply_twice_conflict (env₁ env₂ : Env) (s : Store) (userId driveId : Nat)
    (drive : Drive)
    (hprim₁ : ∀ n, env₁.primaryFails n = false) (hprim₂ : ∀ n, env₂.primaryFails n = false)
    (hdrive : findDrive s driveId = some drive)
    (hnew : findUserApplication s userId drive.id = none) :
    (applyToDrive env₁ s userId driveId).1 =
        ⟨201, Body.application (newApplication drive userId s.nextId)⟩ ∧
      applyToDrive env₂ (applyToDrive env₁ s userId driveId).2 userId driveId =
        (⟨400, Body.message "Already applied for this drive"⟩,
          (applyToDrive env₁ s userId driveId).2) ∧
      ((applyToDrive env₂ (applyToDrive env₁ s userId driveId).2 userId driveId).2.applications.filter
        (fun a => a.userId == userId && a.driveId == some drive.id)).length = 1 := by
  have hid := findDrive_id hdrive
  subst hid
  have happs := applyToDrive_applications env₁ s userId drive.id drive hprim₁ hdrive hnew
  have hfd := applyToDrive_findDrive env₁ s userId drive.id drive hprim₁ hdrive hnew
  have hfu : findUserApplication (applyToDrive env₁ s userId drive.id).2 userId drive.id =
      some (newApplication drive userId s.nextId) := by
    unfold findUserApplication at hnew ⊢
    rw [happs, List.find?_append, hnew]
    simp [newApplication]
  have hsecond : applyToDrive env₂ (applyToDrive env₁ s userId drive.id).2 userId drive.id =
      (⟨400, Body.message "Already applied for this drive"⟩,
        (applyToDrive env₁ s userId drive.id).2) := by
    have hfu' : findUserApplication (applyToDrive env₁ s userId drive.id).2 userId
        ({ drive with applicants := drive.applicants + 1 } : Drive).id =
        some (newApplication drive userId s.nextId) := hfu
    generalize (applyToDrive env₁ s userId drive.id).2 = s₁ at hfd hfu' ⊢
    unfold applyToDrive
    simp only [hprim₂, Bool.false_eq_true, if_false, hfd, hfu']
  refine ⟨?_, hsecond, ?_⟩
  · rw [applyToDrive_success env₁ s userId drive.id drive hprim₁ hdrive hnew]
  · rw [hsecond, happs, List.filter_append]
    have hnone : s.applications.filter
        (fun a => a.userId == userId && a.driveId == some drive.id) = [] := by
      unfold findUserApplication at hnew
      rw [List.filter_eq_nil_iff]
      intro a ha
      have := List.find?_eq_none.mp hnew a ha
      simpa using this
    rw [hnone]
    simp [newApplication]

theorem apply_twice_conflict_witness :
    (applyToDrive sampleEnv sampleStore 5 1).1 =
        ⟨201, Body.application (newApplication sampleDrive 5 10)⟩ ∧
      applyToDrive sampleEnv (applyToDrive sampleEnv sampleStore 5 1).2 5 1 =
        (⟨400, Body.message "Already applied for this drive"⟩,
          (applyToDrive sampleEnv sampleStore 5 1).2) ∧
      ((applyToDrive sampleEnv (applyToDrive sampleEnv sampleStore 5 1).2 5 1).2.applications.filter
        (fun a => a.userId == 5 && a.driveId == some 1)).length = 1 :=
  apply_twice_conflict sampleEnv sampleEnv sampleStore 5 1 sampleDrive (fun _ => rfl)
    (fun _ => rfl) (by decide) (by decide)

/-- C19: a successful apply request stores the drive with `applicants`
increased by exactly 1 and every other field as before, leaves every other
drive lookup as it was, and the new application has status `applied` and
`processStageIndex` 0. -/
theorem apply_increments_applicants (env : Env) (s : Store) (userId driveId : Nat)
    (drive : Drive)
    (hprim : ∀ n, env.primaryFails n = false)
    (hdrive : findDrive s driveId = some drive)
    (hnew : findUserApplication s userId drive.id = none) :
    findDrive (applyToDrive env s userId driveId).2 driveId =
        some { drive with applicants := drive.applicants + 1 } ∧
      (∀ other, other ≠ driveId →
        findDrive (applyToDrive env s userId driveId).2 other = findDrive s other) ∧
      (applyToDrive env s userId driveId).2.drives.length = s.drives.length ∧
      ∃ created,
        (applyToDrive env s userId driveId).1 = ⟨201, Body.application created⟩ ∧
        (applyToDrive env s userId driveId).2.applications = s.applications ++ [created] ∧
        created.status = AppStatus.applied ∧ created.processStageIndex = some 0 := by
  have hid := findDrive_id hdrive
  subst hid
  have hfd := applyToDrive_findDrive env s userId drive.id drive hprim hdrive hnew
  refine ⟨hfd, ?_, ?_, newApplication drive userId s.nextId, ?_,
    applyToDrive_applications env s userId drive.id drive hprim hdrive hnew, rfl, rfl⟩
  · intro other hother
    rw [applyToDrive_success env s userId drive.id drive hprim hdrive hnew]
    unfold findDrive
    simp only [find_saveDrive]
    have : ¬ other = drive.id := hother
    rw [if_neg this]
  · rw [applyToDrive_success env s userId drive.id drive hprim hdrive hnew]
    show (saveDrive _ s.drives).length = s.drives.length
    generalize ({ drive with applicants := drive.applicants + 1 } : Drive) = d
    induction s.drives with
    | nil => rfl
    | cons x rest ih =>
      by_cases hx : x.id = d.id
      · simp [saveDrive, hx]
      · simp [saveDrive, hx, ih]
  · rw [applyToDrive_success env s userId drive.id drive hprim hdrive hnew]

theorem apply_increments_applicants_witness :
    findDrive (applyToDrive sampleEnv sampleStore 5 1).2 1 =
        some { sampleDrive with applicants := 0 + 1 } ∧
      (∀ other, other ≠ 1 →
        findDrive (applyToDrive sampleEnv sampleStore 5 1).2 other =
          findDrive sampleStore other) ∧
      (applyToDrive sampleEnv sampleStore 5 1).2.drives.length = sampleStore.drives.length ∧
      ∃ created,
        (applyToDrive sampleEnv sampleStore 5 1).1 = ⟨201, Body.application created⟩ ∧
        (applyToDrive sampleEnv sampleStore 5 1).2.applications =
          sampleStore.applications ++ [created] ∧
        created.status = AppStatus.applied ∧ created.processStageIndex = some 0 :=
  apply_increments_applicants sampleEnv sampleStore 5 1 sampleDrive (fun _ => rfl) (by decide)
    (by decide)

theorem scheduleEvent_isSome (env : Env) (drive : Drive) (userId applicationId eventId i : Nat)
    (item : ScheduleItem) :
    (scheduleEvent env drive userId applicationId eventId i item).isSome = validItem env item := by
  unfold scheduleEvent validItem
  cases hd : truthy item.date <;> cases hs : truthy item.stage <;>
    cases hp : env.parseDate (item.date.getD "") <;> simp

theorem scheduleEvent_linked (env : Env) (drive : Drive) (userId applicationId eventId i : Nat)
    (item : ScheduleItem) (ev : Event)
    (h : scheduleEvent env drive userId applicationId eventId i item = some ev) :
    isLinked applicationId ev = true := by
  unfold scheduleEvent at h
  split at h
  · exact absurd h (by simp)
  · split at h
    · exact absurd h (by simp)
    · simp only [Option.some.injEq] at h
      subst h
      simp [isLinked]

/-- The events appended by the event loop of the apply handler. -/
theorem createEvents_created (env : Env) (drive : Drive) (userId applicationId : Nat)
    (items : List ScheduleItem) :
    ∀ (i : Nat) (s : Store), ∃ created,
      (createEvents env drive userId applicationId i items s).events = s.events ++ created ∧
      created.length ≤ items.length ∧
      ((∀ item ∈ items, validItem env item = false) → created = []) ∧
      ((∀ j, env.eventCreateFails j = true) → created = []) ∧
      ((∀ j, env.eventCreateFails j = false) →
        created.map (fun ev => ev.metadata.bind (fun m => m.stageIndex)) =
          ((items.enumFrom i).filter (fun p => validItem env p.2)).map (fun p => some p.1)) ∧
      ∀ ev ∈ created, isLinked applicationId ev = true ∧ ev.status = EventStatus.scheduled := by
  induction items with
  | nil =>
    intro i s
    exact ⟨[], by simp [createEvents], by simp, fun _ => rfl, fun _ => rfl, fun _ => by simp,
      by simp⟩
  | cons item rest ih =>
    intro i s
    have hv := scheduleEvent_isSome env drive userId applicationId s.nextId i item
    unfold createEvents
    cases hsch : scheduleEvent env drive userId applicationId s.nextId i item with
    | none =>
      rw [hsch] at hv
      have hv' : validItem env item = false := by simpa using hv.symm
      obtain ⟨created, h1, h2, h3, h4, h5, h6⟩ := ih (i + 1) s
      refine ⟨created, h1, ?_, ?_, h4, ?_, h6⟩
      · simp only [List.length_cons]; omega
      · intro h
        exact h3 (fun x hx => h x (List.mem_cons_of_mem _ hx))
      · intro h
        rw [h5 h]
        simp [List.enumFrom_cons, hv']
    | some e =>
      rw [hsch] at hv
      have hv' : validItem env item = true := by simpa using hv.symm
      by_cases hf : env.eventCreateFails i = true
      · simp only [hf, if_true]
        obtain ⟨created, h1, h2, h3, h4, h5, h6⟩ := ih (i + 1) s
        refine ⟨created, h1, ?_, ?_, h4, ?_, h6⟩
        · simp only [List.length_cons]; omega
        · intro h
          exact h3 (fun x hx => h x (List.mem_cons_of_mem _ hx))
        · intro h
          rw [h i] at hf
          exact absurd hf (by simp)
      · simp only [hf, if_false]
        obtain ⟨created, h1, h2, h3, h4, h5, h6⟩ := ih (i + 1)
          { s with events := s.events ++ [e], nextId := s.nextId + 1 }
        refine ⟨e :: created, ?_, ?_, ?_, ?_, ?_, ?_⟩
        · simpa [List.append_assoc] using h1
        · simp only [List.length_cons]; omega
        · intro h
          have := h item (List.mem_cons_self _ _)
          rw [hv'] at this
          exact absurd this (by simp)
        · intro h
          exact absurd (h i) hf
        · intro h
          have hidx := (scheduleEvent_some env drive userId applicationId s.nextId i item e hsch).2
          simp [List.enumFrom_cons, hv', h5 h, hidx]
        · intro ev hev
          rcases List.mem_cons.mp hev with rfl | hev
          · exact ⟨scheduleEvent_linked env drive userId applicationId s.nextId i item ev hsch,
              (scheduleEvent_some env drive userId applicationId s.nextId i item ev hsch).1⟩
          · exact h6 ev hev

/-- C16: for a drive with M schedule items, a successful apply request (the
drive and application storage working) answers 201 with the new
application, stores it, and appends at most M events to the event
collection, whatever `Event.create` calls throw; when every item is invalid
or every `Event.create` throws, it appends none. -/
theorem apply_creates_at_most_schedule_length (env : Env) (s : Store) (userId driveId : Nat)
    (drive : Drive)
    (hprim : ∀ n, env.primaryFails n = false)
    (hdrive : findDrive s driveId = some drive)
    (hnew : findUserApplication s userId drive.id = none) :
    (applyToDrive env s userId driveId).1 =
        ⟨201, Body.application (newApplication drive userId s.nextId)⟩ ∧
      (applyToDrive env s userId driveId).2.applications =
        s.applications ++ [newApplication drive userId s.nextId] ∧
      ∃ created,
        (applyToDrive env s userId driveId).2.events = s.events ++ created ∧
        created.length ≤ drive.processSchedule.length ∧
        ((∀ item ∈ drive.processSchedule, validItem env item = false) → created = []) ∧
        ((∀ j, env.eventCreateFails j = true) → created = []) := by
  obtain ⟨created, h1, h2, h3, h4, _, _⟩ :=
    createEvents_created env drive userId s.nextId drive.processSchedule 0
      { s with applications := s.applications ++ [newApplication drive userId s.nextId]
               nextId := s.nextId + 1 }
  refine ⟨?_, applyToDrive_applications env s userId driveId drive hprim hdrive hnew,
    created, ?_, h2, h3, h4⟩
  · rw [applyToDrive_success env s userId driveId drive hprim hdrive hnew]
  · rw [applyToDrive_success env s userId driveId drive hprim hdrive hnew]
    exact h1

theorem apply_creates_at_most_schedule_length_witness :
    (applyToDrive sampleEnv mixedStore 5 2).1 =
        ⟨201, Body.application (newApplication mixedDrive 5 20)⟩ ∧
      (applyToDrive sampleEnv mixedStore 5 2).2.applications =
        mixedStore.applications ++ [newApplication mixedDrive 5 20] ∧
      ∃ created,
        (applyToDrive sampleEnv mixedStore 5 2).2.events = mixedStore.events ++ created ∧
        created.length ≤ 5 ∧
        ((∀ item ∈ mixedDrive.processSchedule, validItem sampleEnv item = false) →
          created = []) ∧
        ((∀ j, sampleEnv.eventCreateFails j = true) → created = []) :=
  apply_creates_at_most_schedule_length sampleEnv mixedStore 5 2 mixedDrive (fun _ => rfl)
    (by decide) (by decide)

/-- C17: when no `Event.create` throws, a successful apply request appends
exactly one event per schedule item that has a non-empty date, a non-empty
stage and a date that parses, in schedule order and each carrying the
position of its item as `stageIndex`; every other item is skipped and the
items after it are still processed. -/
theorem apply_creates_event_iff_valid (env : Env) (s : Store) (userId driveId : Nat)
    (drive : Drive)
    (hprim : ∀ n, env.primaryFails n = false)
    (hcreate : ∀ j, env.eventCreateFails j = false)
    (hdrive : findDrive s driveId = some drive)
    (hnew : findUserApplication s userId drive.id = none) :
    ∃ created,
      (applyToDrive env s userId driveId).2.events = s.events ++ created ∧
      created.map (fun ev => ev.metadata.bind (fun m => m.stageIndex)) =
        ((drive.processSchedule.enumFrom 0).filter (fun p => validItem env p.2)).map
          (fun p => some p.1) ∧
      ∀ ev ∈ created, isLinked s.nextId ev = true ∧ ev.status = EventStatus.scheduled := by
  obtain ⟨created, h1, _, _, _, h5, h6⟩ :=
    createEvents_created env drive userId s.nextId drive.processSchedule 0
      { s with applications := s.applications ++ [newApplication drive userId s.nextId]
               nextId := s.nextId + 1 }
  refine ⟨created, ?_, h5 hcreate, ?_⟩
  · rw [applyToDrive_success env s userId driveId drive hprim hdrive hnew]
    exact h1
  · exact h6


theorem apply_creates_event_iff_valid_witness :
    ∃ created,
      (applyToDrive sampleEnv mixedStore 5 2).2.events = mixedStore.events ++ created ∧
      created.map (fun ev => ev.metadata.bind (fun m => m.stageIndex)) = [some 0, some 4] ∧
      ∀ ev ∈ created, isLinked 20 ev = true ∧ ev.status = EventStatus.scheduled :=
  apply_creates_event_iff_valid sampleEnv mixedStore 5 2 mixedDrive (fun _ => rfl)
    (fun _ => rfl) (by decide) (by decide)

theorem matchPeriod_iff (a m : Char) (pm : Bool) :
    matchPeriod [a, m] = some pm ↔
      (m = 'M' ∨ m = 'm') ∧
        ((pm = false ∧ (a = 'A' ∨ a = 'a')) ∨ (pm = true ∧ (a = 'P' ∨ a = 'p'))) := by
  unfold matchPeriod
  by_cases hm : m = 'M' ∨ m = 'm'
  · by_cases ha : a = 'A' ∨ a = 'a'
    · have hp : ¬ (a = 'P' ∨ a = 'p') := by
        rcases ha with rfl | rfl <;> decide
      cases pm <;> simp [hm, ha, hp]
    · by_cases hp : a = 'P' ∨ a = 'p'
      · cases pm <;> simp [hm, ha, hp]
      · cases pm <;> simp [hm, ha, hp]
  · simp [hm]

theorem period_not_space (a : Char) (h : a = 'A' ∨ a = 'a' ∨ a = 'P' ∨ a = 'p') :
    isSpace a = false := by
  rcases h with rfl | rfl | rfl | rfl <;> decide

theorem matchSpacesPeriod_of_form (a m : Char) (pm : Bool)
    (h : matchPeriod [a, m] = some pm) :
    ∀ ws : List Char, (∀ c ∈ ws, isSpace c = true) →
      matchSpacesPeriod (ws ++ [a, m]) = some pm := by
  have ha : isSpace a = false := by
    have := (matchPeriod_iff a m pm).mp h
    apply period_not_space
    rcases this.2 with ⟨_, h1 | h1⟩ | ⟨_, h1 | h1⟩ <;> simp [h1]
  intro ws
  induction ws with
  | nil => intro _; simp [matchSpacesPeriod, ha, h]
  | cons c rest ih =>
    intro hws
    have hc := hws c (List.mem_cons_self _ _)
    simp only [List.cons_append, matchSpacesPeriod, hc, if_true]
    exact ih (fun x hx => hws x (List.mem_cons_of_mem _ hx))

theorem matchSpacesPeriod_form (pm : Bool) :
    ∀ l : List Char, matchSpacesPeriod l = some pm →
      ∃ ws a m, l = ws ++ [a, m] ∧ (∀ c ∈ ws, isSpace c = true) ∧
        matchPeriod [a, m] = some pm := by
  intro l
  induction l with
  | nil => intro h; simp [matchSpacesPeriod] at h
  | cons c rest ih =>
    intro h
    unfold matchSpacesPeriod at h
    by_cases hc : isSpace c = true
    · rw [if_pos hc] at h
      obtain ⟨ws, a, m, hl, hws, hp⟩ := ih h
      refine ⟨c :: ws, a, m, by rw [hl]; rfl, ?_, hp⟩
      intro x hx
      rcases List.mem_cons.mp hx with rfl | hx
      · exact hc
      · exact hws x hx
    · rw [if_neg hc] at h
      match rest, h with
      | [m], h => exact ⟨[], c, m, rfl, by simp, h⟩
      | [], h => simp [matchPeriod] at h
      | _ :: _ :: _, h => simp [matchPeriod] at h


theorem matchMinutes_colon (m1 m2 : Char) (rest : List Char) :
    matchMinutes (':' :: m1 :: m2 :: rest) =
      if isDigit m1 && isDigit m2 then
        (matchSpacesPeriod rest).map (fun pm => (10 * digitVal m1 + digitVal m2, pm))
      else none := by
  simp [matchMinutes]

theorem matchMinutes_form (l : List Char) (mins : Nat) (pm : Bool)
    (h : matchMinutes l = some (mins, pm)) :
    ∃ m1 m2 rest, l = ':' :: m1 :: m2 :: rest ∧ isDigit m1 = true ∧ isDigit m2 = true ∧
      matchSpacesPeriod rest = some pm ∧ mins = 10 * digitVal m1 + digitVal m2 := by
  match l, h with
  | c :: m1 :: m2 :: rest, h =>
    by_cases hc : c = ':'
    · subst hc
      rw [matchMinutes_colon] at h
      by_cases hd : (isDigit m1 && isDigit m2) = true
      · rw [if_pos hd] at h
        simp only [Bool.and_eq_true] at hd
        cases hp : matchSpacesPeriod rest with
        | none => rw [hp] at h; simp at h
        | some pm' =>
          rw [hp] at h
          simp only [Option.map_some', Option.some.injEq, Prod.mk.injEq] at h
          exact ⟨m1, m2, rest, rfl, hd.1, hd.2, by rw [← h.2]; exact hp, h.1.symm⟩
      · rw [if_neg hd] at h
        exact absurd h (by simp)
    · unfold matchMinutes at h
      simp [hc] at h
  | [], h => simp [matchMinutes] at h
  | [_], h => simp [matchMinutes] at h
  | [_, _], h => simp [matchMinutes] at h

theorem timeMatch_of_form (cs : List Char) (hours minutes : Nat) (pm : Bool)
    (h : TimeForm cs hours minutes pm) : timeMatch cs = some (hours, minutes, pm) := by
  obtain ⟨hs, ws, m1, m2, a, m, hcs, hlen, hdig, hm1, hm2, hws, hm, ha, hh, hmin⟩ := h
  have hper : matchSpacesPeriod (ws ++ [a, m]) = some pm :=
    matchSpacesPeriod_of_form a m pm ((matchPeriod_iff a m pm).mpr ⟨hm, ha⟩) ws hws
  have hmm : matchMinutes (':' :: m1 :: m2 :: (ws ++ [a, m])) = some (minutes, pm) := by
    rw [matchMinutes_colon, hm1, hm2, hper, hmin]
    rfl
  rcases hlen with hlen | hlen
  · match hs, hlen with
    | [d], _ =>
      have hd : isDigit d = true := hdig d (List.mem_cons_self _ _)
      have hcolon : isDigit ':' = false := by decide
      subst hcs
      simp only [List.singleton_append, timeMatch, hd, hcolon, if_true, Bool.false_eq_true,
        if_false, hmm, Option.map_some']
      rw [hh]
      simp [decimal]
  · match hs, hlen with
    | [d1, d2], _ =>
      have hd1 : isDigit d1 = true := hdig d1 (List.mem_cons_self _ _)
      have hd2 : isDigit d2 = true := hdig d2 (List.mem_cons_of_mem _ (List.mem_cons_self _ _))
      subst hcs
      simp only [List.cons_append, List.nil_append, timeMatch, hd1, hd2, if_true, hmm,
        Option.map_some']
      rw [hh]
      simp [decimal]

theorem timeMatch_form (cs : List Char) (hours minutes : Nat) (pm : Bool)
    (h : timeMatch cs = some (hours, minutes, pm)) : TimeForm cs hours minutes pm := by
  match cs, h with
  | h1 :: h2 :: rest, h =>
    unfold timeMatch at h
    by_cases hd1 : isDigit h1 = true
    · simp only [hd1, if_true] at h
      by_cases hd2 : isDigit h2 = true
      · simp only [hd2, if_true] at h
        cases hmm : matchMinutes rest with
        | none => rw [hmm] at h; simp at h
        | some r =>
          obtain ⟨mins, pm'⟩ := r
          rw [hmm] at h
          simp only [Option.map_some', Option.some.injEq, Prod.mk.injEq] at h
          obtain ⟨m1, m2, rest', hrest, hm1, hm2, hsp, hmins⟩ := matchMinutes_form rest mins pm' hmm
          obtain ⟨ws, a, m, hl, hws, hp⟩ := matchSpacesPeriod_form pm' rest' hsp
          have := (matchPeriod_iff a m pm').mp hp
          refine ⟨[h1, h2], ws, m1, m2, a, m, by rw [hrest, hl]; rfl, Or.inr rfl, ?_, hm1, hm2,
            hws, this.1, by rw [← h.2.2]; exact this.2, by rw [← h.1]; simp [decimal],
            by rw [← h.2.1]; exact hmins⟩
          intro c hc
          simp only [List.mem_cons, List.mem_singleton, List.not_mem_nil, or_false] at hc
          rcases hc with rfl | rfl <;> assumption
      · simp only [hd2, Bool.false_eq_true, if_false] at h
        cases hmm : matchMinutes (h2 :: rest) with
        | none => rw [hmm] at h; simp at h
        | some r =>
          obtain ⟨mins, pm'⟩ := r
          rw [hmm] at h
          simp only [Option.map_some', Option.some.injEq, Prod.mk.injEq] at h
          obtain ⟨m1, m2, rest', hrest, hm1, hm2, hsp, hmins⟩ :=
            matchMinutes_form (h2 :: rest) mins pm' hmm
          obtain ⟨ws, a, m, hl, hws, hp⟩ := matchSpacesPeriod_form pm' rest' hsp
          have := (matchPeriod_iff a m pm').mp hp
          refine ⟨[h1], ws, m1, m2, a, m, by rw [hrest, hl]; rfl, Or.inl rfl, ?_, hm1, hm2,
            hws, this.1, by rw [← h.2.2]; exact this.2, by rw [← h.1]; simp [decimal],
            by rw [← h.2.1]; exact hmins⟩
          intro c hc
          simp only [List.mem_singleton] at hc
          rw [hc]; exact hd1
    · simp [hd1] at h
  | [], h => simp [timeMatch] at h
  | [_], h => simp [timeMatch] at h

/-- C18: for a time string of the form `H:MM AM|PM` (any letter case) the
clock time set on the event is the 24-hour conversion of the hours with the
minutes as written; for a string not of that form, and for an absent or
empty time, it is 10:00; and the date of every created event carries the
clock time of its item's time string. -/
theorem schedule_time_parsing (time : String) :
    (∀ hours minutes pm, TimeForm time.data hours minutes pm →
      clockTime time = (hour24 hours pm, minutes)) ∧
    ((∀ hours minutes pm, ¬ TimeForm time.data hours minutes pm) → clockTime time = (10, 0)) ∧
    clockTime (strOr none "10:00 AM") = (10, 0) ∧
    clockTime (strOr (some "") "10:00 AM") = (10, 0) ∧
    (∀ env drive userId applicationId eventId i item ev,
      scheduleEvent env drive userId applicationId eventId i item = some ev →
      item.time = some time → time ≠ "" →
      (ev.date.hours, ev.date.minutes) = clockTime time) := by
  refine ⟨?_, ?_, by decide, by decide, ?_⟩
  · intro hours minutes pm hform
    unfold clockTime
    rw [timeMatch_of_form time.data hours minutes pm hform]
    cases pm <;> by_cases h12 : hours = 12 <;> simp [hour24, h12]
  · intro hnone
    unfold clockTime
    cases hm : timeMatch time.data with
    | none => rfl
    | some r =>
      obtain ⟨hours, minutes, pm⟩ := r
      exact absurd (timeMatch_form time.data hours minutes pm hm) (hnone hours minutes pm)
  · intro env drive userId applicationId eventId i item ev hsch htime hne
    unfold scheduleEvent at hsch
    split at hsch
    · exact absurd hsch (by simp)
    · split at hsch
      · exact absurd hsch (by simp)
      · simp only [Option.some.injEq] at hsch
        subst hsch
        simp [htime, strOr, hne]


theorem schedule_time_parsing_witness :
    clockTime "9:30 am" = (9, 30) ∧ clockTime "12:05PM" = (12, 5) ∧
      clockTime "12:00 AM" = (0, 0) :=
  ⟨(schedule_time_parsing "9:30 am").1 9 30 false
      ⟨['9'], [' '], '3', '0', 'a', 'm', by decide, by decide, by decide, by decide, by decide,
        by decide, by decide, by decide, by decide, by decide⟩,
    (schedule_time_parsing "12:05PM").1 12 5 true
      ⟨['1', '2'], [], '0', '5', 'P', 'M', by decide, by decide, by decide, by decide,
        by decide, by decide, by decide, by decide, by decide, by decide⟩,
    (schedule_time_parsing "12:00 AM").1 12 0 false
      ⟨['1', '2'], [' '], '0', '0', 'A', 'M', by decide, by decide, by decide, by decide,
        by decide, by decide, by decide, by decide, by decide, by decide⟩⟩

/-- C20, as the code behaves: for an open session with free places and a
user without an application, a request that carries no reason fails the
`required` validator of the schema; the handler answers 500 and creates
nothing. -/
theorem applyForSession_without_reason :
    findSession sampleCounsellingStore 1 = some sampleSession ∧
      findSessionApplication sampleCounsellingStore 7 1 = none ∧
      (currentApplications sampleCounsellingStore 1 : Int) < sampleSession.maxParticipants ∧
      applyForSession sampleEnv sampleCounsellingStore 7 1
          { sampleApplyBody with reason := none } =
        (⟨500, CounsellingBody.message "Server error"⟩, sampleCounsellingStore) := by
  decide

/-- C20, amended: with working storage, the apply handler creates a
counselling application exactly when the session exists, is active with
status `scheduled`, the user has no application for it, fewer than
`maxParticipants` of its applications are `applied` or `confirmed`, and the
request passes the schema validation (non-empty reason, urgency absent or
low, medium or high). Otherwise it returns the store unchanged and answers,
in this order of precedence, 404 not found, 400 not available, 400 already
applied, 400 session full, and 500 for a request that fails validation. -/
theorem applyForSession_outcomes (env : Env) (s : CounsellingStore) (userId sessionId : Nat)
    (body : ApplyBody) (hprim : ∀ n, env.primaryFails n = false) :
    (findSession s sessionId = none →
      applyForSession env s userId sessionId body =
        (⟨404, CounsellingBody.message "Counselling session not found"⟩, s)) ∧
    (∀ session, findSession s sessionId = some session →
      ((session.isActive = false ∨ session.status ≠ SessionStatus.scheduled) →
        applyForSession env s userId sessionId body =
          (⟨400, CounsellingBody.message "Session is not available for applications"⟩, s)) ∧
      (session.isActive = true → session.status = SessionStatus.scheduled →
        ((∃ existing, findSessionApplication s userId session.id = some existing) →
          applyForSession env s userId sessionId body =
            (⟨400, CounsellingBody.message "Already applied for this counselling session"⟩,
              s)) ∧
        (findSessionApplication s userId session.id = none →
          (session.maxParticipants ≤ (currentApplications s session.id : Int) →
            applyForSession env s userId sessionId body =
              (⟨400, CounsellingBody.message "Session is full"⟩, s)) ∧
          ((currentApplications s session.id : Int) < session.maxParticipants →
            (validApplyBody body = false →
              applyForSession env s userId sessionId body =
                (⟨500, CounsellingBody.message "Server error"⟩, s)) ∧
            (validApplyBody body = true →
              applyForSession env s userId sessionId body =
                (⟨201, CounsellingBody.application
                    (newCounsellingApplication env userId session.id s.nextId body)⟩,
                  { s with
                    applications := s.applications ++
                      [newCounsellingApplication env userId session.id s.nextId body]
                    nextId := s.nextId + 1 })))))) := by
  refine ⟨?_, ?_⟩
  · intro h
    simp [applyForSession, hprim, h]
  · intro session hs
    refine ⟨?_, ?_⟩
    · intro h
      rcases h with h | h
      · simp [applyForSession, hprim, hs, h]
      · simp [applyForSession, hprim, hs, h]
    · intro hact hsch
      refine ⟨?_, ?_⟩
      · rintro ⟨existing, hex⟩
        simp [applyForSession, hprim, hs, hact, hsch, hex]
      · intro hnone
        refine ⟨?_, ?_⟩
        · intro hfull
          simp [applyForSession, hprim, hs, hact, hsch, hnone, hfull]
        · intro hfree
          have hnot : ¬ session.maxParticipants ≤ (currentApplications s session.id : Int) := by
            omega
          refine ⟨?_, ?_⟩
          · intro hv
            simp [applyForSession, hprim, hs, hact, hsch, hnone, hnot, hv,
              counsellingServerError]
          · intro hv
            simp [applyForSession, hprim, hs, hact, hsch, hnone, hnot, hv]

theorem applyForSession_outcomes_witness :
    applyForSession sampleEnv sampleCounsellingStore 7 1 sampleApplyBody =
        (⟨201, CounsellingBody.application
            (newCounsellingApplication sampleEnv 7 1 30 sampleApplyBody)⟩,
          { sampleCounsellingStore with
            applications := [newCounsellingApplication sampleEnv 7 1 30 sampleApplyBody]
            nextId := 31 }) ∧
      applyForSession sampleEnv sampleCounsellingStore 7 99 sampleApplyBody =
        (⟨404, CounsellingBody.message "Counselling session not found"⟩,
          sampleCounsellingStore) :=
  ⟨((((applyForSession_outcomes sampleEnv sampleCounsellingStore 7 1 sampleApplyBody
      (fun _ => rfl)).2 sampleSession (by decide)).2 rfl rfl).2 (by decide)).2 (by decide)
      |>.2 (by decide),
    (applyForSession_outcomes sampleEnv sampleCounsellingStore 7 99 sampleApplyBody
      (fun _ => rfl)).1 (by decide)⟩

theorem find_saveCounsellingApplication (a : CounsellingApplication) (x : Nat)
    (l : List CounsellingApplication) :
    (saveCounsellingApplication a l).find? (fun y => y.id == x) =
      if x = a.id then (l.find? (fun y => y.id == x)).map (fun _ => a)
      else l.find? (fun y => y.id == x) := by
  induction l with
  | nil => simp [saveCounsellingApplication]
  | cons y rest ih =>
    by_cases hy : y.id = a.id
    · by_cases hx : x = a.id
      · simp [saveCounsellingApplication, hy, hx, List.find?_cons]
      · have hx2 : ¬ a.id = x := fun h => hx h.symm
        simp [saveCounsellingApplication, hy, hx, hx2, List.find?_cons]
    · by_cases hyx : y.id = x
      · have hx : ¬ x = a.id := fun h => hy (hyx.trans h)
        simp [saveCounsellingApplication, hy, hx, hyx, List.find?_cons]
      · simp [saveCounsellingApplication, hy, hyx, List.find?_cons, ih]

theorem findOwnedApplication_some {s : CounsellingStore} {userId id : Nat}
    {a : CounsellingApplication} (h : findOwnedApplication s userId id = some a) :
    s.applications.find? (fun y => y.id == id) = some a ∧ a.id = id ∧ a.userId = userId := by
  unfold findOwnedApplication at h
  cases hf : s.applications.find? (fun y => y.id == id) with
  | none => rw [hf] at h; simp at h
  | some b =>
    rw [hf] at h
    simp only [Option.filter] at h
    split at h
    · rename_i hu
      simp only [Option.some.injEq] at h
      subst h
      have := List.find?_some hf
      exact ⟨rfl, by simpa using this, by simpa using hu⟩
    · simp at h

/-- C22: with working storage, the cancel handler answers 404 and changes
nothing when the caller owns no application with the given id (in
particular when the application belongs to someone else); for an
application of the caller with status `completed` or `cancelled` it answers
400 and changes nothing; for every other status it answers 200 and stores
the application with status `cancelled` and exactly one more `updates`
entry, every other field as before. -/
theorem cancelApplication_outcomes (env : Env) (s : CounsellingStore) (userId id : Nat)
    (hprim : ∀ n, env.primaryFails n = false) :
    (findOwnedApplication s userId id = none →
      cancelApplication env s userId id =
        (⟨404, CounsellingBody.message "Application not found"⟩, s)) ∧
    (∀ other, s.applications.find? (fun a => a.id == id) = some other →
      other.userId ≠ userId →
      cancelApplication env s userId id =
        (⟨404, CounsellingBody.message "Application not found"⟩, s)) ∧
    (∀ application, findOwnedApplication s userId id = some application →
      ((application.status = CounsellingStatus.completed ∨
          application.status = CounsellingStatus.cancelled) →
        cancelApplication env s userId id =
          (⟨400, CounsellingBody.message "Cannot cancel this application"⟩, s)) ∧
      (application.status ≠ CounsellingStatus.completed →
        application.status ≠ CounsellingStatus.cancelled →
        (cancelApplication env s userId id).1 =
            ⟨200, CounsellingBody.result "Application cancelled successfully"
              { application with
                status := CounsellingStatus.cancelled
                updates := application.updates ++
                  [{ status := "cancelled", date := env.now, notes := "Cancelled by student",
                     updatedBy := "student" }] }⟩ ∧
          findOwnedApplication (cancelApplication env s userId id).2 userId id =
            some { application with
                   status := CounsellingStatus.cancelled
                   updates := application.updates ++
                     [{ status := "cancelled", date := env.now,
                        notes := "Cancelled by student", updatedBy := "student" }] } ∧
          (cancelApplication env s userId id).2.sessions = s.sessions ∧
          ∀ x, x ≠ id →
            (cancelApplication env s userId id).2.applications.find? (fun a => a.id == x) =
              s.applications.find? (fun a => a.id == x))) := by
  refine ⟨?_, ?_, ?_⟩
  · intro h
    simp [cancelApplication, hprim, h]
  · intro other hf hne
    have : findOwnedApplication s userId id = none := by
      unfold findOwnedApplication
      rw [hf]
      simp [Option.filter, hne]
    simp [cancelApplication, hprim, this]
  · intro application hfound
    obtain ⟨hf, hid, huser⟩ := findOwnedApplication_some hfound
    refine ⟨?_, ?_⟩
    · intro h
      rcases h with h | h <;> simp [cancelApplication, hprim, hfound, h]
    · intro h1 h2
      have hres : cancelApplication env s userId id =
          (⟨200, CounsellingBody.result "Application cancelled successfully"
              (cancelledApplication env application)⟩,
            { s with
              applications :=
                saveCounsellingApplication (cancelledApplication env application)
                  s.applications }) := by
        simp [cancelApplication, hprim, hfound, h1, h2]
      have hcid : (cancelledApplication env application).id = id := hid
      rw [hres]
      refine ⟨rfl, ?_, rfl, ?_⟩
      · unfold findOwnedApplication
        simp only [find_saveCounsellingApplication, hcid, if_true, hf, Option.map_some']
        simp [Option.filter, cancelledApplication, huser]
      · intro x hx
        simp only [find_saveCounsellingApplication, hcid]
        rw [if_neg hx]


theorem cancelApplication_outcomes_witness :
    cancelApplication sampleEnv feedbackStore 9 31 =
        (⟨404, CounsellingBody.message "Application not found"⟩, feedbackStore) ∧
      cancelApplication sampleEnv feedbackStore 7 30 =
        (⟨400, CounsellingBody.message "Cannot cancel this application"⟩, feedbackStore) ∧
      findOwnedApplication (cancelApplication sampleEnv feedbackStore 8 31).2 8 31 =
        some { appliedApplication with
               status := CounsellingStatus.cancelled
               updates := [{ status := "cancelled", date := 1700000000,
                             notes := "Cancelled by student", updatedBy := "student" }] } :=
  ⟨(cancelApplication_outcomes sampleEnv feedbackStore 9 31 (fun _ => rfl)).2.1
      appliedApplication (by decide) (by decide),
    ((cancelApplication_outcomes sampleEnv feedbackStore 7 30 (fun _ => rfl)).2.2
      completedApplication (by decide)).1 (Or.inl rfl),
    (((cancelApplication_outcomes sampleEnv feedbackStore 8 31 (fun _ => rfl)).2.2
      appliedApplication (by decide)).2 (by decide) (by decide)).2.1⟩

/-- C23, as the code behaves: the owner of a completed application who
sends a rating of 9 fails the `max: 5` validator of the schema; the handler
answers 500, not 404, and stores nothing. -/
theorem submitFeedback_invalid_rating :
    findOwnedApplication feedbackStore 7 30 = some completedApplication ∧
      completedApplication.status = CounsellingStatus.completed ∧
      submitFeedback sampleEnv feedbackStore 7 30 { rating := some 9, comments := none } =
        (⟨500, CounsellingBody.message "Server error"⟩, feedbackStore) := by
  decide

/-- C23, amended: with working storage, the feedback handler stores the
feedback (rating, comments, submission time) exactly when the caller owns
the application, its status is `completed` and the rating is absent or
between 1 and 5. When the caller owns no such completed application it
answers 404 and changes nothing; when the rating fails the validation it
answers 500 and changes nothing, so earlier feedback stays. -/
theorem submitFeedback_outcomes (env : Env) (s : CounsellingStore) (userId id : Nat)
    (body : FeedbackBody) (hprim : ∀ n, env.primaryFails n = false) :
    (findOwnedApplication s userId id = none →
      submitFeedback env s userId id body =
        (⟨404, CounsellingBody.message "Completed application not found"⟩, s)) ∧
    (∀ application, findOwnedApplication s userId id = some application →
      (application.status ≠ CounsellingStatus.completed →
        submitFeedback env s userId id body =
          (⟨404, CounsellingBody.message "Completed application not found"⟩, s)) ∧
      (application.status = CounsellingStatus.completed →
        (validFeedback body = false →
          submitFeedback env s userId id body =
            (⟨500, CounsellingBody.message "Server error"⟩, s)) ∧
        (validFeedback body = true →
          (submitFeedback env s userId id body).1 =
              ⟨200, CounsellingBody.result "Feedback submitted successfully"
                { application with
                  feedback := some { rating := body.rating, comments := body.comments,
                                     submittedAt := env.now } }⟩ ∧
            findOwnedApplication (submitFeedback env s userId id body).2 userId id =
              some { application with
                     feedback := some { rating := body.rating, comments := body.comments,
                                        submittedAt := env.now } } ∧
            ∀ x, x ≠ id →
              (submitFeedback env s userId id body).2.applications.find?
                  (fun a => a.id == x) =
                s.applications.find? (fun a => a.id == x)))) := by
  refine ⟨?_, ?_⟩
  · intro h
    simp [submitFeedback, hprim, h]
  · intro application hfound
    obtain ⟨hf, hid, huser⟩ := findOwnedApplication_some hfound
    refine ⟨?_, ?_⟩
    · intro h
      simp [submitFeedback, hprim, hfound, Option.filter, h]
    · intro hc
      refine ⟨?_, ?_⟩
      · intro hv
        simp [submitFeedback, hprim, hfound, Option.filter, hc, hv, counsellingServerError]
      · intro hv
        have hres : submitFeedback env s userId id body =
            (⟨200, CounsellingBody.result "Feedback submitted successfully"
                (withFeedback env body application)⟩,
              { s with
                applications :=
                  saveCounsellingApplication (withFeedback env body application)
                    s.applications }) := by
          simp [submitFeedback, hprim, hfound, Option.filter, hc, hv]
        have hcid : (withFeedback env body application).id = id := hid
        rw [hres]
        refine ⟨rfl, ?_, ?_⟩
        · unfold findOwnedApplication
          simp only [find_saveCounsellingApplication, hcid, if_true, hf, Option.map_some']
          simp [Option.filter, withFeedback, huser]
        · intro x hx
          simp only [find_saveCounsellingApplication, hcid]
          rw [if_neg hx]

theorem submitFeedback_outcomes_witness :
    submitFeedback sampleEnv feedbackStore 8 31 { rating := some 5, comments := none } =
        (⟨404, CounsellingBody.message "Completed application not found"⟩, feedbackStore) ∧
      findOwnedApplication
          (submitFeedback sampleEnv feedbackStore 7 30
            { rating := some 5, comments := some "Thanks" }).2 7 30 =
        some { completedApplication with
               feedback := some { rating := some 5, comments := some "Thanks",
                                  submittedAt := 1700000000 } } :=
  ⟨((submitFeedback_outcomes sampleEnv feedbackStore 8 31 { rating := some 5, comments := none }
      (fun _ => rfl)).2 appliedApplication (by decide)).1 (by decide),
    ((((submitFeedback_outcomes sampleEnv feedbackStore 7 30
      { rating := some 5, comments := some "Thanks" } (fun _ => rfl)).2
      completedApplication (by decide)).2 rfl).2 (by decide)).2.1⟩

/-- The accepting path of the counselling apply handler, written out. -/
theorem applyForSession_accept (env : Env) (s : CounsellingStore) (userId sessionId : Nat)
    (body : ApplyBody) (session : CounsellingSession)
    (hprim : ∀ n, env.primaryFails n = false)
    (hs : findSession s sessionId = some session)
    (hact : session.isActive = true) (hsch : session.status = SessionStatus.scheduled)
    (hnone : findSessionApplication s userId session.id = none)
    (hfree : (currentApplications s session.id : Int) < session.maxParticipants)
    (hv : validApplyBody body = true) :
    applyForSession env s userId sessionId body =
      (⟨201, CounsellingBody.application
          (newCounsellingApplication env userId session.id s.nextId body)⟩,
        { s with
          applications := s.applications ++
            [newCounsellingApplication env userId session.id s.nextId body]
          nextId := s.nextId + 1 }) := by
  have hnot : ¬ session.maxParticipants ≤ (currentApplications s session.id : Int) := by omega
  simp [applyForSession, hprim, hs, hact, hsch, hnone, hnot, hv]

theorem findSession_id {s : CounsellingStore} {sessionId : Nat} {session : CounsellingSession}
    (h : findSession s sessionId = some session) : session.id = sessionId := by
  have := List.find?_some h
  simpa using this

/-- What a run of accepted applications leaves in the store. -/
theorem applyRequests_accepted (sessionId : Nat) (session : CounsellingSession)
    (hact : session.isActive = true) (hsch : session.status = SessionStatus.scheduled) :
    ∀ (applicants : List (Env × Nat × ApplyBody)) (s : CounsellingStore),
      findSession s sessionId = some session →
      (∀ a ∈ s.applications, a.id < s.nextId) →
      (∀ r ∈ applicants, findSessionApplication s r.2.1 session.id = none) →
      (applicants.map (fun r => r.2.1)).Nodup →
      (∀ r ∈ applicants, (∀ n, r.1.primaryFails n = false) ∧ validApplyBody r.2.2 = true) →
      ((currentApplications s session.id + applicants.length : Nat) : Int) ≤
        session.maxParticipants →
      (∀ r ∈ counsellingResponses (applyRequests sessionId applicants) s, r.status = 201) ∧
      (runCounselling (applyRequests sessionId applicants) s).sessions = s.sessions ∧
      currentApplications (runCounselling (applyRequests sessionId applicants) s) session.id =
        currentApplications s session.id + applicants.length ∧
      (∀ u, u ∉ applicants.map (fun r => r.2.1) →
        findSessionApplication (runCounselling (applyRequests sessionId applicants) s) u
            session.id =
          findSessionApplication s u session.id) ∧
      (∀ u a, findSessionApplication s u session.id = some a →
        findSessionApplication (runCounselling (applyRequests sessionId applicants) s) u
          session.id = some a) ∧
      (∀ x a, s.applications.find? (fun y => y.id == x) = some a →
        (runCounselling (applyRequests sessionId applicants) s).applications.find?
          (fun y => y.id == x) = some a) ∧
      (∀ c ∈ applicants.map (fun r => r.2.1), ∃ a,
        findSessionApplication (runCounselling (applyRequests sessionId applicants) s) c
          session.id = some a ∧
        (runCounselling (applyRequests sessionId applicants) s).applications.find?
          (fun y => y.id == a.id) = some a ∧
        a.userId = c ∧ a.status = CounsellingStatus.applied) := by
  intro applicants
  induction applicants with
  | nil =>
    intro s _ _ _ _ _ _
    refine ⟨by simp [applyRequests, counsellingResponses], rfl, by simp [applyRequests,
      runCounselling], fun _ _ => rfl, fun _ _ h => h, fun _ _ h => h, by simp⟩
  | cons r rest ih =>
    intro s hs hfresh hnone hnodup hok hcap
    obtain ⟨env, user, body⟩ := r
    have hr := hok (env, user, body) (List.mem_cons_self _ _)
    have hun : findSessionApplication s user session.id = none :=
      hnone (env, user, body) (List.mem_cons_self _ _)
    have hfree : (currentApplications s session.id : Int) < session.maxParticipants := by
      simp only [List.length_cons] at hcap
      omega
    have hstep := applyForSession_accept env s user sessionId body session hr.1 hs hact hsch
      hun hfree hr.2
    have hsid := findSession_id hs
    -- the store after the first application
    set a₁ := newCounsellingApplication env user session.id s.nextId body with ha₁
    set s₁ : CounsellingStore :=
      { s with applications := s.applications ++ [a₁], nextId := s.nextId + 1 } with hs₁
    have hrun : runCounselling (applyRequests sessionId ((env, user, body) :: rest)) s =
        runCounselling (applyRequests sessionId rest) s₁ := by
      simp only [applyRequests, List.map_cons, runCounselling, handleCounselling]
      rw [hstep]
    have hresp : counsellingResponses (applyRequests sessionId ((env, user, body) :: rest)) s =
        ⟨201, CounsellingBody.application a₁⟩ ::
          counsellingResponses (applyRequests sessionId rest) s₁ := by
      simp only [applyRequests, List.map_cons, counsellingResponses, handleCounselling]
      rw [hstep]
    have hnd := List.nodup_cons.mp hnodup
    have hs' : findSession s₁ sessionId = some session := hs
    have hfresh' : ∀ a ∈ s₁.applications, a.id < s₁.nextId := by
      intro a ha
      simp only [hs₁, List.mem_append, List.mem_singleton] at ha
      rcases ha with ha | rfl
      · exact Nat.lt_succ_of_lt (hfresh a ha)
      · exact Nat.lt_succ_self _
    have hpair : ∀ u, findSessionApplication s₁ u session.id =
        (findSessionApplication s u session.id).or
          (if user = u then some a₁ else none) := by
      intro u
      unfold findSessionApplication
      simp only [hs₁, List.find?_append]
      congr 1
      by_cases hu : user = u
      · simp [hu, ha₁, newCounsellingApplication]
      · simp [hu, ha₁, newCounsellingApplication]
    have hnone' : ∀ r ∈ rest, findSessionApplication s₁ r.2.1 session.id = none := by
      intro r hr'
      rw [hpair, hnone r (List.mem_cons_of_mem _ hr')]
      have : user ≠ r.2.1 := by
        intro h
        apply hnd.1
        rw [h]
        exact List.mem_map_of_mem (fun r => r.2.1) hr'
      simp [this]
    have hcount : currentApplications s₁ session.id = currentApplications s session.id + 1 := by
      unfold currentApplications
      simp [hs₁, List.filter_append, ha₁, newCounsellingApplication]
    have hcap' : ((currentApplications s₁ session.id + rest.length : Nat) : Int) ≤
        session.maxParticipants := by
      rw [hcount]
      simp only [List.length_cons] at hcap
      have : currentApplications s session.id + 1 + rest.length =
          currentApplications s session.id + (rest.length + 1) := by omega
      rw [this]; exact hcap
    obtain ⟨i1, i2, i3, i4, i5, i6, i7⟩ := ih s₁ hs' hfresh' hnone' hnd.2
      (fun r hr' => hok r (List.mem_cons_of_mem _ hr')) hcap'
    have hfind₁ : s₁.applications.find? (fun y => y.id == a₁.id) = some a₁ := by
      simp only [hs₁, List.find?_append]
      have : s.applications.find? (fun y => y.id == a₁.id) = none := by
        rw [List.find?_eq_none]
        intro y hy
        have := hfresh y hy
        have hid : a₁.id = s.nextId := rfl
        simp [hid]
        omega
      rw [this]
      simp
    rw [hrun, hresp]
    refine ⟨?_, i2, ?_, ?_, ?_, ?_, ?_⟩
    · intro x hx
      rcases List.mem_cons.mp hx with rfl | hx
      · rfl
      · exact i1 x hx
    · rw [i3, hcount]
      simp only [List.length_cons]
      omega
    · intro u hu
      simp only [List.map_cons, List.mem_cons, not_or] at hu
      rw [i4 u hu.2, hpair]
      have : user ≠ u := fun h => hu.1 h.symm
      simp [this]
    · intro u a hua
      apply i5
      rw [hpair, hua]
      rfl
    · intro x a hxa
      apply i6
      simp only [hs₁, List.find?_append, hxa]
      rfl
    · intro c hc
      simp only [List.map_cons, List.mem_cons] at hc
      rcases hc with rfl | hc
      · refine ⟨a₁, ?_, i6 _ _ hfind₁, rfl, rfl⟩
        apply i5
        rw [hpair, hun]
        simp
      · exact i7 c hc


theorem mem_saveCounsellingApplication (a x : CounsellingApplication) :
    ∀ l : List CounsellingApplication, x ∈ saveCounsellingApplication a l → x ∈ l ∨ x = a := by
  intro l
  induction l with
  | nil => intro h; simp [saveCounsellingApplication] at h
  | cons y rest ih =>
    intro h
    by_cases hy : y.id = a.id
    · simp only [saveCounsellingApplication, hy, if_true, List.mem_cons] at h
      rcases h with h | h
      · exact Or.inr h
      · exact Or.inl (List.mem_cons_of_mem _ h)
    · simp only [saveCounsellingApplication, hy, if_false, List.mem_cons] at h
      rcases h with h | h
      · exact Or.inl (h ▸ List.mem_cons_self _ _)
      · rcases ih h with h' | h'
        · exact Or.inl (List.mem_cons_of_mem _ h')
        · exact Or.inr h'

/-- Saving the cancelled version of an active application lowers the count
of active applications of its session by one. -/
theorem currentApplications_after_cancel (sessionId : Nat) (a a' : CounsellingApplication)
    (hid : a'.id = a.id) (hsess : a.sessionId = sessionId)
    (hstat : a.status = CounsellingStatus.applied)
    (hstat' : a'.status = CounsellingStatus.cancelled) :
    ∀ l : List CounsellingApplication, l.find? (fun y => y.id == a.id) = some a →
      ((saveCounsellingApplication a' l).filter (fun x =>
          x.sessionId == sessionId &&
            (x.status == CounsellingStatus.applied ||
              x.status == CounsellingStatus.confirmed))).length + 1 =
        (l.filter (fun x =>
          x.sessionId == sessionId &&
            (x.status == CounsellingStatus.applied ||
              x.status == CounsellingStatus.confirmed))).length := by
  intro l
  induction l with
  | nil => intro h; simp at h
  | cons y rest ih =>
    intro h
    by_cases hy : y.id = a.id
    · have hya : y = a := by
        simp only [List.find?_cons, hy, beq_self_eq_true, Option.some.injEq] at h
        exact h
      subst hya
      have hy' : y.id = a'.id := hid.symm
      simp [saveCounsellingApplication, hy', List.filter_cons, hsess, hstat, hstat']
    · have hy' : ¬ y.id = a'.id := by rw [hid]; exact hy
      have hrest : rest.find? (fun y => y.id == a.id) = some a := by
        simpa [List.find?_cons, hy] using h
      have := ih hrest
      simp only [saveCounsellingApplication, hy', if_false, List.filter_cons]
      split
      · simp only [List.length_cons]; omega
      · exact this


/-- C21: for an open session with `maxParticipants = k` that nobody has
applied to yet, k distinct users applying one after the other (valid
requests, working storage) are all answered 201; any further user is then
answered 400 "Session is full" and nothing is stored; and after any one of
the k users cancels their application, a further new user's application is
answered 201. -/
theorem capacity_then_cancel (s : CounsellingStore) (session : CounsellingSession)
    (sessionId : Nat) (applicants : List (Env × Nat × ApplyBody))
    (hsession : findSession s sessionId = some session)
    (hact : session.isActive = true) (hsch : session.status = SessionStatus.scheduled)
    (hk : session.maxParticipants = (applicants.length : Int))
    (hfresh : ∀ a ∈ s.applications, a.id < s.nextId)
    (hempty : ∀ a ∈ s.applications, a.sessionId ≠ session.id)
    (hdistinct : (applicants.map (fun r => r.2.1)).Nodup)
    (hok : ∀ r ∈ applicants, (∀ n, r.1.primaryFails n = false) ∧ validApplyBody r.2.2 = true) :
    (∀ r ∈ counsellingResponses (applyRequests sessionId applicants) s, r.status = 201) ∧
    (∀ (env : Env) (user : Nat) (body : ApplyBody),
      (∀ n, env.primaryFails n = false) → validApplyBody body = true →
      user ∉ applicants.map (fun r => r.2.1) →
      applyForSession env (runCounselling (applyRequests sessionId applicants) s) user
          sessionId body =
        (⟨400, CounsellingBody.message "Session is full"⟩,
          runCounselling (applyRequests sessionId applicants) s)) ∧
    (∀ canceller ∈ applicants.map (fun r => r.2.1), ∃ a,
      findSessionApplication (runCounselling (applyRequests sessionId applicants) s) canceller
        session.id = some a ∧
      ∀ (envc env : Env) (user : Nat) (body : ApplyBody),
        (∀ n, envc.primaryFails n = false) → (∀ n, env.primaryFails n = false) →
        validApplyBody body = true → user ∉ applicants.map (fun r => r.2.1) →
        (cancelApplication envc (runCounselling (applyRequests sessionId applicants) s)
          canceller a.id).1.status = 200 ∧
        (applyForSession env
          (cancelApplication envc (runCounselling (applyRequests sessionId applicants) s)
            canceller a.id).2 user sessionId body).1.status = 201) := by
  have hpairs : ∀ u, findSessionApplication s u session.id = none := by
    intro u
    unfold findSessionApplication
    rw [List.find?_eq_none]
    intro a ha
    have := hempty a ha
    simp [this]
  have hzero : currentApplications s session.id = 0 := by
    unfold currentApplications
    rw [List.length_eq_zero, List.filter_eq_nil_iff]
    intro a ha
    have := hempty a ha
    simp [this]
  have hcap : ((currentApplications s session.id + applicants.length : Nat) : Int) ≤
      session.maxParticipants := by
    rw [hzero, hk]; simp
  obtain ⟨h1, h2, h3, h4, _, _, h7⟩ :=
    applyRequests_accepted sessionId session hact hsch applicants s hsession hfresh
      (fun r _ => hpairs r.2.1) hdistinct hok hcap
  generalize runCounselling (applyRequests sessionId applicants) s = full at h2 h3 h4 h7 ⊢
  have hfs : findSession full sessionId = some session := by
    unfold findSession at hsession ⊢
    rw [h2]; exact hsession
  rw [hzero, Nat.zero_add] at h3
  refine ⟨h1, ?_, ?_⟩
  · intro env user body hprim hv hu
    have hnone : findSessionApplication full user session.id = none := by
      rw [h4 user hu]; exact hpairs user
    have hfull : session.maxParticipants ≤ (currentApplications full session.id : Int) := by
      rw [h3, hk]
    simp [applyForSession, hprim, hfs, hact, hsch, hnone, hfull]
  · intro canceller hc
    obtain ⟨a, ha1, ha2, ha3, ha4⟩ := h7 canceller hc
    refine ⟨a, ha1, ?_⟩
    intro envc env user body hprimc hprim hv hu
    have hasess : a.sessionId = session.id := by
      have := List.find?_some ha1
      simp only [Bool.and_eq_true, beq_iff_eq] at this
      exact this.2
    have howned : findOwnedApplication full canceller a.id = some a := by
      unfold findOwnedApplication
      rw [ha2]
      simp [Option.filter, ha3]
    have hcancel : cancelApplication envc full canceller a.id =
        (⟨200, CounsellingBody.result "Application cancelled successfully"
            (cancelledApplication envc a)⟩,
          { full with
            applications :=
              saveCounsellingApplication (cancelledApplication envc a) full.applications }) := by
      simp [cancelApplication, hprimc, howned, ha4]
    rw [hcancel]
    refine ⟨rfl, ?_⟩
    have hcount := currentApplications_after_cancel session.id a (cancelledApplication envc a)
      rfl hasess ha4 rfl full.applications ha2
    have hne : user ≠ canceller := by
      intro h
      apply hu
      rw [h]; exact hc
    have hnone : findSessionApplication
        { full with
          applications :=
            saveCounsellingApplication (cancelledApplication envc a) full.applications }
        user session.id = none := by
      unfold findSessionApplication
      rw [List.find?_eq_none]
      intro x hx
      rcases mem_saveCounsellingApplication _ x _ hx with hx | rfl
      · have hold : findSessionApplication full user session.id = none := by
          rw [h4 user hu]; exact hpairs user
        unfold findSessionApplication at hold
        exact List.find?_eq_none.mp hold x hx
      · simp [cancelledApplication, ha3, Ne.symm hne]
    have hfree : (currentApplications
        { full with
          applications :=
            saveCounsellingApplication (cancelledApplication envc a) full.applications }
        session.id : Int) < session.maxParticipants := by
      unfold currentApplications at h3 ⊢
      rw [hk]
      simp only []
      omega
    have hfs' : findSession
        { full with
          applications :=
            saveCounsellingApplication (cancelledApplication envc a) full.applications }
        sessionId = some session := hfs
    rw [applyForSession_accept env _ user sessionId body session hprim hfs' hact hsch hnone
      hfree hv]


theorem capacity_then_cancel_witness :
    (∀ r ∈ counsellingResponses (applyRequests 1 twoApplicants) sampleCounsellingStore,
        r.status = 201) ∧
      applyForSession sampleEnv
          (runCounselling (applyRequests 1 twoApplicants) sampleCounsellingStore) 9 1
          sampleApplyBody =
        (⟨400, CounsellingBody.message "Session is full"⟩,
          runCounselling (applyRequests 1 twoApplicants) sampleCounsellingStore) ∧
      ∃ a,
        findSessionApplication
          (runCounselling (applyRequests 1 twoApplicants) sampleCounsellingStore) 7 1 =
          some a ∧
        (applyForSession sampleEnv
          (cancelApplication sampleEnv
            (runCounselling (applyRequests 1 twoApplicants) sampleCounsellingStore) 7 a.id).2
          9 1 sampleApplyBody).1.status = 201 := by
  have h := capacity_then_cancel sampleCounsellingStore sampleSession 1 twoApplicants
    (by decide) rfl rfl (by decide) (by intro a ha; simp [sampleCounsellingStore] at ha)
    (by intro a ha; simp [sampleCounsellingStore] at ha) (by decide)
    (by
      intro r hr
      simp only [twoApplicants, List.mem_cons, List.mem_singleton, List.not_mem_nil,
        or_false] at hr
      rcases hr with rfl | rfl <;> exact ⟨fun _ => rfl, by decide⟩)
  refine ⟨h.1, h.2.1 sampleEnv 9 sampleApplyBody (fun _ => rfl) (by decide) (by decide), ?_⟩
  obtain ⟨a, ha, hrest⟩ := h.2.2 7 (by decide)
  exact ⟨a, ha, (hrest sampleEnv sampleEnv 9 sampleApplyBody (fun _ => rfl) (fun _ => rfl)
    (by decide) (by decide)).2⟩

/-- What the counselling apply handler can do to the store. -/
theorem applyForSession_cases (env : Env) (s : CounsellingStore) (userId sessionId : Nat)
    (body : ApplyBody) :
    (applyForSession env s userId sessionId body).2 = s ∨
      ∃ session : CounsellingSession, findSessionApplication s userId session.id = none ∧
        (applyForSession env s userId sessionId body).2.applications =
          s.applications ++ [newCounsellingApplication env userId session.id s.nextId body] := by
  unfold applyForSession
  by_cases h0 : env.primaryFails 0 = true
  · left; simp [h0]
  · cases hs : findSession s sessionId with
    | none => left; simp [h0]
    | some session =>
      by_cases hopen : (!session.isActive || session.status != SessionStatus.scheduled) = true
      · left; simp [h0, hopen]
      · by_cases h1 : env.primaryFails 1 = true
        · left; simp [h0, hopen, h1]
        · cases hex : findSessionApplication s userId session.id with
          | some _ => left; simp [h0, hopen, h1, hex]
          | none =>
            by_cases h2 : env.primaryFails 2 = true
            · left; simp [h0, hopen, h1, h2, hex]
            · by_cases hfull : (currentApplications s session.id : Int) ≥ session.maxParticipants
              · left; simp [h0, hopen, h1, h2, hfull, hex]
              · by_cases h3 : (env.primaryFails 3 || !validApplyBody body) = true
                · left; simp [h0, hopen, h1, h2, hfull, h3, hex]
                · right
                  refine ⟨session, hex, ?_⟩
                  by_cases h4 : env.primaryFails 4 = true <;>
                    simp [h0, hopen, h1, h2, hfull, h3, h4, hex]

/-- What the cancel and feedback handlers can do to the store. -/
theorem cancel_feedback_cases (env : Env) (s : CounsellingStore) (userId id : Nat)
    (body : FeedbackBody) :
    ((cancelApplication env s userId id).2 = s ∨
      ∃ a a', s.applications.find? (fun y => y.id == a'.id) = some a ∧
        a'.userId = a.userId ∧ a'.sessionId = a.sessionId ∧
        (cancelApplication env s userId id).2.applications =
          saveCounsellingApplication a' s.applications) ∧
    ((submitFeedback env s userId id body).2 = s ∨
      ∃ a a', s.applications.find? (fun y => y.id == a'.id) = some a ∧
        a'.userId = a.userId ∧ a'.sessionId = a.sessionId ∧
        (submitFeedback env s userId id body).2.applications =
          saveCounsellingApplication a' s.applications) := by
  constructor
  · unfold cancelApplication
    by_cases h0 : env.primaryFails 0 = true
    · left; simp [h0]
    · cases hf : findOwnedApplication s userId id with
      | none => left; simp [h0]
      | some a =>
        obtain ⟨hfind, hid, _⟩ := findOwnedApplication_some hf
        by_cases hst : (a.status == CounsellingStatus.completed ||
            a.status == CounsellingStatus.cancelled) = true
        · left; simp [h0, hst]
        · by_cases h1 : env.primaryFails 1 = true
          · left; simp [h0, hst, h1]
          · right
            refine ⟨a, cancelledApplication env a, ?_, rfl, rfl, ?_⟩
            · have : (cancelledApplication env a).id = id := hid
              rw [this]; exact hfind
            · simp [h0, hst, h1]
  · unfold submitFeedback
    by_cases h0 : env.primaryFails 0 = true
    · left; simp [h0]
    · cases hf : findOwnedApplication s userId id with
      | none => left; simp [h0, Option.filter]
      | some a =>
        obtain ⟨hfind, hid, _⟩ := findOwnedApplication_some hf
        by_cases hst : (a.status == CounsellingStatus.completed) = true
        · by_cases h1 : (env.primaryFails 1 || !validFeedback body) = true
          · left; simp [h0, Option.filter, hst, h1]
          · right
            refine ⟨a, withFeedback env body a, ?_, rfl, rfl, ?_⟩
            · have : (withFeedback env body a).id = id := hid
              rw [this]; exact hfind
            · simp [h0, Option.filter, hst, h1]
        · left; simp [h0, Option.filter, hst]

theorem filter_saveCounsellingApplication (p : CounsellingApplication → Bool)
    (a a' : CounsellingApplication) (hp : p a' = p a) :
    ∀ l : List CounsellingApplication, l.find? (fun y => y.id == a'.id) = some a →
      ((saveCounsellingApplication a' l).filter p).length = (l.filter p).length := by
  intro l
  induction l with
  | nil => intro h; simp at h
  | cons y rest ih =>
    intro h
    by_cases hy : y.id = a'.id
    · have hya : y = a := by
        simp only [List.find?_cons, hy, beq_self_eq_true, Option.some.injEq] at h
        exact h
      subst hya
      simp only [saveCounsellingApplication, hy, if_true, List.filter_cons, hp]
      split <;> simp
    · have hrest : rest.find? (fun y => y.id == a'.id) = some a := by
        simpa [List.find?_cons, hy] using h
      have := ih hrest
      simp only [saveCounsellingApplication, hy, if_false, List.filter_cons]
      split
      · simp only [List.length_cons]; omega
      · exact this

theorem handleCounselling_pairCount (env : Env) (s : CounsellingStore) (r : CounsellingRequest)
    (h : ∀ u sess, pairCount s u sess ≤ 1) :
    ∀ u sess, pairCount (handleCounselling env s r).2 u sess ≤ 1 := by
  intro u sess
  cases r with
  | apply userId sessionId body =>
    rcases applyForSession_cases env s userId sessionId body with hsame | ⟨session, hnone, happs⟩
    · simp only [handleCounselling, hsame]; exact h u sess
    · simp only [handleCounselling, pairCount, happs, List.filter_append, List.length_append]
      by_cases hpair : userId = u ∧ session.id = sess
      · obtain ⟨rfl, rfl⟩ := hpair
        have hz : s.applications.filter
            (fun a => a.userId == userId && a.sessionId == session.id) = [] := by
          unfold findSessionApplication at hnone
          rw [List.filter_eq_nil_iff]
          intro a ha
          have := List.find?_eq_none.mp hnone a ha
          simpa using this
        rw [hz]
        simp [newCounsellingApplication]
      · have hnew : [newCounsellingApplication env userId session.id s.nextId body].filter
            (fun a => a.userId == u && a.sessionId == sess) = [] := by
          rw [List.filter_eq_nil_iff]
          intro a ha
          simp only [List.mem_singleton] at ha
          subst ha
          simp only [newCounsellingApplication, Bool.and_eq_true, beq_iff_eq]
          exact hpair
        rw [hnew]
        exact h u sess
  | cancel userId id =>
    rcases (cancel_feedback_cases env s userId id ⟨none, none⟩).1 with hsame |
      ⟨a, a', hfind, hu, hs, happs⟩
    · simp only [handleCounselling, hsame]; exact h u sess
    · simp only [handleCounselling, pairCount, happs]
      rw [filter_saveCounsellingApplication _ a a' (by rw [hu, hs]) _ hfind]
      exact h u sess
  | feedback userId id body =>
    rcases (cancel_feedback_cases env s userId id body).2 with hsame |
      ⟨a, a', hfind, hu, hs, happs⟩
    · simp only [handleCounselling, hsame]; exact h u sess
    · simp only [handleCounselling, pairCount, happs]
      rw [filter_saveCounsellingApplication _ a a' (by rw [hu, hs]) _ hfind]
      exact h u sess

/-- C27: the duplicate check of the counselling apply handler ignores the
application status: for an open session, a user who has any application
for it, whatever its status, is answered 400 "Already applied for this
counselling session" and nothing is stored; and every sequence of apply,
cancel and feedback requests keeps at most one application per user and
session, whatever storage calls throw. -/
theorem duplicate_check_ignores_status (env : Env) (s : CounsellingStore)
    (userId sessionId : Nat) (body : ApplyBody) (session : CounsellingSession)
    (existing : CounsellingApplication)
    (hprim : ∀ n, env.primaryFails n = false)
    (hsession : findSession s sessionId = some session)
    (hact : session.isActive = true) (hsch : session.status = SessionStatus.scheduled)
    (hexisting : findSessionApplication s userId session.id = some existing) :
    applyForSession env s userId sessionId body =
        (⟨400, CounsellingBody.message "Already applied for this counselling session"⟩, s) ∧
      ∀ (reqs : List (Env × CounsellingRequest)) (s₀ : CounsellingStore),
        (∀ u sess, pairCount s₀ u sess ≤ 1) →
        ∀ u sess, pairCount (runCounselling reqs s₀) u sess ≤ 1 := by
  refine ⟨by simp [applyForSession, hprim, hsession, hact, hsch, hexisting], ?_⟩
  intro reqs
  induction reqs with
  | nil => intro s₀ h; exact h
  | cons r rest ih =>
    intro s₀ h
    obtain ⟨env', req⟩ := r
    exact ih _ (handleCounselling_pairCount env' s₀ req h)

theorem duplicate_check_ignores_status_witness :
    applyForSession sampleEnv cancelledStore 7 1 sampleApplyBody =
        (⟨400, CounsellingBody.message "Already applied for this counselling session"⟩,
          cancelledStore) ∧
      ∀ (reqs : List (Env × CounsellingRequest)) (s₀ : CounsellingStore),
        (∀ u sess, pairCount s₀ u sess ≤ 1) →
        ∀ u sess, pairCount (runCounselling reqs s₀) u sess ≤ 1 :=
  duplicate_check_ignores_status sampleEnv cancelledStore 7 1 sampleApplyBody sampleSession
    { completedApplication with status := CounsellingStatus.cancelled } (fun _ => rfl)
    (by decide) rfl rfl (by decide)

/-- C26: a successful next-stage request stores status `selected` whenever
the clamped next index is the last index, whatever the status was, so a
rejected application advanced into or at the final stage ends `selected`;
when the next index is not the last one a rejected application stays
`rejected` and its stage index still moves on by one. -/
theorem advance_overrides_rejected (env : Env) (s : Store) (id : Nat)
    (application : Application) (drive : Drive)
    (hprim : ∀ n, env.primaryFails n = false)
    (happ : findApplication s id = some application)
    (hdrive : application.driveId.bind (findDrive s) = some drive)
    (hproc : drive.process ≠ []) :
    ∃ stored, findApplication (advanceStage env s id).2 id = some stored ∧
      (min (application.processStageIndex.getD 0 + 1) (drive.process.length - 1) =
          drive.process.length - 1 → stored.status = AppStatus.selected) ∧
      (application.status = AppStatus.rejected →
        min (application.processStageIndex.getD 0 + 1) (drive.process.length - 1) ≠
          drive.process.length - 1 →
        stored.status = AppStatus.rejected ∧
          stored.processStageIndex = some (application.processStageIndex.getD 0 + 1)) := by
  refine ⟨_, advanceStage_stored env s id application drive (hprim 0) (hprim 1) happ hdrive hproc,
    ?_, ?_⟩
  · intro h
    show (if min (application.processStageIndex.getD 0 + 1) (drive.process.length - 1) =
      drive.process.length - 1 then AppStatus.selected else application.status) = _
    rw [if_pos h]
  · intro hrej h
    refine ⟨?_, ?_⟩
    · show (if min (application.processStageIndex.getD 0 + 1) (drive.process.length - 1) =
        drive.process.length - 1 then AppStatus.selected else application.status) = _
      rw [if_neg h, hrej]
    · show some (min (application.processStageIndex.getD 0 + 1) (drive.process.length - 1)) = _
      congr 1
      omega

theorem advance_overrides_rejected_witness :
    ∃ stored, findApplication (advanceStage sampleEnv rejectedStore 10).2 10 = some stored ∧
      (min (0 + 1) (3 - 1) = 3 - 1 → stored.status = AppStatus.selected) ∧
      (AppStatus.rejected = AppStatus.rejected → min (0 + 1) (3 - 1) ≠ 3 - 1 →
        stored.status = AppStatus.rejected ∧ stored.processStageIndex = some (0 + 1)) :=
  advance_overrides_rejected sampleEnv rejectedStore 10
    (rejectUpdate sampleEnv (newApplication sampleDrive 5 10) (newApplication sampleDrive 5 10))
    { sampleDrive with applicants := 1 } (fun _ => rfl) (by decide) (by decide) (by decide)

/-- C25, as the code behaves: "99:99 PM" has the form of the pattern and
makes the handler pass hour 111 and minute 99 to the event date. -/
theorem clock_time_out_of_range :
    TimeForm "99:99 PM".data 99 99 true ∧ clockTime "99:99 PM" = (111, 99) ∧
      ¬ (111 ≤ 23) ∧ ¬ (99 ≤ 59) :=
  ⟨⟨['9', '9'], [' '], '9', '9', 'P', 'M', by decide, by decide, by decide, by decide, by decide,
      by decide, by decide, by decide, by decide, by decide⟩,
    by decide, by decide, by decide⟩

/-- C25, amended: for every time string accepted by the pattern whose
written hour is at most 12 and whose written minute is at most 59, the hour
passed to the event date is at most 23 and the minute at most 59. -/
theorem clock_time_in_range (time : String) (hours minutes : Nat) (pm : Bool)
    (hform : TimeForm time.data hours minutes pm) (hh : hours ≤ 12) (hm : minutes ≤ 59) :
    clockTime time = (hour24 hours pm, minutes) ∧ (clockTime time).1 ≤ 23 ∧
      (clockTime time).2 ≤ 59 := by
  have h : clockTime time = (hour24 hours pm, minutes) := by
    unfold clockTime
    rw [timeMatch_of_form time.data hours minutes pm hform]
    cases pm <;> by_cases h12 : hours = 12 <;> simp [hour24, h12]
  rw [h]
  refine ⟨rfl, ?_, hm⟩
  show hour24 hours pm ≤ 23
  unfold hour24
  cases pm <;> by_cases h12 : hours = 12 <;> simp [h12] <;> omega

theorem clock_time_in_range_witness :
    clockTime "11:59 pm" = (23, 59) ∧ (clockTime "11:59 pm").1 ≤ 23 ∧
      (clockTime "11:59 pm").2 ≤ 59 :=
  clock_time_in_range "11:59 pm" 11 59 true
    ⟨['1', '1'], [' '], '5', '9', 'p', 'm', by decide, by decide, by decide, by decide,
      by decide, by decide, by decide, by decide, by decide, by decide⟩ (by decide) (by decide)


/-- C24, as the code behaves: when the first storage call throws, the
next-stage and reject handlers answer 400, not 500. -/
theorem admin_failure_is_400 :
    advanceStage downEnv appliedStore 10 =
        (⟨400, Body.message "Failed to move to next stage"⟩, appliedStore) ∧
      rejectApplication downEnv appliedStore 10 =
        (⟨400, Body.message "Failed to reject application"⟩, appliedStore) ∧
      (advanceStage downEnv appliedStore 10).1.status ≠ 500 ∧
      (rejectApplication downEnv appliedStore 10).1.status ≠ 500 := by
  decide

theorem applyToDrive_failure (env : Env) (s : Store) (userId driveId : Nat) :
    (applyToDrive env s userId driveId).1 =
        (applyToDrive env.withoutFailures s userId driveId).1 ∨
      (applyToDrive env s userId driveId).1 = ⟨500, Body.message "Server error"⟩ := by
  unfold applyToDrive
  by_cases h0 : env.primaryFails 0 = true
  · right; simp [h0, serverError]
  · cases hd : findDrive s driveId with
    | none => left; simp [h0, Env.withoutFailures]
    | some drive =>
      by_cases h1 : env.primaryFails 1 = true
      · right; simp [h0, h1, serverError]
      · cases hu : findUserApplication s userId drive.id with
        | some _ => left; simp [h0, h1, hu, Env.withoutFailures]
        | none =>
          by_cases h2 : env.primaryFails 2 = true
          · right; simp [h0, h1, h2, hu, serverError]
          · by_cases h3 : env.primaryFails 3 = true
            · right; simp [h0, h1, h2, h3, hu, serverError]
            · left; simp [h0, h1, h2, h3, hu, Env.withoutFailures]

theorem advanceStage_failure (env : Env) (s : Store) (id : Nat) :
    (advanceStage env s id).1 = (advanceStage env.withoutFailures s id).1 ∨
      (advanceStage env s id).1 = ⟨400, Body.message "Failed to move to next stage"⟩ := by
  unfold advanceStage
  by_cases h0 : env.primaryFails 0 = true
  · right; simp [h0]
  · cases ha : findApplication s id with
    | none => left; simp [h0, Env.withoutFailures]
    | some a =>
      cases hd : a.driveId.bind (findDrive s) with
      | none => left; simp [h0, hd, Env.withoutFailures]
      | some d =>
        by_cases hl : d.process.length = 0
        · left; simp [h0, hd, hl, Env.withoutFailures]
        · by_cases h1 : env.primaryFails 1 = true
          · right; simp [h0, hd, hl, h1]
          · left; simp [h0, hd, hl, h1, Env.withoutFailures, advanceUpdate]

theorem rejectApplication_failure (env : Env) (s : Store) (id : Nat) :
    (rejectApplication env s id).1 = (rejectApplication env.withoutFailures s id).1 ∨
      (rejectApplication env s id).1 = ⟨400, Body.message "Failed to reject application"⟩ := by
  unfold rejectApplication
  by_cases h0 : env.primaryFails 0 = true
  · right; simp [h0]
  · cases ha : findApplication s id with
    | none => left; simp [h0, Env.withoutFailures]
    | some a =>
      by_cases h1 : env.primaryFails 1 = true
      · right; simp [h0, h1]
      · left; simp [h0, h1, Env.withoutFailures, rejectUpdate]

theorem applyForSession_failure (env : Env) (s : CounsellingStore) (userId sessionId : Nat)
    (body : ApplyBody) :
    (applyForSession env s userId sessionId body).1 =
        (applyForSession env.withoutFailures s userId sessionId body).1 ∨
      (applyForSession env s userId sessionId body).1 =
        ⟨500, CounsellingBody.message "Server error"⟩ := by
  unfold applyForSession
  by_cases h0 : env.primaryFails 0 = true
  · right; simp [h0, counsellingServerError]
  · cases hs : findSession s sessionId with
    | none => left; simp [h0, Env.withoutFailures]
    | some session =>
      by_cases hopen : (!session.isActive || session.status != SessionStatus.scheduled) = true
      · left; simp [h0, hopen, Env.withoutFailures]
      · by_cases h1 : env.primaryFails 1 = true
        · right; simp [h0, hopen, h1, counsellingServerError]
        · cases hex : findSessionApplication s userId session.id with
          | some _ => left; simp [h0, hopen, h1, hex, Env.withoutFailures]
          | none =>
            by_cases h2 : env.primaryFails 2 = true
            · right; simp [h0, hopen, h1, h2, hex, counsellingServerError]
            · by_cases hfull : (currentApplications s session.id : Int) ≥ session.maxParticipants
              · left; simp [h0, hopen, h1, h2, hfull, hex, Env.withoutFailures]
              · by_cases h3 : env.primaryFails 3 = true
                · right; simp [h0, hopen, h1, h2, hfull, h3, hex, counsellingServerError]
                · by_cases hv : validApplyBody body = true
                  · by_cases h4 : env.primaryFails 4 = true
                    · right
                      simp [h0, hopen, h1, h2, hfull, h3, h4, hv, hex, counsellingServerError]
                    · left
                      simp [h0, hopen, h1, h2, hfull, h3, h4, hv, hex, Env.withoutFailures,
                        newCounsellingApplication]
                  · left
                    simp [h0, hopen, h1, h2, hfull, h3, hv, hex, Env.withoutFailures]

theorem cancelApplication_failure (env : Env) (s : CounsellingStore) (userId id : Nat) :
    (cancelApplication env s userId id).1 =
        (cancelApplication env.withoutFailures s userId id).1 ∨
      (cancelApplication env s userId id).1 = ⟨500, CounsellingBody.message "Server error"⟩ := by
  unfold cancelApplication
  by_cases h0 : env.primaryFails 0 = true
  · right; simp [h0, counsellingServerError]
  · cases hf : findOwnedApplication s userId id with
    | none => left; simp [h0, Env.withoutFailures]
    | some a =>
      by_cases hst : (a.status == CounsellingStatus.completed ||
          a.status == CounsellingStatus.cancelled) = true
      · left; simp [h0, hst, Env.withoutFailures]
      · by_cases h1 : env.primaryFails 1 = true
        · right; simp [h0, hst, h1, counsellingServerError]
        · left; simp [h0, hst, h1, Env.withoutFailures, cancelledApplication]

theorem submitFeedback_failure (env : Env) (s : CounsellingStore) (userId id : Nat)
    (body : FeedbackBody) :
    (submitFeedback env s userId id body).1 =
        (submitFeedback env.withoutFailures s userId id body).1 ∨
      (submitFeedback env s userId id body).1 =
        ⟨500, CounsellingBody.message "Server error"⟩ := by
  unfold submitFeedback
  by_cases h0 : env.primaryFails 0 = true
  · right; simp [h0, counsellingServerError]
  · cases hf : (findOwnedApplication s userId id).filter
        (fun a => a.status == CounsellingStatus.completed) with
    | none => left; simp [h0, Env.withoutFailures]
    | some a =>
      by_cases h1 : env.primaryFails 1 = true
      · right; simp [h0, h1, counsellingServerError]
      · by_cases hv : validFeedback body = true
        · left; simp [h0, h1, hv, Env.withoutFailures, withFeedback]
        · left; simp [h0, h1, hv, Env.withoutFailures]

/-- C24, amended: whatever calls on the primary collections throw, the
answer of each handler is either the answer it gives when none of them
throws or a fixed generic error, and a throw of any call the handler
reaches gives that generic error: 500 "Server error" for the apply handler
of drives (calls: find the drive, find an earlier application, create the
application, save the drive) and for the three counselling handlers (apply:
find the session, find an earlier application, count, create, populate;
cancel and feedback: find the application, save it), 400 "Failed to move to
next stage" for the next-stage handler and 400 "Failed to reject
application" for the reject handler (calls: find the application, update
it). The store is unchanged, except that a throw of the last call of the
two apply handlers comes after the new application was stored. -/
theorem storage_failure_responses (env : Env) :
    (∀ s userId driveId,
      ((applyToDrive env s userId driveId).1 =
          (applyToDrive env.withoutFailures s userId driveId).1 ∨
        (applyToDrive env s userId driveId).1 = ⟨500, Body.message "Server error"⟩) ∧
      (env.primaryFails 0 = true →
        applyToDrive env s userId driveId = (⟨500, Body.message "Server error"⟩, s)) ∧
      (∀ drive, env.primaryFails 0 = false → findDrive s driveId = some drive →
        env.primaryFails 1 = true →
        applyToDrive env s userId driveId = (⟨500, Body.message "Server error"⟩, s)) ∧
      (∀ drive, env.primaryFails 0 = false → findDrive s driveId = some drive →
        env.primaryFails 1 = false → findUserApplication s userId drive.id = none →
        env.primaryFails 2 = true →
        applyToDrive env s userId driveId = (⟨500, Body.message "Server error"⟩, s)) ∧
      (∀ drive, env.primaryFails 0 = false → findDrive s driveId = some drive →
        env.primaryFails 1 = false → findUserApplication s userId drive.id = none →
        env.primaryFails 2 = false → env.primaryFails 3 = true →
        applyToDrive env s userId driveId =
          (⟨500, Body.message "Server error"⟩, afterEvents env s drive userId))) ∧
    (∀ s id,
      ((advanceStage env s id).1 = (advanceStage env.withoutFailures s id).1 ∨
        (advanceStage env s id).1 = ⟨400, Body.message "Failed to move to next stage"⟩) ∧
      (env.primaryFails 0 = true →
        advanceStage env s id = (⟨400, Body.message "Failed to move to next stage"⟩, s)) ∧
      (∀ application drive, env.primaryFails 0 = false →
        findApplication s id = some application →
        application.driveId.bind (findDrive s) = some drive → drive.process.length ≠ 0 →
        env.primaryFails 1 = true →
        advanceStage env s id = (⟨400, Body.message "Failed to move to next stage"⟩, s))) ∧
    (∀ s id,
      ((rejectApplication env s id).1 = (rejectApplication env.withoutFailures s id).1 ∨
        (rejectApplication env s id).1 = ⟨400, Body.message "Failed to reject application"⟩) ∧
      (env.primaryFails 0 = true →
        rejectApplication env s id =
          (⟨400, Body.message "Failed to reject application"⟩, s)) ∧
      (∀ application, env.primaryFails 0 = false →
        findApplication s id = some application → env.primaryFails 1 = true →
        rejectApplication env s id =
          (⟨400, Body.message "Failed to reject application"⟩, s))) ∧
    (∀ s userId sessionId body,
      ((applyForSession env s userId sessionId body).1 =
          (applyForSession env.withoutFailures s userId sessionId body).1 ∨
        (applyForSession env s userId sessionId body).1 =
          ⟨500, CounsellingBody.message "Server error"⟩) ∧
      (env.primaryFails 0 = true →
        applyForSession env s userId sessionId body =
          (⟨500, CounsellingBody.message "Server error"⟩, s)) ∧
      (∀ session : CounsellingSession, env.primaryFails 0 = false →
        findSession s sessionId = some session →
        session.isActive = true → session.status = SessionStatus.scheduled →
        env.primaryFails 1 = true →
        applyForSession env s userId sessionId body =
          (⟨500, CounsellingBody.message "Server error"⟩, s)) ∧
      (∀ session : CounsellingSession, env.primaryFails 0 = false →
        findSession s sessionId = some session →
        session.isActive = true → session.status = SessionStatus.scheduled →
        env.primaryFails 1 = false → findSessionApplication s userId session.id = none →
        env.primaryFails 2 = true →
        applyForSession env s userId sessionId body =
          (⟨500, CounsellingBody.message "Server error"⟩, s)) ∧
      (∀ session : CounsellingSession, env.primaryFails 0 = false →
        findSession s sessionId = some session →
        session.isActive = true → session.status = SessionStatus.scheduled →
        env.primaryFails 1 = false → findSessionApplication s userId session.id = none →
        env.primaryFails 2 = false →
        (currentApplications s session.id : Int) < session.maxParticipants →
        env.primaryFails 3 = true →
        applyForSession env s userId sessionId body =
          (⟨500, CounsellingBody.message "Server error"⟩, s)) ∧
      (∀ session : CounsellingSession, env.primaryFails 0 = false →
        findSession s sessionId = some session →
        session.isActive = true → session.status = SessionStatus.scheduled →
        env.primaryFails 1 = false → findSessionApplication s userId session.id = none →
        env.primaryFails 2 = false →
        (currentApplications s session.id : Int) < session.maxParticipants →
        env.primaryFails 3 = false → validApplyBody body = true →
        env.primaryFails 4 = true →
        applyForSession env s userId sessionId body =
          (⟨500, CounsellingBody.message "Server error"⟩,
            { s with
              applications :=
                s.applications ++ [newCounsellingApplication env userId session.id s.nextId body]
              nextId := s.nextId + 1 }))) ∧
    (∀ s userId id,
      ((cancelApplication env s userId id).1 =
          (cancelApplication env.withoutFailures s userId id).1 ∨
        (cancelApplication env s userId id).1 =
          ⟨500, CounsellingBody.message "Server error"⟩) ∧
      (env.primaryFails 0 = true →
        cancelApplication env s userId id =
          (⟨500, CounsellingBody.message "Server error"⟩, s)) ∧
      (∀ application : CounsellingApplication, env.primaryFails 0 = false →
        findOwnedApplication s userId id = some application →
        application.status ≠ CounsellingStatus.completed →
        application.status ≠ CounsellingStatus.cancelled →
        env.primaryFails 1 = true →
        cancelApplication env s userId id =
          (⟨500, CounsellingBody.message "Server error"⟩, s))) ∧
    (∀ s userId id body,
      ((submitFeedback env s userId id body).1 =
          (submitFeedback env.withoutFailures s userId id body).1 ∨
        (submitFeedback env s userId id body).1 =
          ⟨500, CounsellingBody.message "Server error"⟩) ∧
      (env.primaryFails 0 = true →
        submitFeedback env s userId id body =
          (⟨500, CounsellingBody.message "Server error"⟩, s)) ∧
      (∀ application : CounsellingApplication, env.primaryFails 0 = false →
        findOwnedApplication s userId id = some application →
        application.status = CounsellingStatus.completed →
        env.primaryFails 1 = true →
        submitFeedback env s userId id body =
          (⟨500, CounsellingBody.message "Server error"⟩, s))) := by
  refine ⟨?_, ?_, ?_, ?_, ?_, ?_⟩
  · intro s userId driveId
    refine ⟨applyToDrive_failure env s userId driveId,
      fun h => by simp [applyToDrive, h, serverError], ?_, ?_, ?_⟩
    · intro drive h0 hd h1
      simp [applyToDrive, h0, hd, h1, serverError]
    · intro drive h0 hd h1 hu h2
      simp [applyToDrive, h0, hd, h1, hu, h2, serverError]
    · intro drive h0 hd h1 hu h2 h3
      have hid : (newApplication drive userId s.nextId).id = s.nextId := rfl
      unfold applyToDrive
      simp only [h0, hd, h1, hu, h2, h3, Bool.false_eq_true, if_false, if_true]
      rw [hid, createEvents_guard]
      rfl
  · intro s id
    refine ⟨advanceStage_failure env s id, fun h => by simp [advanceStage, h], ?_⟩
    intro application drive h0 ha hd hl h1
    simp [advanceStage, h0, ha, hd, hl, h1]
  · intro s id
    refine ⟨rejectApplication_failure env s id, fun h => by simp [rejectApplication, h], ?_⟩
    intro application h0 ha h1
    simp [rejectApplication, h0, ha, h1]
  · intro s userId sessionId body
    refine ⟨applyForSession_failure env s userId sessionId body,
      fun h => by simp [applyForSession, h, counsellingServerError], ?_, ?_, ?_, ?_⟩
    · intro session h0 hs hact hst h1
      simp [applyForSession, h0, hs, hact, hst, h1, counsellingServerError]
    · intro session h0 hs hact hst h1 hex h2
      simp [applyForSession, h0, hs, hact, hst, h1, hex, h2, counsellingServerError]
    · intro session h0 hs hact hst h1 hex h2 hfull h3
      simp [applyForSession, h0, hs, hact, hst, h1, hex, h2, hfull, h3,
        counsellingServerError]
    · intro session h0 hs hact hst h1 hex h2 hfull h3 hv h4
      simp [applyForSession, h0, hs, hact, hst, h1, hex, h2, hfull, h3, hv, h4,
        counsellingServerError]
  · intro s userId id
    refine ⟨cancelApplication_failure env s userId id,
      fun h => by simp [cancelApplication, h, counsellingServerError], ?_⟩
    intro application h0 hf hc hx h1
    simp [cancelApplication, h0, hf, hc, hx, h1, counsellingServerError]
  · intro s userId id body
    refine ⟨submitFeedback_failure env s userId id body,
      fun h => by simp [submitFeedback, h, counsellingServerError], ?_⟩
    intro application h0 hf hc h1
    have hfil : (some application).filter
        (fun a => a.status == CounsellingStatus.completed) = some application := by
      simp [Option.filter, hc]
    simp [submitFeedback, h0, hf, hfil, h1, counsellingServerError]

theorem storage_failure_responses_witness :
    applyToDrive (failAt 3) sampleStore 5 1 =
        (⟨500, Body.message "Server error"⟩,
          afterEvents (failAt 3) sampleStore sampleDrive 5) ∧
      (afterEvents (failAt 3) sampleStore sampleDrive 5).applications =
        [newApplication sampleDrive 5 10] ∧
      advanceStage (failAt 1) appliedStore 10 =
        (⟨400, Body.message "Failed to move to next stage"⟩, appliedStore) ∧
      rejectApplication (failAt 1) appliedStore 10 =
        (⟨400, Body.message "Failed to reject application"⟩, appliedStore) ∧
      applyForSession (failAt 4) sampleCounsellingStore 7 1 sampleApplyBody =
        (⟨500, CounsellingBody.message "Server error"⟩,
          { sampleCounsellingStore with
            applications := [newCounsellingApplication (failAt 4) 7 1 30 sampleApplyBody]
            nextId := 31 }) ∧
      cancelApplication (failAt 1) feedbackStore 8 31 =
        (⟨500, CounsellingBody.message "Server error"⟩, feedbackStore) ∧
      submitFeedback (failAt 1) feedbackStore 7 30 ⟨some 5, none⟩ =
        (⟨500, CounsellingBody.message "Server error"⟩, feedbackStore) :=
  ⟨((storage_failure_responses (failAt 3)).1 sampleStore 5 1).2.2.2.2 sampleDrive
      (by decide) (by decide) (by decide) (by decide) (by decide) (by decide),
    by decide,
    ((storage_failure_responses (failAt 1)).2.1 appliedStore 10).2.2
      (newApplication sampleDrive 5 10) { sampleDrive with applicants := 1 }
      (by decide) (by decide) (by decide) (by decide) (by decide),
    ((storage_failure_responses (failAt 1)).2.2.1 appliedStore 10).2.2
      (newApplication sampleDrive 5 10) (by decide) (by decide) (by decide),
    ((storage_failure_responses (failAt 4)).2.2.2.1 sampleCounsellingStore 7 1
        sampleApplyBody).2.2.2.2.2 sampleSession
      (by decide) (by decide) (by decide) (by decide) (by decide) (by decide) (by decide)
      (by decide) (by decide) (by decide) (by decide),
    ((storage_failure_responses (failAt 1)).2.2.2.2.1 feedbackStore 8 31).2.2
      appliedApplication (by decide) (by decide) (by decide) (by decide) (by decide),
    ((storage_failure_responses (failAt 1)).2.2.2.2.2 feedbackStore 7 30 ⟨some 5, none⟩).2.2
      completedApplication (by decide) (by decide) (by decide) (by decide)⟩

theorem mem_saveEvent (e x : Event) : ∀ l : List Event, x ∈ saveEvent e l → x ∈ l ∨ x = e := by
  intro l
  induction l with
  | nil => intro h; simp [saveEvent] at h
  | cons y rest ih =>
    intro h
    by_cases hy : y.id = e.id
    · simp only [saveEvent, hy, if_true, List.mem_cons] at h
      rcases h with h | h
      · exact Or.inr h
      · exact Or.inl (List.mem_cons_of_mem _ h)
    · simp only [saveEvent, hy, if_false, List.mem_cons] at h
      rcases h with h | h
      · exact Or.inl (h ▸ List.mem_cons_self _ _)
      · rcases ih h with h' | h'
        · exact Or.inl (List.mem_cons_of_mem _ h')
        · exact Or.inr h'

/-- C28: registration keeps the two invariants of every event's attendee
list (no user id twice; at most `maxAttendees` attendees when the limit is
set and not zero), whatever storage calls throw; a registration rejected as
already registered or as full returns the store unchanged; and with working
storage a registration that is neither appends exactly the caller with
status `registered` to the attendees and answers 200. -/
theorem register_keeps_attendee_invariants (env : Env) (s : Store) (userId eventId : Nat)
    (hinv : ∀ ev ∈ s.events, AttendeesOk ev) :
    (∀ ev ∈ (registerForEvent env s userId eventId).2.events, AttendeesOk ev) ∧
    (∀ event, findEvent s eventId = some event → env.primaryFails 0 = false →
      (event.attendees.any (fun attendee => attendee.userId == userId) = true →
        registerForEvent env s userId eventId =
          (⟨400, EventBody.message "Already registered for this event"⟩, s)) ∧
      (event.attendees.any (fun attendee => attendee.userId == userId) = false →
        eventIsFull event = true →
        registerForEvent env s userId eventId =
          (⟨400, EventBody.message "Event is full"⟩, s)) ∧
      (event.attendees.any (fun attendee => attendee.userId == userId) = false →
        eventIsFull event = false → env.primaryFails 1 = false →
        registerForEvent env s userId eventId =
          (⟨200, EventBody.registered "Successfully registered for event"
              { event with
                attendees := event.attendees ++ [{ userId := userId, status := "registered" }] }⟩,
            { s with
              events := saveEvent
                { event with
                  attendees :=
                    event.attendees ++ [{ userId := userId, status := "registered" }] }
                s.events }))) := by
  refine ⟨?_, ?_⟩
  · by_cases h0 : env.primaryFails 0 = true
    · simpa [registerForEvent, h0] using hinv
    · cases hf : findEvent s eventId with
      | none => simpa [registerForEvent, h0, hf] using hinv
      | some event =>
        by_cases hreg : event.attendees.any (fun attendee => attendee.userId == userId) = true
        · simpa [registerForEvent, h0, hf, hreg] using hinv
        · by_cases hfull : eventIsFull event = true
          · simpa [registerForEvent, h0, hf, hreg, hfull] using hinv
          · by_cases h1 : env.primaryFails 1 = true
            · simpa [registerForEvent, h0, hf, hreg, hfull, h1] using hinv
            · have hres : (registerForEvent env s userId eventId).2.events =
                  saveEvent
                    { event with
                      attendees :=
                        event.attendees ++ [{ userId := userId, status := "registered" }] }
                    s.events := by
                simp [registerForEvent, h0, hf, hreg, hfull, h1]
              rw [hres]
              intro ev hev
              rcases mem_saveEvent _ ev _ hev with hev | rfl
              · exact hinv ev hev
              · have hold := hinv event (List.mem_of_find?_eq_some hf)
                refine ⟨?_, ?_⟩
                · simp only [List.map_append, List.map_cons, List.map_nil]
                  rw [List.nodup_append]
                  refine ⟨hold.1, by simp, ?_⟩
                  intro a ha hb
                  simp only [List.mem_singleton] at hb
                  subst hb
                  apply hreg
                  rw [List.any_eq_true]
                  obtain ⟨x, hx, hxa⟩ := List.mem_map.mp ha
                  exact ⟨x, hx, by simp [hxa]⟩
                · intro m hm hm0
                  have hm' : event.maxAttendees = some m := hm
                  simp only [eventIsFull, hm', Bool.and_eq_true, Bool.not_eq_true',
                    beq_eq_false_iff_ne, ne_eq, hm0, not_false_eq_true, decide_eq_true_eq,
                    true_and, not_le] at hfull
                  simp only [List.length_append, List.length_singleton, Nat.cast_add,
                    Nat.cast_one]
                  omega
  · intro event hf h0
    refine ⟨?_, ?_, ?_⟩
    · intro hreg
      simp [registerForEvent, h0, hf, hreg]
    · intro hreg hfull
      simp [registerForEvent, h0, hf, hreg, hfull]
    · intro hreg hfull h1
      simp [registerForEvent, h0, hf, hreg, hfull, h1]


theorem workshop_attendees_ok : ∀ ev ∈ workshopStore.events, AttendeesOk ev := by
  intro ev hev
  simp only [workshopStore, List.mem_singleton] at hev
  subst hev
  refine ⟨by decide, ?_⟩
  intro m hm _
  have : m = 2 := by
    simp only [workshop, Option.some.injEq] at hm
    exact hm.symm
  subst this
  decide

theorem register_keeps_attendee_invariants_witness :
    (∀ ev ∈ (registerForEvent sampleEnv workshopStore 6 50).2.events, AttendeesOk ev) ∧
      registerForEvent sampleEnv workshopStore 5 50 =
        (⟨400, EventBody.message "Already registered for this event"⟩, workshopStore) ∧
      (findEvent (registerForEvent sampleEnv workshopStore 6 50).2 50).map
          (fun ev => ev.attendees) =
        some [{ userId := 5, status := "registered" }, { userId := 6, status := "registered" }] :=
  ⟨(register_keeps_attendee_invariants sampleEnv workshopStore 6 50 workshop_attendees_ok).1,
    ((register_keeps_attendee_invariants sampleEnv workshopStore 5 50 workshop_attendees_ok).2
      workshop (by decide) rfl).1 (by decide),
    by decide⟩

theorem fallback_length (l : List String) (x : String) :
    1 ≤ (if l.length = 0 then l ++ [x] else l).length ∧
      1 ≤ (if l.length = 0 then setAdd l x else l).length := by
  by_cases h : l.length = 0
  · have hl : l = [] := List.length_eq_zero.mp h
    subst hl
    simp [setAdd]
  · simp only [h, if_false]
    omega

theorem readiness_level (skills interests : Nat) (hs : 1 ≤ skills) (hi : 1 ≤ interests) :
    67 ≤ min 95 (50 + skills * 12 + min 20 (interests * 5)) ∧
      min 95 (50 + skills * 12 + min 20 (interests * 5)) ≤ 95 ∧
      min 95 (50 + skills * 12 + min 20 (interests * 5)) > 55 := by
  omega

/-- C29: for every file name (present or absent) and whatever
`toLowerCase` returns, the mock analyzer returns non-empty `interests` and
`topSkills` and a `readinessScore` between 67 and 95; `skillLevel` is
"Ready" or "Developing" and never "Needs Improvement". -/
theorem mockAnalyze_bounds (toLowerCase : String → String) (fileName : Option String) :
    (mockAnalyzeFromName toLowerCase fileName).interests ≠ [] ∧
      (mockAnalyzeFromName toLowerCase fileName).topSkills ≠ [] ∧
      67 ≤ (mockAnalyzeFromName toLowerCase fileName).readinessScore ∧
      (mockAnalyzeFromName toLowerCase fileName).readinessScore ≤ 95 ∧
      ((mockAnalyzeFromName toLowerCase fileName).skillLevel = "Ready" ∨
        (mockAnalyzeFromName toLowerCase fileName).skillLevel = "Developing") ∧
      (mockAnalyzeFromName toLowerCase fileName).skillLevel ≠ "Needs Improvement" := by
  unfold mockAnalyzeFromName
  simp only []
  generalize hst : (if (includes (toLowerCase (strOr fileName "")) "aws" ||
      includes (toLowerCase (strOr fileName "")) "cloud") = true then _ else _ :
      List String × List String) = st
  obtain ⟨hi, hs⟩ := And.intro (fallback_length st.1 "General Software Engineering").1
    (fallback_length st.2 "Problem Solving").2
  generalize (if st.1.length = 0 then st.1 ++ ["General Software Engineering"] else st.1) =
    interests at hi ⊢
  generalize (if st.2.length = 0 then setAdd st.2 "Problem Solving" else st.2) = skills at hs ⊢
  obtain ⟨h67, h95, h55⟩ := readiness_level skills.length interests.length hs hi
  refine ⟨?_, ?_, h67, h95, ?_, ?_⟩
  · intro h; rw [h] at hi; simp at hi
  · intro h; rw [h] at hs; simp at hs
  · by_cases h75 : min 95 (50 + skills.length * 12 + min 20 (interests.length * 5)) > 75
    · left; simp [h75]
    · right; simp [h75, h55]
  · by_cases h75 : min 95 (50 + skills.length * 12 + min 20 (interests.length * 5)) > 75
    · simp [h75]
    · simp [h75, h55]

theorem solutions_pass_loose_test :
    bossChallenges.all (fun ch =>
      isAscii (String.mk (trimChars (collapseSpaces false ch.solution.data))) &&
      isAscii (String.mk (ch.display.data.takeWhile (fun c => c != '('))) &&
      looseTest (asciiLower (String.mk (trimChars (collapseSpaces false ch.solution.data))))
        (asciiLower (String.mk (ch.display.data.takeWhile (fun c => c != '('))))) = true := by
  decide

/-- C30: for every challenge of `bossChallenges` (with a `toLowerCase` that
lower-cases ASCII text as usual), the reference solution passes the loose
keyword test; every input that matches the reference solution after
white-space collapsing, trimming and lower-casing is accepted when the game
is not supercharged (supercharge on, 100 points); every input accepted by
the exact-match test is accepted by the loose test; so acceptance is
decided by the loose test alone. -/
theorem reference_solution_accepted (toLowerCase : String → String)
    (hascii : ∀ s, isAscii s = true → toLowerCase s = asciiLower s)
    (challenge : Challenge) (hmem : challenge ∈ bossChallenges) (g : Game)
    (hcur : g.currentChallenge = some challenge) (hnot : g.isSupercharged = false) :
    isCorrect toLowerCase challenge challenge.solution = true ∧
    (isPerfectMatch toLowerCase challenge g.userCode = true →
      isCorrect toLowerCase challenge g.userCode = true) ∧
    (simplifyCode toLowerCase g.userCode = simplifyCode toLowerCase challenge.solution →
      (handleSubmitCode toLowerCase g).isSupercharged = true ∧
        (handleSubmitCode toLowerCase g).score = g.score + 100) ∧
    (handleSubmitCode toLowerCase g).isSupercharged =
      isCorrect toLowerCase challenge g.userCode := by
  have hall := List.all_eq_true.mp solutions_pass_loose_test challenge hmem
  simp only [Bool.and_eq_true] at hall
  obtain ⟨⟨h1, h2⟩, h3⟩ := hall
  have hsol : isCorrect toLowerCase challenge challenge.solution = true := by
    unfold isCorrect simplifyCode methodNameOf
    rw [hascii _ h1, hascii _ h2]
    exact h3
  have hperfect : isPerfectMatch toLowerCase challenge g.userCode = true →
      isCorrect toLowerCase challenge g.userCode = true := by
    intro h
    have heq : simplifyCode toLowerCase g.userCode =
        simplifyCode toLowerCase challenge.solution := by
      simpa [isPerfectMatch] using h
    unfold isCorrect at hsol ⊢
    rw [heq]; exact hsol
  have hstate : (handleSubmitCode toLowerCase g).isSupercharged =
      (isPerfectMatch toLowerCase challenge g.userCode ||
        isCorrect toLowerCase challenge g.userCode) ∧
      ((isPerfectMatch toLowerCase challenge g.userCode ||
        isCorrect toLowerCase challenge g.userCode) = true →
        (handleSubmitCode toLowerCase g).score = g.score + 100) := by
    unfold handleSubmitCode
    simp only [hcur, hnot, Bool.false_eq_true, if_false]
    by_cases hacc : (isPerfectMatch toLowerCase challenge g.userCode ||
        isCorrect toLowerCase challenge g.userCode) = true
    · simp [hacc]
    · simp [hacc, hnot]
  refine ⟨hsol, hperfect, ?_, ?_⟩
  · intro heq
    have hpm : isPerfectMatch toLowerCase challenge g.userCode = true := by
      simp [isPerfectMatch, heq]
    have hacc : (isPerfectMatch toLowerCase challenge g.userCode ||
        isCorrect toLowerCase challenge g.userCode) = true := by simp [hpm]
    exact ⟨by rw [hstate.1, hacc], hstate.2 hacc⟩
  · rw [hstate.1]
    cases hpm : isPerfectMatch toLowerCase challenge g.userCode
    · simp
    · simp [hperfect hpm]

theorem reference_solution_accepted_witness :
    (handleSubmitCode asciiLower sampleGame).isSupercharged = true ∧
      (handleSubmitCode asciiLower sampleGame).score = 0 + 100 :=
  (reference_solution_accepted asciiLower (fun _ _ => rfl)
    { display := "calculateSum(5, 10)"
      solution := "public int calculateSum(int a, int b) \x7b return a + b; \x7d"
      hint := "Return the sum of two integers" }
    (List.mem_cons_self _ _) sampleGame rfl rfl).2.2.1 (by decide)

end Fsd
